import Mathlib

/-!
Btraj: safe flight corridor, time allocation, Bezier evaluation, trajectory monitor

A shallow embedding of `src/fm_trajectory_node.cpp`.

Conventions of the embedding.

* A C++ `double` is a rational number (`ℚ`): comparisons, `max`, `min`, sums and
  products are the exact ones; NaN and infinities are not represented.
  Where the source tests for them (the arrival times of `sortPath`, the odometry), a
  double is a value of `Dbl`: a rational, an infinity or a NaN.
  Where rounding decides what the code does (the time variables of the safety monitor),
  the operations on doubles are the parameter `DoubleOps`, of which nothing is assumed.
* A C++ `int` / `int64_t` grid index is an `Int`. The sums and differences of an index
  and the free parameter `_step_length` wrap around as a 32-bit `int` does (`wrapInt`);
  the other index arithmetic stays within two of the map indices, far from the machine
  limits.
* An Eigen 8×3 matrix is the record `Mat8x3`, whose field `xi` / `yi` / `zi` is
  the entry `(i, 0)` / `(i, 1)` / `(i, 2)` of the source.
* A `std::vector` is a `List`; a `for` loop is a function that recurses on the
  number of iterations left.
-/

namespace Btraj

/-! ## Data model -/

/-- An 8×3 matrix; `xi`, `yi`, `zi` are the entries `(i, 0)`, `(i, 1)`, `(i, 2)`. -/
structure Mat8x3 (α : Type) where
  x0 : α
  y0 : α
  z0 : α
  x1 : α
  y1 : α
  z1 : α
  x2 : α
  y2 : α
  z2 : α
  x3 : α
  y3 : α
  z3 : α
  x4 : α
  y4 : α
  z4 : α
  x5 : α
  y5 : α
  z5 : α
  x6 : α
  y6 : α
  z6 : α
  x7 : α
  y7 : α
  z7 : α
  deriving DecidableEq

/-- An `Eigen::Vector3d`. -/
structure Vec3 where
  x : ℚ
  y : ℚ
  z : ℚ
  deriving DecidableEq

/-- An `Eigen::Vector3i` of grid indices. -/
structure Idx3 where
  x : Int
  y : Int
  z : Int
  deriving DecidableEq

/-- Modelled from the spec: the `Cube` record, whose declaration is in
`bezier_planer/dataType.h` and not in `fm_trajectory_node.cpp`. Spec §3: an axis-aligned
box with 8 vertices in a fixed corner order, a center, an arrival time `t` and a `valid`
flag. `fm_trajectory_node.cpp` reads and writes exactly these four members. -/
structure Cube where
  vertex : Mat8x3 ℚ
  center : Vec3
  valid : Bool
  t : ℚ
  deriving DecidableEq

/-- The eight rows of a vertex matrix describe an axis-aligned box in the corner order
of `generateCube`: rows 0,1,4,5 share the upper x, rows 2,3,6,7 the lower x, rows
0,3,4,7 the lower y, rows 1,2,5,6 the upper y, rows 0..3 the upper z, rows 4..7 the
lower z. -/
def Mat8x3.boxLayout {α : Type} (v : Mat8x3 α) : Prop :=
  (v.x1 = v.x0 ∧ v.x4 = v.x0 ∧ v.x5 = v.x0) ∧
  (v.x2 = v.x6 ∧ v.x3 = v.x6 ∧ v.x7 = v.x6) ∧
  (v.y3 = v.y0 ∧ v.y4 = v.y0 ∧ v.y7 = v.y0) ∧
  (v.y1 = v.y6 ∧ v.y2 = v.y6 ∧ v.y5 = v.y6) ∧
  (v.z1 = v.z0 ∧ v.z2 = v.z0 ∧ v.z3 = v.z0) ∧
  (v.z4 = v.z6 ∧ v.z5 = v.z6 ∧ v.z7 = v.z6)

/-! ## Containment and corridor simplification -/

/-- The function `isContains(cube1, cube2)` (source lines 675-682). -/
def isContains (cube1 cube2 : Cube) : Bool :=
  decide (cube1.vertex.x0 ≥ cube2.vertex.x0) && decide (cube1.vertex.y0 ≤ cube2.vertex.y0) &&
  decide (cube1.vertex.z0 ≥ cube2.vertex.z0) &&
  decide (cube1.vertex.x6 ≤ cube2.vertex.x6) && decide (cube1.vertex.y6 ≥ cube2.vertex.y6) &&
  decide (cube1.vertex.z6 ≤ cube2.vertex.z6)

/-- One pass of the body of the inner loop of `corridorSimplify` at indices `j`, `k`:
`if (!cubicList[k].valid) continue; else if (isContains(cubicList[j], cubicList[k]))
cubicList[k].valid = false;`. -/
def simplifyStep (cubicList : List Cube) (j k : Nat) : List Cube :=
  match cubicList[j]?, cubicList[k]? with
  | some cj, some ck =>
    if ck.valid = false then cubicList
    else if isContains cj ck then cubicList.set k { ck with valid := false }
    else cubicList
  | _, _ => cubicList

/-- The inner loop `for (k = j - 1; k >= 0; k--)`; the first argument is the number of
iterations left, that is `k + 1`. -/
def simplifyInner (j : Nat) : Nat → List Cube → List Cube
  | 0, cubicList => cubicList
  | k + 1, cubicList => simplifyInner j k (simplifyStep cubicList j k)

/-- The outer loop `for (j = size - 1; j >= 0; j--)`; the first argument is `j + 1`. -/
def simplifyOuter : Nat → List Cube → List Cube
  | 0, cubicList => cubicList
  | j + 1, cubicList => simplifyOuter j (simplifyInner j j cubicList)

/-- The function `corridorSimplify` (source lines 684-703): the value left in
`cubicList`. -/
def corridorSimplify (cubicList : List Cube) : List Cube :=
  (simplifyOuter cubicList.length cubicList).filter (fun cube => cube.valid)

/-- The spec's reading of simplification: keep, in order, the cubes that are valid and
that no later cube of the list contains. -/
def keptCubes : List Cube → List Cube
  | [] => []
  | c :: rest =>
    if c.valid = true ∧ ∀ d ∈ rest, isContains d c = false then c :: keptCubes rest
    else keptCubes rest


/-- Clearing the `valid` flag when `b` holds (the write `cubicList[k].valid = false`
under a condition). -/
def inval (b : Bool) (c : Cube) : Cube := if b then { c with valid := false } else c

/-- The list `corridorSimplify` filters: every cube that a later one contains is marked. -/
def markAll : List Cube → List Cube
  | [] => []
  | c :: rest => inval (rest.any (fun d => isContains d c)) c :: markAll rest

/-- The vertex matrix of the box `[xl, xu] × [yl, yu] × [zl, zu]` in the corner order
that `generateCube` writes (source lines 662-670). -/
def boxVertices {α : Type} (xl xu yl yu zl zu : α) : Mat8x3 α :=
  { x0 := xu, y0 := yl, z0 := zu
    x1 := xu, y1 := yu, z1 := zu
    x2 := xl, y2 := yu, z2 := zu
    x3 := xl, y3 := yl, z3 := zu
    x4 := xu, y4 := yl, z4 := zl
    x5 := xu, y5 := yu, z5 := zl
    x6 := xl, y6 := yu, z6 := zl
    x7 := xl, y7 := yl, z7 := zl }

/-- A sample cube: the box `[1, 2] × [1, 2] × [0, 1]`. -/
def sampleSmall : Cube := ⟨boxVertices 1 2 1 2 0 1, ⟨3 / 2, 3 / 2, 1 / 2⟩, true, 0⟩

/-- A sample cube: the box `[0, 3] × [0, 3] × [0, 2]`, which contains `sampleSmall`. -/
def sampleBig : Cube := ⟨boxVertices 0 3 0 3 0 2, ⟨3 / 2, 3 / 2, 1⟩, true, 1⟩

/-! ## Time allocation -/

/-- The arrival time `corridor[i].t`; the loops of `timeAllocation` only read indices
inside the vector. -/
def cubeTime (corridor : List Cube) (i : Nat) : ℚ :=
  match corridor[i]? with
  | some c => c.t
  | none => 0

/-- The function `timeAllocation` (source lines 987-1010). The result is the corridor
with the rewritten `t` fields and the new value of the global `_Time`; it is `none`
where the source calls `back()` on an empty vector (empty `corridor` or empty `time`). -/
def timeAllocation (corridor : List Cube) (time : List ℚ) : Option (List Cube × List ℚ) :=
  match corridor.getLast?, time.getLast? with
  | some lastCube, some timeBack =>
    let tmp_time : List ℚ :=
      (List.range (corridor.length - 1)).map
        (fun i => max (cubeTime corridor (i + 1) - cubeTime corridor i) 1)
      ++ [timeBack - lastCube.t]
    some (List.zipWith (fun cube d => { cube with t := d }) corridor tmp_time,
          List.zipWith (fun _ d => d) corridor tmp_time)
  | _, _ => none

/-! ## Bezier evaluation -/

/-- An Eigen `MatrixXd` of control points: its dimensions and its entries. -/
structure MatrixXd where
  rows : Nat
  cols : Nat
  entry : Nat → Nat → ℚ

/-- The sum that `getPosFromBezier` accumulates in `ret(i)`, for the axis `i`:
`_C(j) * ctrl_now(i * ctrl_num1D + j) * pow(t_now, j) * pow(1 - t_now, _traj_order - j)`
over `j < ctrl_num1D`. The exponent `_traj_order - j` is an `int`, so the power is an
integer power. -/
def bezierAxis (C : Nat → ℚ) (traj_order : Nat) (polyCoeff : MatrixXd) (t_now : ℚ)
    (seg_now : Nat) (i : Nat) : ℚ :=
  ((List.range (polyCoeff.cols / 3)).map (fun j =>
    C j * polyCoeff.entry seg_now (i * (polyCoeff.cols / 3) + j) * t_now ^ j
      * (1 - t_now) ^ ((traj_order : Int) - (j : Int)))).sum

/-- The function `getPosFromBezier` (source lines 1167-1178); `C` is the global `_C` and
`traj_order` the global `_traj_order`. -/
def getPosFromBezier (C : Nat → ℚ) (traj_order : Nat) (polyCoeff : MatrixXd) (t_now : ℚ)
    (seg_now : Nat) : Vec3 :=
  ⟨bezierAxis C traj_order polyCoeff t_now seg_now 0,
   bezierAxis C traj_order polyCoeff t_now seg_now 1,
   bezierAxis C traj_order polyCoeff t_now seg_now 2⟩

/-- A sample control-point matrix of order 2: one segment, three control points per
axis. -/
def samplePoly : MatrixXd := ⟨1, 9, fun _ k => (k : ℚ) + 1⟩

/-! ## Trajectory safety monitor -/

/-- The double-precision arithmetic that `checkExecTraj` uses on its time variables: each
operation returns a double, the rounded exact result, and `centi` is the double that the
literal `0.01` denotes. These are operations of the platform (IEEE 754), not of the
repository; they are taken as given and nothing is assumed of them. Comparisons of doubles
are exact. -/
structure DoubleOps where
  add : ℚ → ℚ → ℚ
  sub : ℚ → ℚ → ℚ
  mul : ℚ → ℚ → ℚ
  div : ℚ → ℚ → ℚ
  centi : ℚ

/-- The globals that `checkExecTraj` reads and does not write: the arithmetic of doubles,
the occupancy lookup of `collision_map` by world position (`Get(x, y, z).first.occupancy`,
a call into the grid library), the active trajectory `_SegNum`, `_Time`, `_PolyCoeff`, the
basis constants `_C`, the order `_traj_order` and the two horizons. -/
structure MonitorEnv where
  fp : DoubleOps
  occupancy : Vec3 → ℚ
  SegNum : Nat
  Time : List ℚ
  PolyCoeff : MatrixXd
  C : Nat → ℚ
  traj_order : Nat
  check_horizon : ℚ
  stop_horizon : ℚ

/-- The entry `_Time(i)`; the source reads it for `i < _SegNum` only. -/
def MonitorEnv.time (env : MonitorEnv) (i : Nat) : ℚ := env.Time.getD i 0

/-- The function `checkCoordObs` (source lines 336-342). -/
def checkCoordObs (env : MonitorEnv) (checkPt : Vec3) : Bool :=
  decide (env.occupancy checkPt > 0)

/-- The segment-location loop of `checkExecTraj` (source lines 273-278):
`for (idx = 0; idx < _SegNum; ++idx) if (t_s > _Time(idx) && idx + 1 < _SegNum)
t_s -= _Time(idx); else break;`, the subtraction being that of doubles. The first argument
bounds the iterations left; the result is the final `(idx, t_s)`. -/
def locateSegment (env : MonitorEnv) : Nat → Nat → ℚ → Nat × ℚ
  | 0, idx, t_s => (idx, t_s)
  | fuel + 1, idx, t_s =>
    if idx < env.SegNum then
      if t_s > env.time idx ∧ idx + 1 < env.SegNum then
        locateSegment env fuel (idx + 1) (env.fp.sub t_s (env.time idx))
      else (idx, t_s)
    else (idx, t_s)

/-- The point `traj_pt` that the walk tests in segment `i` at time `t` (source lines
289-292): `_Time(i) * getPosFromBezier(_PolyCoeff, t / _Time(i), i)`, with the division and
the products of doubles. -/
def trajPoint (env : MonitorEnv) (i : Nat) (t : ℚ) : Vec3 :=
  ⟨env.fp.mul (env.time i)
      (getPosFromBezier env.C env.traj_order env.PolyCoeff (env.fp.div t (env.time i)) i).x,
   env.fp.mul (env.time i)
      (getPosFromBezier env.C env.traj_order env.PolyCoeff (env.fp.div t (env.time i)) i).y,
   env.fp.mul (env.time i)
      (getPosFromBezier env.C env.traj_order env.PolyCoeff (env.fp.div t (env.time i)) i).z⟩

/-- The look-ahead time `t_d = duration + t - t_ss` of source line 287, in doubles. -/
def lookAhead (env : MonitorEnv) (t_ss duration t : ℚ) : ℚ :=
  env.fp.sub (env.fp.add duration t) t_ss

/-- The inner loop of the walk (source lines 285-314) for segment `i`, from time `t` on:
`for (double t = t_ss; t < _Time(i); t += 0.01)`. In double arithmetic the loop has no
bound of its own (`t + 0.01` can round to `t`), so the first argument bounds the passes
left. The result is `none` when that bound is used up with the loop still running,
`some (some t_d)` when `checkCoordObs` fires at look-ahead time `t_d` (the source returns
`true` there), and `some none` when the loop ends, by its condition or by the `break` at
the check horizon. -/
def walkSegment (env : MonitorEnv) (i : Nat) (t_ss duration : ℚ) :
    Nat → ℚ → Option (Option ℚ)
  | 0, _ => none
  | fuel + 1, t =>
    if t < env.time i then
      if lookAhead env t_ss duration t > env.check_horizon then some none
      else if checkCoordObs env (trajPoint env i t) then
        some (some (lookAhead env t_ss duration t))
      else walkSegment env i t_ss duration fuel (env.fp.add t env.fp.centi)
    else some none

/-- The outer loop of the walk (source lines 282-316), from segment `i` on, with
`remaining` segments left up to `_SegNum`; `fuel` bounds the passes of each inner loop. -/
def walkFrom (env : MonitorEnv) (idx : Nat) (t_s : ℚ) (fuel : Nat) :
    Nat → Nat → ℚ → Option (Option ℚ)
  | 0, _, _ => some none
  | remaining + 1, i, duration =>
    match walkSegment env i (if i = idx then t_s else 0) duration fuel
        (if i = idx then t_s else 0) with
    | none => none
    | some (some t_d) => some (some t_d)
    | some none =>
      walkFrom env idx t_s fuel remaining (i + 1)
        (env.fp.add duration (env.fp.sub (env.time i) (if i = idx then t_s else 0)))

/-- The function `checkExecTraj` (source lines 225-324). `elapsed` is
`(_odom.header.stamp - _start_time).toSec()` and `fuel` bounds the passes of each inner
loop. The result is the returned flag and the value of the global `_is_emerg` afterwards,
or `none` when an inner loop is still running after `fuel` passes. -/
def checkExecTraj (env : MonitorEnv) (fuel : Nat) (has_traj is_emerg : Bool) (elapsed : ℚ) :
    Option (Bool × Bool) :=
  if has_traj = false then some (false, is_emerg)
  else
    match walkFrom env (locateSegment env env.SegNum 0 (max 0 elapsed)).1
        (locateSegment env env.SegNum 0 (max 0 elapsed)).2 fuel
        (env.SegNum - (locateSegment env env.SegNum 0 (max 0 elapsed)).1)
        (locateSegment env env.SegNum 0 (max 0 elapsed)).1 0 with
    | none => none
    | some (some t_d) => some (true, if t_d ≤ env.stop_horizon then true else is_emerg)
    | some none => some (false, is_emerg)

/-- Double operations without rounding error, with the double nearest to `0.01`
(`5764607523034235 / 2 ^ 59`) as the step. They agree with the IEEE 754 operations
wherever the exact result is a double. -/
def exactOps : DoubleOps :=
  { add := fun a b => a + b
    sub := fun a b => a - b
    mul := fun a b => a * b
    div := fun a b => a / b
    centi := 5764607523034235 / 576460752303423488 }

/-- The globals that the corridor builder reads: the grid `collision_map` through the
three calls the source makes into the grid library (`Get` by index, `LocationToGridIndex`,
`GridIndexToLocation`), the member function `Cube::setVertex` and the constructor `Cube()`
(both declared in `bezier_planer/dataType.h`, not in `fm_trajectory_node.cpp`, so taken
as given), and the parameters set in `main`. -/
structure GridEnv where
  occupancy : Int → Int → Int → ℚ
  locationToGridIndex : ℚ → ℚ → ℚ → Idx3
  gridIndexToLocation : Int → Int → Int → Vec3
  setVertex : Cube → Mat8x3 ℚ → ℚ → Cube
  defaultCube : Cube
  resolution : ℚ
  pt_max_x : ℚ
  pt_min_x : ℚ
  pt_max_y : ℚ
  pt_min_y : ℚ
  pt_max_z : ℚ
  pt_min_z : ℚ
  max_x : Int
  max_y : Int
  max_z : Int
  step_length : Int
  max_inflate_iter : Int

/-- The test `occupy > 0.5` on the voxel of index `(ix, iy, iz)`. -/
def GridEnv.occupied (g : GridEnv) (ix iy iz : Int) : Bool :=
  decide (g.occupancy ix iy iz > 1 / 2)

/-- The grid index of a vertex after the clamping of source lines 352-355 (and 649). -/
def clampedIndex (g : GridEnv) (x y z : ℚ) : Idx3 :=
  g.locationToGridIndex (max (min x g.pt_max_x) g.pt_min_x)
    (max (min y g.pt_max_y) g.pt_min_y) (max (min z g.pt_max_z) g.pt_min_z)

/-- The function `generateCube` (source lines 635-673). -/
def generateCube (g : GridEnv) (pt : Vec3) : Cube :=
  { g.defaultCube with
    center := g.gridIndexToLocation (clampedIndex g pt.x pt.y pt.z).x
      (clampedIndex g pt.x pt.y pt.z).y (clampedIndex g pt.x pt.y pt.z).z
    vertex :=
      boxVertices
        (g.gridIndexToLocation (clampedIndex g pt.x pt.y pt.z).x
          (clampedIndex g pt.x pt.y pt.z).y (clampedIndex g pt.x pt.y pt.z).z).x
        (g.gridIndexToLocation (clampedIndex g pt.x pt.y pt.z).x
          (clampedIndex g pt.x pt.y pt.z).y (clampedIndex g pt.x pt.y pt.z).z).x
        (g.gridIndexToLocation (clampedIndex g pt.x pt.y pt.z).x
          (clampedIndex g pt.x pt.y pt.z).y (clampedIndex g pt.x pt.y pt.z).z).y
        (g.gridIndexToLocation (clampedIndex g pt.x pt.y pt.z).x
          (clampedIndex g pt.x pt.y pt.z).y (clampedIndex g pt.x pt.y pt.z).z).y
        (g.gridIndexToLocation (clampedIndex g pt.x pt.y pt.z).x
          (clampedIndex g pt.x pt.y pt.z).y (clampedIndex g pt.x pt.y pt.z).z).z
        (g.gridIndexToLocation (clampedIndex g pt.x pt.y pt.z).x
          (clampedIndex g pt.x pt.y pt.z).y (clampedIndex g pt.x pt.y pt.z).z).z }

/-- The index matrix `vertex_idx` before the seed test: row `i` is the clamped grid index
of vertex `i` of the cube (source lines 350-361). -/
def seedMatrix (g : GridEnv) (cube : Cube) : Mat8x3 Int :=
  { x0 := (clampedIndex g cube.vertex.x0 cube.vertex.y0 cube.vertex.z0).x
    y0 := (clampedIndex g cube.vertex.x0 cube.vertex.y0 cube.vertex.z0).y
    z0 := (clampedIndex g cube.vertex.x0 cube.vertex.y0 cube.vertex.z0).z
    x1 := (clampedIndex g cube.vertex.x1 cube.vertex.y1 cube.vertex.z1).x
    y1 := (clampedIndex g cube.vertex.x1 cube.vertex.y1 cube.vertex.z1).y
    z1 := (clampedIndex g cube.vertex.x1 cube.vertex.y1 cube.vertex.z1).z
    x2 := (clampedIndex g cube.vertex.x2 cube.vertex.y2 cube.vertex.z2).x
    y2 := (clampedIndex g cube.vertex.x2 cube.vertex.y2 cube.vertex.z2).y
    z2 := (clampedIndex g cube.vertex.x2 cube.vertex.y2 cube.vertex.z2).z
    x3 := (clampedIndex g cube.vertex.x3 cube.vertex.y3 cube.vertex.z3).x
    y3 := (clampedIndex g cube.vertex.x3 cube.vertex.y3 cube.vertex.z3).y
    z3 := (clampedIndex g cube.vertex.x3 cube.vertex.y3 cube.vertex.z3).z
    x4 := (clampedIndex g cube.vertex.x4 cube.vertex.y4 cube.vertex.z4).x
    y4 := (clampedIndex g cube.vertex.x4 cube.vertex.y4 cube.vertex.z4).y
    z4 := (clampedIndex g cube.vertex.x4 cube.vertex.y4 cube.vertex.z4).z
    x5 := (clampedIndex g cube.vertex.x5 cube.vertex.y5 cube.vertex.z5).x
    y5 := (clampedIndex g cube.vertex.x5 cube.vertex.y5 cube.vertex.z5).y
    z5 := (clampedIndex g cube.vertex.x5 cube.vertex.y5 cube.vertex.z5).z
    x6 := (clampedIndex g cube.vertex.x6 cube.vertex.y6 cube.vertex.z6).x
    y6 := (clampedIndex g cube.vertex.x6 cube.vertex.y6 cube.vertex.z6).y
    z6 := (clampedIndex g cube.vertex.x6 cube.vertex.y6 cube.vertex.z6).z
    x7 := (clampedIndex g cube.vertex.x7 cube.vertex.y7 cube.vertex.z7).x
    y7 := (clampedIndex g cube.vertex.x7 cube.vertex.y7 cube.vertex.z7).y
    z7 := (clampedIndex g cube.vertex.x7 cube.vertex.y7 cube.vertex.z7).z }

/-- The seed test of source lines 357-358: some vertex of the seed lies on an occupied
voxel (the source then returns `(cube, false)`). -/
def seedBlocked (g : GridEnv) (v : Mat8x3 Int) : Bool :=
  g.occupied v.x0 v.y0 v.z0 || g.occupied v.x1 v.y1 v.z1 || g.occupied v.x2 v.y2 v.z2 ||
  g.occupied v.x3 v.y3 v.z3 || g.occupied v.x4 v.y4 v.z4 || g.occupied v.x5 v.y5 v.z5 ||
  g.occupied v.x6 v.y6 v.z6 || g.occupied v.x7 v.y7 v.z7

/-- A loop `for (id = hi; id >= lo; id--)` or `for (id = lo; id <= hi; id++)` nested in a
face sweep, which sets `collide` and breaks at the first index that satisfies `p`:
whether some index of `[lo, hi]` satisfies `p`. -/
def anyBetween (lo hi : Int) (p : Int → Bool) : Bool :=
  (List.range (hi - lo + 1).toNat).any (fun k => p (lo + (k : Int)))

/-- The outer loop of a face sweep towards lower indices,
`for (id = start; id >= lo; id--) { if (collide) break; ... }`, over `n` layers (`n` is
`start - lo + 1`, or 0 when that is negative); `hit id` says that layer `id` holds an
occupied voxel. The result is `collide` and the value of `id` after the loop: one below
the colliding layer, or one below the last layer. -/
def scanDown (hit : Int → Bool) : Nat → Int → Bool × Int
  | 0, id => (false, id)
  | n + 1, id => if hit id then (true, id - 1) else scanDown hit n (id - 1)

/-- The outer loop of a face sweep towards higher indices,
`for (id = start; id <= up; id++) { if (collide) break; ... }`. -/
def scanUp (hit : Int → Bool) : Nat → Int → Bool × Int
  | 0, id => (false, id)
  | n + 1, id => if hit id then (true, id + 1) else scanUp hit n (id + 1)

/-- The Y- face sweep (source lines 386-421), with `y_lo` computed at line 387. -/
def faceYNeg (occ : Int → Int → Int → Bool) (y_lo : Int) (v : Mat8x3 Int) : Mat8x3 Int :=
  let r := scanDown
    (fun id_y => anyBetween v.x3 v.x0 (fun id_x => anyBetween v.z4 v.z0 (fun id_z =>
      occ id_x id_y id_z))) (v.y0 - y_lo + 1).toNat v.y0
  if r.1 then
    { v with y0 := min (r.2 + 2) v.y0, y3 := min (r.2 + 2) v.y3,
             y7 := min (r.2 + 2) v.y7, y4 := min (r.2 + 2) v.y4 }
  else { v with y0 := r.2 + 1, y3 := r.2 + 1, y7 := r.2 + 1, y4 := r.2 + 1 }

/-- The Y+ face sweep (source lines 425-457), with `y_up` computed at line 388. -/
def faceYPos (occ : Int → Int → Int → Bool) (y_up : Int) (v : Mat8x3 Int) : Mat8x3 Int :=
  let r := scanUp
    (fun id_y => anyBetween v.x2 v.x1 (fun id_x => anyBetween v.z5 v.z1 (fun id_z =>
      occ id_x id_y id_z))) (y_up - v.y1 + 1).toNat v.y1
  if r.1 then
    { v with y1 := max (r.2 - 2) v.y1, y2 := max (r.2 - 2) v.y2,
             y6 := max (r.2 - 2) v.y6, y5 := max (r.2 - 2) v.y5 }
  else { v with y1 := r.2 - 1, y2 := r.2 - 1, y6 := r.2 - 1, y5 := r.2 - 1 }

/-- The X+ face sweep (source lines 464-496), with `x_up` computed at line 462. -/
def faceXPos (occ : Int → Int → Int → Bool) (x_up : Int) (v : Mat8x3 Int) : Mat8x3 Int :=
  let r := scanUp
    (fun id_x => anyBetween v.y0 v.y1 (fun id_y => anyBetween v.z4 v.z0 (fun id_z =>
      occ id_x id_y id_z))) (x_up - v.x0 + 1).toNat v.x0
  if r.1 then
    { v with x0 := max (r.2 - 2) v.x0, x1 := max (r.2 - 2) v.x1,
             x5 := max (r.2 - 2) v.x5, x4 := max (r.2 - 2) v.x4 }
  else { v with x0 := r.2 - 1, x1 := r.2 - 1, x5 := r.2 - 1, x4 := r.2 - 1 }

/-- The X- face sweep (source lines 500-532), with `x_lo` computed at line 461. -/
def faceXNeg (occ : Int → Int → Int → Bool) (x_lo : Int) (v : Mat8x3 Int) : Mat8x3 Int :=
  let r := scanDown
    (fun id_x => anyBetween v.y3 v.y2 (fun id_y => anyBetween v.z7 v.z3 (fun id_z =>
      occ id_x id_y id_z))) (v.x3 - x_lo + 1).toNat v.x3
  if r.1 then
    { v with x3 := min (r.2 + 2) v.x3, x2 := min (r.2 + 2) v.x2,
             x6 := min (r.2 + 2) v.x6, x7 := min (r.2 + 2) v.x7 }
  else { v with x3 := r.2 + 1, x2 := r.2 + 1, x6 := r.2 + 1, x7 := r.2 + 1 }

/-- The Z+ face sweep (source lines 536-569), with `z_up` computed at line 538. The
assignment of line 569 is not under an `else`: it overwrites the result of the `if`. -/
def faceZPos (occ : Int → Int → Int → Bool) (z_up : Int) (v : Mat8x3 Int) : Mat8x3 Int :=
  let r := scanUp
    (fun id_z => anyBetween v.y0 v.y1 (fun id_y => anyBetween v.x3 v.x0 (fun id_x =>
      occ id_x id_y id_z))) (z_up - v.z0 + 1).toNat v.z0
  let w : Mat8x3 Int :=
    if r.1 then
      { v with z0 := max (r.2 - 2) v.z0, z1 := max (r.2 - 2) v.z1,
               z2 := max (r.2 - 2) v.z2, z3 := max (r.2 - 2) v.z3 }
    else v
  { w with z0 := r.2 - 1, z1 := r.2 - 1, z2 := r.2 - 1, z3 := r.2 - 1 }

/-- The Z- face sweep (source lines 573-605), with `z_lo` computed at line 537. -/
def faceZNeg (occ : Int → Int → Int → Bool) (z_lo : Int) (v : Mat8x3 Int) : Mat8x3 Int :=
  let r := scanDown
    (fun id_z => anyBetween v.y4 v.y5 (fun id_y => anyBetween v.x7 v.x4 (fun id_x =>
      occ id_x id_y id_z))) (v.z4 - z_lo + 1).toNat v.z4
  if r.1 then
    { v with z4 := min (r.2 + 2) v.z4, z5 := min (r.2 + 2) v.z5,
             z6 := min (r.2 + 2) v.z6, z7 := min (r.2 + 2) v.z7 }
  else { v with z4 := r.2 + 1, z5 := r.2 + 1, z6 := r.2 + 1, z7 := r.2 + 1 }

/-- The value that a C++ `int` takes for the mathematical result `z` of a sum or a
difference: the 32-bit `int` of the source wraps around modulo `2 ^ 32` into
`[-2 ^ 31, 2 ^ 31)`. -/
def wrapInt (z : Int) : Int := (z + 2147483648) % 4294967296 - 2147483648

/-- The two Y sweeps of a pass (source lines 386-457), with the bounds `y_lo`, `y_up` of
lines 387-388. The sum and the difference `vertex_idx(..) ± _step_length` are `int`
expressions with the free parameter `_step_length`, so they wrap around. -/
def sweepY (occ : Int → Int → Int → Bool) (step_length max_y : Int) (v : Mat8x3 Int) :
    Mat8x3 Int :=
  faceYPos occ (min max_y (wrapInt (v.y1 + step_length)))
    (faceYNeg occ (max 0 (wrapInt (v.y0 - step_length))) v)

/-- The two X sweeps of a pass (source lines 461-532), with the bounds `x_lo`, `x_up` of
lines 461-462, computed after the Y sweeps. -/
def sweepX (occ : Int → Int → Int → Bool) (step_length max_x : Int) (v : Mat8x3 Int) :
    Mat8x3 Int :=
  faceXNeg occ (max 0 (wrapInt (v.x3 - step_length)))
    (faceXPos occ (min max_x (wrapInt (v.x0 + step_length))) v)

/-- The two Z sweeps of a pass (source lines 536-605), with the bounds `z_lo`, `z_up` of
lines 537-538, computed after the X sweeps. -/
def sweepZ (occ : Int → Int → Int → Bool) (step_length max_z : Int) (v : Mat8x3 Int) :
    Mat8x3 Int :=
  faceZNeg occ (max 0 (wrapInt (v.z4 - step_length)))
    (faceZPos occ (min max_z (wrapInt (v.z0 + step_length))) v)

/-- One pass of the body of the `while` loop of `inflateCube` up to line 605: the six
face sweeps in the order Y-, Y+, X+, X-, Z+, Z-, each pair of bounds computed where the
source computes it. -/
def sweepFaces (occ : Int → Int → Int → Bool) (step_length max_x max_y max_z : Int)
    (v : Mat8x3 Int) : Mat8x3 Int :=
  sweepZ occ step_length max_z (sweepX occ step_length max_x (sweepY occ step_length max_y v))

/-- Row `i` of `vertex_coord` (source lines 617-622): the world position of the vertex
index, each index first clamped into `[0, _max - 1]`. -/
def vertexPos (g : GridEnv) (ix iy iz : Int) : Vec3 :=
  g.gridIndexToLocation (max (min ix (g.max_x - 1)) 0) (max (min iy (g.max_y - 1)) 0)
    (max (min iz (g.max_z - 1)) 0)

/-- The matrix `vertex_coord` of source lines 614-623. -/
def vertexCoord (g : GridEnv) (v : Mat8x3 Int) : Mat8x3 ℚ :=
  { x0 := (vertexPos g v.x0 v.y0 v.z0).x
    y0 := (vertexPos g v.x0 v.y0 v.z0).y
    z0 := (vertexPos g v.x0 v.y0 v.z0).z
    x1 := (vertexPos g v.x1 v.y1 v.z1).x
    y1 := (vertexPos g v.x1 v.y1 v.z1).y
    z1 := (vertexPos g v.x1 v.y1 v.z1).z
    x2 := (vertexPos g v.x2 v.y2 v.z2).x
    y2 := (vertexPos g v.x2 v.y2 v.z2).y
    z2 := (vertexPos g v.x2 v.y2 v.z2).z
    x3 := (vertexPos g v.x3 v.y3 v.z3).x
    y3 := (vertexPos g v.x3 v.y3 v.z3).y
    z3 := (vertexPos g v.x3 v.y3 v.z3).z
    x4 := (vertexPos g v.x4 v.y4 v.z4).x
    y4 := (vertexPos g v.x4 v.y4 v.z4).y
    z4 := (vertexPos g v.x4 v.y4 v.z4).z
    x5 := (vertexPos g v.x5 v.y5 v.z5).x
    y5 := (vertexPos g v.x5 v.y5 v.z5).y
    z5 := (vertexPos g v.x5 v.y5 v.z5).z
    x6 := (vertexPos g v.x6 v.y6 v.z6).x
    y6 := (vertexPos g v.x6 v.y6 v.z6).y
    z6 := (vertexPos g v.x6 v.y6 v.z6).z
    x7 := (vertexPos g v.x7 v.y7 v.z7).x
    y7 := (vertexPos g v.x7 v.y7 v.z7).y
    z7 := (vertexPos g v.x7 v.y7 v.z7).z }

/-- The `while (iter < _max_inflate_iter)` loop of `inflateCube` (source lines 383-630);
the first argument is the number of passes left, `v` is `vertex_idx` (equal to
`vertex_idx_lst` at the head of the loop). The result is the returned pair together with
the final value of `vertex_idx`. -/
def inflateLoop (g : GridEnv) (lstcube : Cube) :
    Nat → Mat8x3 Int → Cube → (Cube × Bool) × Mat8x3 Int
  | 0, v, cubeMax => ((cubeMax, true), v)
  | n + 1, v, cubeMax =>
    if v = sweepFaces g.occupied g.step_length g.max_x g.max_y g.max_z v then
      ((cubeMax, true), sweepFaces g.occupied g.step_length g.max_x g.max_y g.max_z v)
    else if isContains lstcube
        (g.setVertex cubeMax
          (vertexCoord g (sweepFaces g.occupied g.step_length g.max_x g.max_y g.max_z v))
          g.resolution) then
      ((lstcube, false), sweepFaces g.occupied g.step_length g.max_x g.max_y g.max_z v)
    else
      inflateLoop g lstcube n
        (sweepFaces g.occupied g.step_length g.max_x g.max_y g.max_z v)
        (g.setVertex cubeMax
          (vertexCoord g (sweepFaces g.occupied g.step_length g.max_x g.max_y g.max_z v))
          g.resolution)

/-- The function `inflateCube` together with the final value of its local `vertex_idx`
(source lines 344-633). -/
def inflateCubeIdx (g : GridEnv) (cube lstcube : Cube) : (Cube × Bool) × Mat8x3 Int :=
  if seedBlocked g (seedMatrix g cube) then ((cube, false), seedMatrix g cube)
  else inflateLoop g lstcube g.max_inflate_iter.toNat (seedMatrix g cube) cube

/-- The function `inflateCube` (source lines 344-633). -/
def inflateCube (g : GridEnv) (cube lstcube : Cube) : Cube × Bool :=
  (inflateCubeIdx g cube lstcube).1

/-- The `for` loop of `corridorGeneration` (source lines 713-739) from index `i` on, over
the rest of `path_coord`; the result is `cubeList` at the end of the loop. -/
def corridorLoop (g : GridEnv) (time : List ℚ) :
    List Vec3 → Nat → Cube → List Cube → List Cube
  | [], _, _, cubeList => cubeList
  | pt :: rest, i, lstcube, cubeList =>
    if (inflateCube g (generateCube g pt) lstcube).2 = false then
      corridorLoop g time rest (i + 1) lstcube cubeList
    else
      corridorLoop g time rest (i + 1) (inflateCube g (generateCube g pt) lstcube).1
        (cubeList ++ [{ (inflateCube g (generateCube g pt) lstcube).1 with
          t := time.getD i 0 }])

/-- The cube `lstcube` at the start of `corridorGeneration` (source lines 710-711). -/
def initialLstcube (g : GridEnv) : Cube :=
  { g.defaultCube with vertex := { g.defaultCube.vertex with x0 := -10000 } }

/-- The function `corridorGeneration` (source lines 705-746). -/
def corridorGeneration (g : GridEnv) (path_coord : List Vec3) (time : List ℚ) : List Cube :=
  corridorSimplify (corridorLoop g time path_coord 0 (initialLstcube g) [])

/-- The new index of a face that a sweep moves towards lower indices (Y-, X-, Z-): from
the result of `scanDown` over `n` layers from `start`, `min (id + 2) start` on a
collision and `id + 1` otherwise. -/
def lowFace (hit : Int → Bool) (n : Nat) (start : Int) : Int :=
  if (scanDown hit n start).1 then min ((scanDown hit n start).2 + 2) start
  else (scanDown hit n start).2 + 1

/-- The new index of a face that a sweep moves towards higher indices (Y+, X+): from the
result of `scanUp`, `max (id - 2) start` on a collision and `id - 1` otherwise. -/
def highFace (hit : Int → Bool) (n : Nat) (start : Int) : Int :=
  if (scanUp hit n start).1 then max ((scanUp hit n start).2 - 2) start
  else (scanUp hit n start).2 - 1

/-- The new index of the Z+ face: `id - 1`, collision or not. -/
def topFace (hit : Int → Bool) (n : Nat) (start : Int) : Int :=
  (scanUp hit n start).2 - 1

/-- No voxel of the index box `[xl, xu] × [yl, yu] × [zl, zu]` below its top layer `zu`
is occupied. -/
def FreeBelowTop (occ : Int → Int → Int → Bool) (xl xu yl yu zl zu : Int) : Prop :=
  ∀ x y z, xl ≤ x → x ≤ xu → yl ≤ y → y ≤ yu → zl ≤ z → z < zu → occ x y z = false

/-! ## A sample grid -/

/-- A sample `Cube::setVertex`: the cube takes the given vertex matrix, every face moved
outwards by half the resolution. -/
def padVertex (cube : Cube) (m : Mat8x3 ℚ) (resolution : ℚ) : Cube :=
  { cube with vertex :=
    { x0 := m.x0 + resolution / 2, y0 := m.y0 - resolution / 2, z0 := m.z0 + resolution / 2
      x1 := m.x1 + resolution / 2, y1 := m.y1 + resolution / 2, z1 := m.z1 + resolution / 2
      x2 := m.x2 - resolution / 2, y2 := m.y2 + resolution / 2, z2 := m.z2 + resolution / 2
      x3 := m.x3 - resolution / 2, y3 := m.y3 - resolution / 2, z3 := m.z3 + resolution / 2
      x4 := m.x4 + resolution / 2, y4 := m.y4 - resolution / 2, z4 := m.z4 - resolution / 2
      x5 := m.x5 + resolution / 2, y5 := m.y5 + resolution / 2, z5 := m.z5 - resolution / 2
      x6 := m.x6 - resolution / 2, y6 := m.y6 + resolution / 2, z6 := m.z6 - resolution / 2
      x7 := m.x7 - resolution / 2, y7 := m.y7 - resolution / 2, z7 := m.z7 - resolution / 2 } }

/-- A sample grid as `main` sets it up for `x_size = y_size = z_size = 4` and resolution
1: indices `0 .. 4` on each axis, map origin `(-2, -2, 0)`, cell centers at half-integers,
`_step_length = 1`, `_max_inflate_iter = 100`; the voxel `(1, 1, 1)` is the only occupied
one. -/
def demoGrid : GridEnv :=
  { occupancy := fun ix iy iz => if ix = 1 ∧ iy = 1 ∧ iz = 1 then 1 else 0
    locationToGridIndex := fun x y z => ⟨⌊x + 2⌋, ⌊y + 2⌋, ⌊z⌋⟩
    gridIndexToLocation := fun ix iy iz =>
      ⟨(ix : ℚ) + 1 / 2 - 2, (iy : ℚ) + 1 / 2 - 2, (iz : ℚ) + 1 / 2⟩
    setVertex := padVertex
    defaultCube := ⟨boxVertices 0 0 0 0 0 0, ⟨0, 0, 0⟩, true, 0⟩
    resolution := 1
    pt_max_x := 2
    pt_min_x := -2
    pt_max_y := 2
    pt_min_y := -2
    pt_max_z := 4
    pt_min_z := 0
    max_x := 4
    max_y := 4
    max_z := 4
    step_length := 1
    max_inflate_iter := 100 }

/-- The Boolean occupancy test of `demoGrid`. -/
def demoOccupied (ix iy iz : Int) : Bool := decide (ix = 1 ∧ iy = 1 ∧ iz = 1)

/-- Every entry of the index matrix lies inside the map: `0 ≤ index ≤ _max` on each
axis. -/
def indicesInMap (g : GridEnv) (v : Mat8x3 Int) : Prop :=
  (0 ≤ v.x0 ∧ v.x0 ≤ g.max_x ∧ 0 ≤ v.x1 ∧ v.x1 ≤ g.max_x ∧ 0 ≤ v.x2 ∧ v.x2 ≤ g.max_x ∧
   0 ≤ v.x3 ∧ v.x3 ≤ g.max_x ∧ 0 ≤ v.x4 ∧ v.x4 ≤ g.max_x ∧ 0 ≤ v.x5 ∧ v.x5 ≤ g.max_x ∧
   0 ≤ v.x6 ∧ v.x6 ≤ g.max_x ∧ 0 ≤ v.x7 ∧ v.x7 ≤ g.max_x) ∧
  (0 ≤ v.y0 ∧ v.y0 ≤ g.max_y ∧ 0 ≤ v.y1 ∧ v.y1 ≤ g.max_y ∧ 0 ≤ v.y2 ∧ v.y2 ≤ g.max_y ∧
   0 ≤ v.y3 ∧ v.y3 ≤ g.max_y ∧ 0 ≤ v.y4 ∧ v.y4 ≤ g.max_y ∧ 0 ≤ v.y5 ∧ v.y5 ≤ g.max_y ∧
   0 ≤ v.y6 ∧ v.y6 ≤ g.max_y ∧ 0 ≤ v.y7 ∧ v.y7 ≤ g.max_y) ∧
  (0 ≤ v.z0 ∧ v.z0 ≤ g.max_z ∧ 0 ≤ v.z1 ∧ v.z1 ≤ g.max_z ∧ 0 ≤ v.z2 ∧ v.z2 ≤ g.max_z ∧
   0 ≤ v.z3 ∧ v.z3 ≤ g.max_z ∧ 0 ≤ v.z4 ∧ v.z4 ≤ g.max_z ∧ 0 ≤ v.z5 ∧ v.z5 ≤ g.max_z ∧
   0 ≤ v.z6 ∧ v.z6 ≤ g.max_z ∧ 0 ≤ v.z7 ∧ v.z7 ≤ g.max_z)

/-! ## Definitions for the second group of claims -/

/-- The grid index `pc_idx` that `generateCube` snaps the point `pt` to (source line
649). -/
def snapIndex (g : GridEnv) (pt : Vec3) : Idx3 := clampedIndex g pt.x pt.y pt.z

/-- The cell center `pc_coord` of the snapped index (source line 650), at which
`generateCube` puts the center and the eight vertices of the seed. -/
def snapCenter (g : GridEnv) (pt : Vec3) : Vec3 :=
  g.gridIndexToLocation (snapIndex g pt).x (snapIndex g pt).y (snapIndex g pt).z

/-- The six entries of `vertex_idx` that the sweeps of `inflateCube` read as the positions
of the faces (the starts of the six outer loops and the arguments of the six bounds): the
Y- face `(0, 1)`, the Y+ face `(1, 1)`, the X+ face `(0, 0)`, the X- face `(3, 0)`, the
Z+ face `(0, 2)` and the Z- face `(4, 2)`. The matrix `w` has every face at least as far
outward as `v`. -/
def FacesOutward (v w : Mat8x3 Int) : Prop :=
  w.y0 ≤ v.y0 ∧ v.y1 ≤ w.y1 ∧ v.x0 ≤ w.x0 ∧ w.x3 ≤ v.x3 ∧ v.z0 ≤ w.z0 ∧ w.z4 ≤ v.z4

/-- The six face entries lie inside the map: the side they move to first, then the other
side. -/
def FacesInMap (g : GridEnv) (v : Mat8x3 Int) : Prop :=
  (0 ≤ v.y0 ∧ v.y1 ≤ g.max_y ∧ v.x0 ≤ g.max_x ∧ 0 ≤ v.x3 ∧ v.z0 ≤ g.max_z ∧ 0 ≤ v.z4) ∧
  (v.y0 ≤ g.max_y ∧ 0 ≤ v.y1 ∧ 0 ≤ v.x0 ∧ v.x3 ≤ g.max_x ∧ 0 ≤ v.z0 ∧ v.z4 ≤ g.max_z)

/-- The `int` arithmetic of the sweeps stays within the C++ `int` for every index of the
map: `_max + _step_length < INT_MAX` on each axis, so that neither a sum
`vertex_idx(..) + _step_length` nor a loop counter one beyond `_max` overflows. -/
def StepInRange (g : GridEnv) : Prop :=
  g.max_x + g.step_length < 2147483647 ∧ g.max_y + g.step_length < 2147483647 ∧
  g.max_z + g.step_length < 2147483647

/-- The grid `demoGrid` with every voxel free, `_step_length = INT_MAX` and
`_max_inflate_iter = 1`. -/
def wideStepGrid : GridEnv :=
  { demoGrid with
    occupancy := fun _ _ _ => 0
    step_length := 2147483647
    max_inflate_iter := 1 }

/-- The grid `demoGrid` with every voxel free. -/
def freeGrid : GridEnv := { demoGrid with occupancy := fun _ _ _ => 0 }

/-! ## Path conditioning -/

/-- A C++ `double` that can be infinite or NaN: the arrival times that the wavefront
search hands to `sortPath`. -/
inductive Dbl where
  | fin (q : ℚ)
  | posInf
  | negInf
  | nan
  deriving DecidableEq

/-- The test `isinf(a)`. -/
def Dbl.isinf : Dbl → Bool
  | Dbl.posInf => true
  | Dbl.negInf => true
  | _ => false

/-- The test `isnan(a)`. -/
def Dbl.isnan : Dbl → Bool
  | Dbl.nan => true
  | _ => false

/-- The comparison `a == b` of two doubles: a NaN is equal to nothing. -/
def Dbl.beq : Dbl → Dbl → Bool
  | Dbl.fin a, Dbl.fin b => decide (a = b)
  | Dbl.posInf, Dbl.posInf => true
  | Dbl.negInf, Dbl.negInf => true
  | _, _ => false

/-- The comparison `a <= b` of two doubles: false when one of them is NaN. -/
def Dbl.le : Dbl → Dbl → Bool
  | Dbl.nan, _ => false
  | _, Dbl.nan => false
  | Dbl.negInf, _ => true
  | _, Dbl.posInf => true
  | Dbl.fin a, Dbl.fin b => decide (a ≤ b)
  | _, _ => false

/-- The comparison `a < b` of two doubles: false when one of them is NaN. -/
def Dbl.lt : Dbl → Dbl → Bool
  | Dbl.nan, _ => false
  | _, Dbl.nan => false
  | Dbl.fin a, Dbl.fin b => decide (a < b)
  | Dbl.negInf, Dbl.negInf => false
  | Dbl.posInf, _ => false
  | Dbl.negInf, _ => true
  | _, Dbl.posInf => true
  | _, _ => false

/-- The read `time[i]` of `sortPath`. Inside the vector it is the element; outside (the
source evaluates `time[i-1]` at `i = 0`) it is whatever lies at that place in memory,
`oob i`. -/
def readTime (oob : Int → Dbl) (time : List Dbl) (i : Int) : Dbl :=
  if i < 0 then oob i
  else
    match time[i.toNat]? with
    | some t => t
    | none => oob i

/-- One pass of the loop of `sortPath` (source lines 755-765) at index `i`, on the pair
`(path_tmp, time_tmp)`. The second test is `isinf(time[i]) || isinf(time[i-1])`, which
reads `time[i-1]` only when `time[i]` is finite. -/
def sortPathStep (oob : Int → Dbl) (path_coord : List Vec3) (time : List Dbl)
    (acc : List Vec3 × List Dbl) (i : Nat) : List Vec3 × List Dbl :=
  if 0 < i ∧ (readTime oob time i).beq (Dbl.fin 0) = true then acc
  else if (readTime oob time i).isinf = true ∨ (readTime oob time ((i : Int) - 1)).isinf = true then
    acc
  else if 0 < i ∧ (readTime oob time i).beq (readTime oob time ((i : Int) - 1)) = true then acc
  else
    match path_coord[i]? with
    | some p => (acc.1 ++ [p], acc.2 ++ [readTime oob time i])
    | none => acc

/-- The function `sortPath` (source lines 748-770): the new values of `path_coord` and
`time`. -/
def sortPath (oob : Int → Dbl) (path_coord : List Vec3) (time : List Dbl) :
    List Vec3 × List Dbl :=
  (List.range path_coord.length).foldl (sortPathStep oob path_coord time) ([], [])

/-! ## Planner state, odometry and the planning cycle -/

/-- A vector of three doubles that can be infinite or NaN. -/
structure DVec3 where
  x : Dbl
  y : Dbl
  z : Dbl
  deriving DecidableEq

/-- The rational value of a double in the stages modelled over the rationals; an infinity
or a NaN has none and is sent to 0. -/
def Dbl.toRat : Dbl → ℚ
  | Dbl.fin q => q
  | _ => 0

/-- The rational vector of a vector of doubles, component by component. -/
def DVec3.toVec3 (p : DVec3) : Vec3 := ⟨p.x.toRat, p.y.toRat, p.z.toRat⟩

/-- Modelled from the spec: the action of an outbound trajectory message (spec §6:
action ∈ {ADD, WARN_IMPOSSIBLE}); the message type is declared in `quadrotor_msgs`. -/
inductive TrajAction where
  | ADD
  | WARN_IMPOSSIBLE
  deriving DecidableEq

/-- Modelled from the spec: the outbound trajectory message (spec §6: segment count,
per-axis coefficients, per-segment duration, order, action, id), with the time stamp that
`getBezierTraj` writes. -/
structure TrajMsg where
  action : TrajAction
  num_segment : Nat
  coef_x : List ℚ
  coef_y : List ℚ
  coef_z : List ℚ
  time : List ℚ
  order : List Nat
  trajectory_id : Nat
  stamp : ℚ
  deriving DecidableEq

/-- The part of a `nav_msgs::Odometry` message that the node reads. -/
structure Odometry where
  child_frame_id : String
  stamp : ℚ
  position : DVec3
  linear : DVec3
  deriving DecidableEq

/-- The global state of the node that the handlers read and write (source lines 51-80),
with the list of the messages sent on `_traj_pub`, oldest first. -/
structure Planner where
  has_odom : Bool
  has_map : Bool
  has_target : Bool
  has_traj : Bool
  is_emerg : Bool
  odom : Odometry
  start_pt : DVec3
  start_vel : DVec3
  end_pt : Vec3
  traj : TrajMsg
  traj_id : Nat
  start_time : ℚ
  SegNum : Nat
  Time : List ℚ
  PolyCoeff : MatrixXd
  published : List TrajMsg

/-- The function `rcvOdometryCallbck` (source lines 1019-1041): the state afterwards and
whether the transform was broadcast. The test for a NaN position (line 1033) comes after
the assignments of lines 1022-1031. -/
def rcvOdometryCallbck (odom : Odometry) (st : Planner) : Planner × Bool :=
  if odom.child_frame_id = "X" ∨ odom.child_frame_id = "O" then (st, false)
  else if odom.position.x.isnan = true ∨ odom.position.y.isnan = true ∨
      odom.position.z.isnan = true then
    ({ st with odom := odom, has_odom := true, start_pt := odom.position,
               start_vel := odom.linear }, false)
  else
    ({ st with odom := odom, has_odom := true, start_pt := odom.position,
               start_vel := odom.linear }, true)

/-- The block that `fastMarching3D` runs at each of its three failures (source lines
857-862, 903-908, 963-968). -/
def abortIfEmergency (st : Planner) : Planner :=
  if st.has_traj = true ∧ st.is_emerg = true then
    { st with
      traj := { st.traj with action := TrajAction.WARN_IMPOSSIBLE }
      published := st.published ++ [{ st.traj with action := TrajAction.WARN_IMPOSSIBLE }]
      has_traj := false }
  else st

/-- What the planning cycle takes from outside `fm_trajectory_node.cpp`: the corridor
grid, the parameters of `main` used in the conversion of the path, the memory around the
time vector, the result of the wavefront search (`none` when `solver->compute()` is `-1`,
else the path in grid coordinates and the arrival times of `extract_path`), and the result
of the convex fit (whether it succeeded, and the value of `_PolyCoeff` after the call). -/
structure PlanEnv where
  grid : GridEnv
  x_size : ℚ
  y_size : ℚ
  z_size : ℚ
  map_origin : Vec3
  traj_order : Nat
  oob : Int → Dbl
  search : Option (List Vec3 × List Dbl)
  fitOk : Bool
  fitCoeff : MatrixXd

/-- A point of `path3D` in world coordinates (source lines 889-893). -/
def pathPoint (env : PlanEnv) (p : Vec3) : Vec3 :=
  ⟨max (min (p.x * env.grid.resolution + env.map_origin.x) (env.x_size - env.grid.resolution))
      (-env.x_size + env.grid.resolution),
   max (min (p.y * env.grid.resolution + env.map_origin.y) (env.y_size - env.grid.resolution))
      (-env.y_size + env.grid.resolution),
   max (min (p.z * env.grid.resolution) (env.z_size - env.grid.resolution)) env.grid.resolution⟩

/-- The test `(lst3DPt - _end_pt).norm() > _resolution * sqrt(3.0)` of source line 900,
on the squares (the resolution is not negative). -/
def goalMissed (env : PlanEnv) (lst3DPt end_pt : Vec3) : Bool :=
  decide ((lst3DPt.x - end_pt.x) ^ 2 + (lst3DPt.y - end_pt.y) ^ 2 + (lst3DPt.z - end_pt.z) ^ 2
    > 3 * env.grid.resolution ^ 2)

/-- The coefficients of one axis in the message of `getBezierTraj` (source lines
1134-1143): for each segment `i` and each `j ≤ order`, the entry `(i, axis * (order+1) + j)`
of `_PolyCoeff`. -/
def trajCoef (env : PlanEnv) (st : Planner) (axis : Nat) : List ℚ :=
  (List.range st.SegNum).flatMap (fun i =>
    (List.range (env.traj_order + 1)).map (fun j =>
      st.PolyCoeff.entry i (axis * (env.traj_order + 1) + j)))

/-- The function `getBezierTraj` (source lines 1118-1165): the message it returns; it
also sets `_start_time` to the stamp of the message. -/
def getBezierTraj (env : PlanEnv) (st : Planner) : TrajMsg :=
  { action := TrajAction.ADD
    num_segment := st.SegNum
    coef_x := trajCoef env st 0
    coef_y := trajCoef env st 1
    coef_z := trajCoef env st 2
    time := (List.range st.SegNum).map (fun idx => st.Time.getD idx 0)
    order := (List.range st.SegNum).map (fun _ => env.traj_order)
    trajectory_id := st.traj_id
    stamp := st.odom.stamp }

/-- The end of `fastMarching3D` (source lines 947-979), from `timeAllocation` on, for the
corridor and the conditioned times. It is `none` where `timeAllocation` is undefined. -/
def planFit (env : PlanEnv) (st : Planner) (corridor : List Cube) (time : List ℚ) :
    Option Planner :=
  match timeAllocation corridor time with
  | none => none
  | some (corridor', Time') =>
    if env.fitOk = false then
      some (abortIfEmergency
        { st with Time := Time', SegNum := corridor'.length, PolyCoeff := env.fitCoeff })
    else
      some
        { st with
          Time := Time'
          SegNum := corridor'.length
          PolyCoeff := env.fitCoeff
          is_emerg := false
          has_traj := true
          traj := getBezierTraj env
            { st with Time := Time', SegNum := corridor'.length, PolyCoeff := env.fitCoeff }
          start_time := st.odom.stamp
          published := st.published ++ [getBezierTraj env
            { st with Time := Time', SegNum := corridor'.length, PolyCoeff := env.fitCoeff }]
          traj_id := st.traj_id + 1 }

/-- The function `fastMarching3D` (source lines 772-985). The wavefront search and the
convex fit are external; their results are in `env`. The result is the state afterwards,
`none` where the source has no defined behaviour (`timeAllocation` on an empty corridor). -/
def fastMarching3D (env : PlanEnv) (st : Planner) : Option Planner :=
  if st.has_target = false ∨ st.has_map = false ∨ st.has_odom = false then some st
  else
    match env.search with
    | none => some (abortIfEmergency st)
    | some (path3D, time) =>
      if goalMissed env
          (((st.start_pt.toVec3 :: path3D.map (pathPoint env)).getLast?).getD st.start_pt.toVec3)
          st.end_pt = true then
        some (abortIfEmergency st)
      else
        planFit env st
          (corridorGeneration env.grid
            (sortPath env.oob (st.start_pt.toVec3 :: path3D.map (pathPoint env))
              ((time ++ [Dbl.fin 0]).reverse)).1
            ((sortPath env.oob (st.start_pt.toVec3 :: path3D.map (pathPoint env))
              ((time ++ [Dbl.fin 0]).reverse)).2.map Dbl.toRat))
          ((sortPath env.oob (st.start_pt.toVec3 :: path3D.map (pathPoint env))
              ((time ++ [Dbl.fin 0]).reverse)).2.map Dbl.toRat)

/-- A sample state of the node: map, target and odometry received, a one-segment
trajectory of duration 5 being flown (`_traj_id` already at 2), no emergency. -/
def samplePlanner : Planner :=
  { has_odom := true
    has_map := true
    has_target := true
    has_traj := true
    is_emerg := false
    odom := ⟨"quadrotor", 0, ⟨Dbl.fin (-1 / 2), Dbl.fin (-1 / 2), Dbl.fin (1 / 2)⟩,
      ⟨Dbl.fin 0, Dbl.fin 0, Dbl.fin 0⟩⟩
    start_pt := ⟨Dbl.fin (-1 / 2), Dbl.fin (-1 / 2), Dbl.fin (1 / 2)⟩
    start_vel := ⟨Dbl.fin 0, Dbl.fin 0, Dbl.fin 0⟩
    end_pt := ⟨-1 / 2, -1 / 2, 1 / 2⟩
    traj := ⟨TrajAction.ADD, 1, [1, 2, 3], [4, 5, 6], [7, 8, 9], [5], [2], 1, 0⟩
    traj_id := 2
    start_time := 0
    SegNum := 1
    Time := [5]
    PolyCoeff := samplePoly
    published := [⟨TrajAction.ADD, 1, [1, 2, 3], [4, 5, 6], [7, 8, 9], [5], [2], 1, 0⟩] }

/-- A sample planning cycle on `demoGrid` (sizes 4, origin `(-2, -2, 0)`): the search
returns the one-node path at grid coordinates `(3/2, 3/2, 1/2)` with arrival time 2, and
the convex fit fails, leaving `_PolyCoeff` as it was. -/
def samplePlan : PlanEnv :=
  { grid := demoGrid
    x_size := 4
    y_size := 4
    z_size := 4
    map_origin := ⟨-2, -2, 0⟩
    traj_order := 2
    oob := fun _ => Dbl.fin 0
    search := some ([⟨3 / 2, 3 / 2, 1 / 2⟩], [Dbl.fin 2])
    fitOk := false
    fitCoeff := samplePoly }

/-- An odometry message whose position has a NaN component. -/
def nanOdom : Odometry :=
  ⟨"quadrotor", 1, ⟨Dbl.nan, Dbl.fin 0, Dbl.fin 1⟩, ⟨Dbl.fin 0, Dbl.fin 0, Dbl.fin 0⟩⟩

/-! ## Definitions for the third group of claims -/

/-- The indices at which pass `i` of the loop of `sortPath` (source lines 755-765) reads
the vector `time`, in the order of the reads. The test `i > 0 && time[i] == 0.0` reads
`time[i]` only when `i > 0`; the test `isinf(time[i]) || isinf(time[i-1])` reads `time[i]`
and, when that is not infinite, `time[i-1]`; the test `i > 0 && time[i] == time[i-1]` reads
both when `i > 0`; `time_tmp.push_back(time[i])` reads `time[i]`. The branches are those
of `sortPathStep`. -/
def sortPathStepReads (oob : Int → Dbl) (time : List Dbl) (i : Nat) : List Int :=
  if 0 < i ∧ (readTime oob time i).beq (Dbl.fin 0) = true then [(i : Int)]
  else if (readTime oob time i).isinf = true then
    (if 0 < i then [(i : Int)] else []) ++ [(i : Int)]
  else if (readTime oob time ((i : Int) - 1)).isinf = true then
    (if 0 < i then [(i : Int)] else []) ++ [(i : Int), (i : Int) - 1]
  else if 0 < i ∧ (readTime oob time i).beq (readTime oob time ((i : Int) - 1)) = true then
    (if 0 < i then [(i : Int)] else []) ++ [(i : Int), (i : Int) - 1] ++
      [(i : Int), (i : Int) - 1]
  else
    (if 0 < i then [(i : Int)] else []) ++ [(i : Int), (i : Int) - 1] ++
      (if 0 < i then [(i : Int), (i : Int) - 1] else []) ++ [(i : Int)]

/-- The indices at which `sortPath` reads `time`, over all passes of its loop
`for (int i = 0; i < (int)path_coord.size(); i += 1)`. -/
def sortPathReads (oob : Int → Dbl) (path_coord : List Vec3) (time : List Dbl) : List Int :=
  (List.range path_coord.length).flatMap (sortPathStepReads oob time)

/-- The operations `exactOps` with one rounded difference: `3.5 - 1.2` for the double
`1.2 = 5404319552844595 / 2 ^ 52`. The exact difference `10358279142952141 / 2 ^ 52` lies
halfway between two doubles and IEEE 754 (round to nearest, ties to even) returns
`10358279142952140 / 2 ^ 52`. -/
def roundedOps : DoubleOps :=
  { exactOps with
    sub := fun a b =>
      if a = 7 / 2 ∧ b = 5404319552844595 / 4503599627370496 then
        10358279142952140 / 4503599627370496
      else a - b }

/-- A monitor state with the three segment durations `1.2`, `1.0`, `1.3` as doubles, over
a grid that is occupied everywhere, with the operations `roundedOps`. The other
differences that the walk forms on these values at the elapsed time `3.5` are exact. -/
def roundedEnv : MonitorEnv :=
  { fp := roundedOps
    occupancy := fun _ => 1
    SegNum := 3
    Time := [5404319552844595 / 4503599627370496, 1, 5854679515581645 / 4503599627370496]
    PolyCoeff := ⟨3, 9, fun _ k => (k : ℚ) + 1⟩
    C := fun j => (Nat.choose 2 j : ℚ)
    traj_order := 2
    check_horizon := 10
    stop_horizon := 5 }

/-- One pass of the loop of `inflateCube` that neither breaks nor returns (source lines
383-629), on the pair `(vertex_idx, cubeMax)`: the six sweeps, then `cubeMax.setVertex`
with the world coordinates of the new indices. -/
def sweepStep (g : GridEnv) (s : Mat8x3 Int × Cube) : Mat8x3 Int × Cube :=
  (sweepFaces g.occupied g.step_length g.max_x g.max_y g.max_z s.1,
    g.setVertex s.2
      (vertexCoord g (sweepFaces g.occupied g.step_length g.max_x g.max_y g.max_z s.1))
      g.resolution)

/-- The pair `(vertex_idx, cubeMax)` of `inflateCube` after `k` such passes from the seed
`cube`. -/
def boxAfter (g : GridEnv) (cube : Cube) (k : Nat) : Mat8x3 Int × Cube :=
  (sweepStep g)^[k] (seedMatrix g cube, cube)

/-- The cell of the voxel `(1, 1, 0)` of `demoGrid` as a cube: the box
`[-1, 0] × [-1, 0] × [0, 1]`. -/
def cellCube : Cube := ⟨boxVertices (-1) 0 (-1) 0 0 1, ⟨-1 / 2, -1 / 2, 1 / 2⟩, true, 0⟩

/-- The whole map of `demoGrid` as a cube: the box `[-2, 2] × [-2, 2] × [0, 4]`. -/
def mapCube : Cube := ⟨boxVertices (-2) 2 (-2) 2 0 4, ⟨0, 0, 2⟩, true, 0⟩

/-- The sum that `getStateFromBezier` accumulates in `ret[i+3]` (source lines 1192-1195),
for the axis `i`: over `j < ctrl_num1D`, under the guard `j < ctrl_num1D - 1`,
`_Cv(j) * _traj_order * (ctrl_now(i * ctrl_num1D + j + 1) - ctrl_now(i * ctrl_num1D + j))
* pow(t_now, j) * pow(1 - t_now, _traj_order - j - 1)`. The guard and the exponent are
`int` expressions. -/
def velAxis (Cv : Nat → ℚ) (traj_order : Nat) (polyCoeff : MatrixXd) (t_now : ℚ)
    (seg_now : Nat) (i : Nat) : ℚ :=
  ((List.range (polyCoeff.cols / 3)).map (fun (j : Nat) =>
    if (j : Int) < ((polyCoeff.cols / 3 : Nat) : Int) - 1 then
      Cv j * (traj_order : ℚ)
        * (polyCoeff.entry seg_now (i * (polyCoeff.cols / 3) + j + 1)
            - polyCoeff.entry seg_now (i * (polyCoeff.cols / 3) + j))
        * t_now ^ j * (1 - t_now) ^ ((traj_order : Int) - (j : Int) - 1)
    else 0)).sum

/-- The sum that `getStateFromBezier` accumulates in `ret[i+6]` (source lines 1197-1200),
under the guard `j < ctrl_num1D - 2`. -/
def accAxis (Ca : Nat → ℚ) (traj_order : Nat) (polyCoeff : MatrixXd) (t_now : ℚ)
    (seg_now : Nat) (i : Nat) : ℚ :=
  ((List.range (polyCoeff.cols / 3)).map (fun (j : Nat) =>
    if (j : Int) < ((polyCoeff.cols / 3 : Nat) : Int) - 2 then
      Ca j * (traj_order : ℚ) * (((traj_order : Int) - 1 : Int) : ℚ)
        * (polyCoeff.entry seg_now (i * (polyCoeff.cols / 3) + j + 2)
            - 2 * polyCoeff.entry seg_now (i * (polyCoeff.cols / 3) + j + 1)
            + polyCoeff.entry seg_now (i * (polyCoeff.cols / 3) + j))
        * t_now ^ j * (1 - t_now) ^ ((traj_order : Int) - (j : Int) - 2)
    else 0)).sum

/-- The sum that `getStateFromBezier` accumulates in `ret[i+9]` (source lines 1202-1205),
under the guard `j < ctrl_num1D - 3`. -/
def jerkAxis (Cj : Nat → ℚ) (traj_order : Nat) (polyCoeff : MatrixXd) (t_now : ℚ)
    (seg_now : Nat) (i : Nat) : ℚ :=
  ((List.range (polyCoeff.cols / 3)).map (fun (j : Nat) =>
    if (j : Int) < ((polyCoeff.cols / 3 : Nat) : Int) - 3 then
      Cj j * (traj_order : ℚ) * (((traj_order : Int) - 1 : Int) : ℚ)
        * (((traj_order : Int) - 2 : Int) : ℚ)
        * (polyCoeff.entry seg_now (i * (polyCoeff.cols / 3) + j + 3)
            - 3 * polyCoeff.entry seg_now (i * (polyCoeff.cols / 3) + j + 2)
            + 3 * polyCoeff.entry seg_now (i * (polyCoeff.cols / 3) + j + 1)
            - polyCoeff.entry seg_now (i * (polyCoeff.cols / 3) + j))
        * t_now ^ j * (1 - t_now) ^ ((traj_order : Int) - (j : Int) - 3)
    else 0)).sum

/-- The function `getStateFromBezier` (source lines 1180-1210): the twelve entries of
`ret`, the position block `ret[0..2]` (the sum of `getPosFromBezier`), the velocity block
`ret[3..5]`, the acceleration block `ret[6..8]` and the jerk block `ret[9..11]`; `C`, `Cv`,
`Ca`, `Cj` are the globals `_C`, `_Cv`, `_Ca`, `_Cj` and `traj_order` is `_traj_order`. -/
def getStateFromBezier (C Cv Ca Cj : Nat → ℚ) (traj_order : Nat) (polyCoeff : MatrixXd)
    (t_now : ℚ) (seg_now : Nat) : List ℚ :=
  [bezierAxis C traj_order polyCoeff t_now seg_now 0,
   bezierAxis C traj_order polyCoeff t_now seg_now 1,
   bezierAxis C traj_order polyCoeff t_now seg_now 2,
   velAxis Cv traj_order polyCoeff t_now seg_now 0,
   velAxis Cv traj_order polyCoeff t_now seg_now 1,
   velAxis Cv traj_order polyCoeff t_now seg_now 2,
   accAxis Ca traj_order polyCoeff t_now seg_now 0,
   accAxis Ca traj_order polyCoeff t_now seg_now 1,
   accAxis Ca traj_order polyCoeff t_now seg_now 2,
   jerkAxis Cj traj_order polyCoeff t_now seg_now 0,
   jerkAxis Cj traj_order polyCoeff t_now seg_now 1,
   jerkAxis Cj traj_order polyCoeff t_now seg_now 2]

/-- The Bernstein form of order `m` with the coefficients `d`:
the sum of `d j * (m choose j) * t ^ j * (1 - t) ^ (m - j)` over `j ≤ m`. -/
def bernsteinSum (m : Nat) (d : Nat → ℚ) (t : ℚ) : ℚ :=
  ∑ j ∈ Finset.range (m + 1), d j * ((Nat.choose m j : ℚ) * t ^ j * (1 - t) ^ (m - j))

/-- A sample control-point matrix of order 3: one segment, four control points per axis,
entry `k` being `k ^ 3`. -/
def cubicPoly : MatrixXd := ⟨1, 12, fun _ k => (k : ℚ) ^ 3⟩

/-! # Theorems -/

/-! ## Lemmas on containment and simplification -/

@[simp] theorem isContains_inval_left (b : Bool) (c d : Cube) :
    isContains (inval b c) d = isContains c d := by
  cases b <;> rfl

@[simp] theorem isContains_inval_right (b : Bool) (c d : Cube) :
    isContains d (inval b c) = isContains d c := by
  cases b <;> rfl

@[simp] theorem inval_inval (a b : Bool) (c : Cube) :
    inval a (inval b c) = inval (a || b) c := by
  cases a <;> cases b <;> rfl

@[simp] theorem inval_false (c : Cube) : inval false c = c := rfl

theorem inval_valid (b : Bool) (c : Cube) : (inval b c).valid = (c.valid && !b) := by
  cases b <;> simp [inval]

theorem inval_of_valid_false (b : Bool) (c : Cube) (h : c.valid = false) : inval b c = c := by
  cases b
  · rfl
  · cases c; simp_all [inval]

theorem simplifyStep_none (l : List Cube) (j k : Nat) (h : l[j]? = none) :
    simplifyStep l j k = l := by
  simp [simplifyStep, h]

theorem simplifyStep_getElem? (l : List Cube) (j k : Nat) (cj : Cube) (h : l[j]? = some cj)
    (i : Nat) :
    (simplifyStep l j k)[i]? =
      if i = k then (l[k]?).map (fun c => inval (isContains cj c) c) else l[i]? := by
  unfold simplifyStep
  rw [h]
  cases hk : l[k]? with
  | none =>
    by_cases hik : i = k
    · subst hik; simp [hk]
    · simp [hik]
  | some ck =>
    have hklt : k < l.length := by
      rcases List.getElem?_eq_some_iff.mp hk with ⟨hlt, _⟩
      exact hlt
    by_cases hv : ck.valid = false
    · by_cases hik : i = k
      · subst hik; simp [hv, hk, inval_of_valid_false]
      · simp [hv, hik]
    · by_cases hc : isContains cj ck = true
      · by_cases hik : i = k
        · subst hik; simp [hv, hc, List.getElem?_set, hklt, inval]
        · have hki : ¬ k = i := fun e => hik e.symm
          simp [hv, hc, List.getElem?_set, hik, hki]
      · by_cases hik : i = k
        · subst hik; simp [hv, hc, hk, inval]
        · simp [hv, hc, hik]

theorem simplifyInner_none (j : Nat) (l : List Cube) (h : l[j]? = none) :
    ∀ k, simplifyInner j k l = l := by
  intro k
  induction k with
  | zero => rfl
  | succ k ih => simp [simplifyInner, simplifyStep_none l j k h, ih]

theorem simplifyInner_getElem? (j : Nat) (cj : Cube) :
    ∀ (k : Nat) (l : List Cube), k ≤ j → l[j]? = some cj → ∀ i,
      (simplifyInner j k l)[i]? =
        (l[i]?).map (fun c => inval (decide (i < k) && isContains cj c) c) := by
  intro k
  induction k with
  | zero =>
    intro l _ _ i
    simp [simplifyInner]
  | succ k ih =>
    intro l hk hj i
    have hkj : k < j := hk
    have hj' : (simplifyStep l j k)[j]? = some cj := by
      rw [simplifyStep_getElem? l j k cj hj, if_neg (by omega), hj]
    rw [simplifyInner, ih (simplifyStep l j k) (by omega) hj' i,
      simplifyStep_getElem? l j k cj hj]
    by_cases hik : i = k
    · subst hik
      cases l[i]? <;> simp
    · have h1 : (i < k + 1) = (i < k) := by
        apply propext; constructor <;> intro h <;> omega
      simp [hik, h1]

open Classical in
theorem simplifyOuter_getElem? :
    ∀ (m : Nat) (l : List Cube) (i : Nat),
      (simplifyOuter m l)[i]? =
        (l[i]?).map (fun c => inval
          (decide (∃ j cj, i < j ∧ j < m ∧ l[j]? = some cj ∧ isContains cj c = true)) c) := by
  intro m
  induction m with
  | zero =>
    intro l i
    simp [simplifyOuter]
  | succ m ih =>
    intro l i
    rw [simplifyOuter, ih]
    cases hm : l[m]? with
    | none =>
      rw [simplifyInner_none m l hm]
      cases hi : l[i]? with
      | none => rfl
      | some c =>
        simp only [Option.map_some', Option.some.injEq]
        congr 1
        simp only [decide_eq_decide]
        constructor
        · rintro ⟨j, cj, h1, h2, h3, h4⟩
          exact ⟨j, cj, h1, by omega, h3, h4⟩
        · rintro ⟨j, cj, h1, h2, h3, h4⟩
          have : j ≠ m := by
            intro e; subst e; rw [hm] at h3; cases h3
          exact ⟨j, cj, h1, by omega, h3, h4⟩
    | some cm =>
      have hin := simplifyInner_getElem? m cm m l (le_refl m) hm
      rw [hin i]
      cases hi : l[i]? with
      | none => rfl
      | some c =>
        simp only [Option.map_some', Option.some.injEq, inval_inval, isContains_inval_right]
        congr 1
        rw [Bool.eq_iff_iff]
        simp only [Bool.or_eq_true, decide_eq_true_eq, Bool.and_eq_true]
        constructor
        · rintro (⟨j, cj, h1, h2, h3, h4⟩ | ⟨h1, h2⟩)
          · rw [hin j] at h3
            cases hj : l[j]? with
            | none => rw [hj] at h3; cases h3
            | some cj0 =>
              rw [hj] at h3
              simp only [Option.map_some', Option.some.injEq] at h3
              subst h3
              rw [isContains_inval_left] at h4
              exact ⟨j, cj0, h1, by omega, hj, h4⟩
          · exact ⟨m, cm, h1, by omega, hm, h2⟩
        · rintro ⟨j, cj, h1, h2, h3, h4⟩
          by_cases hjm : j = m
          · subst hjm
            rw [hm] at h3
            cases h3
            exact Or.inr ⟨h1, h4⟩
          · refine Or.inl ⟨j, inval (decide (j < m) && isContains cm cj) cj, h1, by omega, ?_, ?_⟩
            · rw [hin j, h3]; rfl
            · rw [isContains_inval_left]; exact h4

open Classical in
theorem markAll_getElem? :
    ∀ (l : List Cube) (i : Nat),
      (markAll l)[i]? =
        (l[i]?).map (fun c => inval
          (decide (∃ j cj, i < j ∧ j < l.length ∧ l[j]? = some cj ∧ isContains cj c = true)) c) := by
  intro l
  induction l with
  | nil => intro i; simp [markAll]
  | cons a rest ih =>
    intro i
    cases i with
    | zero =>
      simp only [markAll, List.getElem?_cons_zero, Option.map_some', Option.some.injEq]
      congr 1
      rw [Bool.eq_iff_iff]
      simp only [List.any_eq_true, decide_eq_true_eq, List.length_cons]
      constructor
      · rintro ⟨d, hd, hc⟩
        obtain ⟨n, hn, rfl⟩ := List.getElem_of_mem hd
        exact ⟨n + 1, rest[n], by omega, by omega, by simp [hn], hc⟩
      · rintro ⟨j, cj, h1, h2, h3, h4⟩
        cases j with
        | zero => omega
        | succ n =>
          simp only [List.getElem?_cons_succ] at h3
          exact ⟨cj, List.getElem?_mem h3, h4⟩
    | succ n =>
      simp only [markAll, List.getElem?_cons_succ, ih n, List.length_cons]
      cases hn : rest[n]? with
      | none => rfl
      | some c =>
        simp only [Option.map_some', Option.some.injEq]
        congr 1
        simp only [decide_eq_decide]
        constructor
        · rintro ⟨j, cj, h1, h2, h3, h4⟩
          exact ⟨j + 1, cj, by omega, by omega, by simpa using h3, h4⟩
        · rintro ⟨j, cj, h1, h2, h3, h4⟩
          cases j with
          | zero => omega
          | succ j =>
            simp only [List.getElem?_cons_succ] at h3
            exact ⟨j, cj, by omega, by omega, h3, h4⟩

theorem simplifyOuter_eq_markAll (l : List Cube) : simplifyOuter l.length l = markAll l := by
  apply List.ext_getElem?
  intro i
  rw [simplifyOuter_getElem?, markAll_getElem?]

theorem filter_markAll (l : List Cube) :
    (markAll l).filter (fun cube => cube.valid) = keptCubes l := by
  induction l with
  | nil => rfl
  | cons c rest ih =>
    simp only [markAll, keptCubes]
    by_cases hv : c.valid = true
    · by_cases hc : ∀ d ∈ rest, isContains d c = false
      · have hany : (rest.any fun d => isContains d c) = false := by
          simpa [List.any_eq_false] using hc
        rw [hany, inval_false, List.filter_cons_of_pos (by simpa using hv), ih,
          if_pos ⟨hv, hc⟩]
      · have hany : (rest.any fun d => isContains d c) = true := by
          simpa [List.any_eq_true] using hc
        rw [hany, List.filter_cons_of_neg (by simp [inval]), ih, if_neg (fun h => hc h.2)]
    · rw [List.filter_cons_of_neg (by simp [inval_valid, hv]), ih, if_neg (fun h => hv h.1)]

/-- The loops of `corridorSimplify` compute the spec's reading. -/
theorem corridorSimplify_eq_keptCubes (l : List Cube) : corridorSimplify l = keptCubes l := by
  rw [corridorSimplify, simplifyOuter_eq_markAll, filter_markAll]

theorem keptCubes_sublist (l : List Cube) : (keptCubes l).Sublist l := by
  induction l with
  | nil => exact List.Sublist.slnil
  | cons c rest ih =>
    simp only [keptCubes]
    split
    · exact ih.cons₂ c
    · exact ih.cons c

theorem isContains_refl (c : Cube) : isContains c c = true := by
  simp [isContains]

theorem isContains_trans (a b c : Cube) (hab : isContains a b = true)
    (hbc : isContains b c = true) : isContains a c = true := by
  simp only [isContains, Bool.and_eq_true, decide_eq_true_eq, ge_iff_le] at *
  obtain ⟨⟨⟨⟨⟨h1, h2⟩, h3⟩, h4⟩, h5⟩, h6⟩ := hab
  obtain ⟨⟨⟨⟨⟨g1, g2⟩, g3⟩, g4⟩, g5⟩, g6⟩ := hbc
  exact ⟨⟨⟨⟨⟨le_trans g1 h1, le_trans h2 g2⟩, le_trans g3 h3⟩, le_trans h4 g4⟩,
    le_trans g5 h5⟩, le_trans h6 g6⟩

theorem keptCubes_covers (l : List Cube) (hv : ∀ c ∈ l, c.valid = true) :
    ∀ c ∈ l, ∃ d ∈ keptCubes l, isContains d c = true := by
  induction l with
  | nil => intro c hc; cases hc
  | cons a rest ih =>
    have ih' := ih (fun c hc => hv c (List.mem_cons_of_mem a hc))
    have hsub : ∀ d ∈ keptCubes rest, d ∈ keptCubes (a :: rest) := by
      intro d hd
      simp only [keptCubes]
      split
      · exact List.mem_cons_of_mem a hd
      · exact hd
    intro c hc
    rcases List.mem_cons.mp hc with rfl | hc
    · by_cases hk : ∀ d ∈ rest, isContains d c = false
      · refine ⟨c, ?_, isContains_refl c⟩
        simp only [keptCubes]
        rw [if_pos ⟨hv c (List.mem_cons_self c rest), hk⟩]
        exact List.mem_cons_self c _
      · push_neg at hk
        obtain ⟨d, hd, hdc⟩ := hk
        have hdc' : isContains d c = true := by simpa using hdc
        obtain ⟨e, he, hed⟩ := ih' d hd
        exact ⟨e, hsub e he, isContains_trans e d c hed hdc'⟩
    · obtain ⟨e, he, hec⟩ := ih' c hc
      exact ⟨e, hsub e he, hec⟩

theorem keptCubes_mem : ∀ (l : List Cube) (i : Nat) (h : i < l.length),
    l[i].valid = true →
    (∀ (j : Nat) (hj : j < l.length), i < j → isContains l[j] l[i] = false) →
    l[i] ∈ keptCubes l := by
  intro l
  induction l with
  | nil => intro i h; simp at h
  | cons a rest ih =>
    intro i h hv hc
    cases i with
    | zero =>
      simp only [List.getElem_cons_zero] at hv hc ⊢
      have hk : ∀ d ∈ rest, isContains d a = false := by
        intro d hd
        obtain ⟨n, hn, rfl⟩ := List.getElem_of_mem hd
        have := hc (n + 1) (by simp; omega) (by omega)
        simpa using this
      simp only [keptCubes]
      rw [if_pos ⟨hv, hk⟩]
      exact List.mem_cons_self a _
    | succ n =>
      simp only [List.getElem_cons_succ] at hv hc ⊢
      have hn : n < rest.length := by simpa using h
      have hmem : rest[n] ∈ keptCubes rest := by
        apply ih n hn hv
        intro j hj hlt
        have := hc (j + 1) (by simp; omega) (by omega)
        simpa using this
      simp only [keptCubes]
      split
      · exact List.mem_cons_of_mem a hmem
      · exact hmem

/-! ## Claims on containment and simplification -/

/-- C8: `corridorSimplify` returns, in their original order, exactly the input cubes that
were valid on entry and that no later cube of the input contains (`keptCubes`); so its
output is a sublist of the input, and a cube that is valid on entry and that no other
cube of the input contains is in the output. -/
theorem corridorSimplify_keeps_uncontained (cubicList : List Cube) :
    corridorSimplify cubicList = keptCubes cubicList ∧
    (corridorSimplify cubicList).Sublist cubicList ∧
    ∀ (i : Nat) (h : i < cubicList.length), cubicList[i].valid = true →
      (∀ (j : Nat) (hj : j < cubicList.length), j ≠ i →
        isContains cubicList[j] cubicList[i] = false) →
      cubicList[i] ∈ corridorSimplify cubicList := by
  refine ⟨corridorSimplify_eq_keptCubes cubicList, ?_, ?_⟩
  · rw [corridorSimplify_eq_keptCubes]
    exact keptCubes_sublist cubicList
  · intro i h hv hc
    rw [corridorSimplify_eq_keptCubes]
    exact keptCubes_mem cubicList i h hv (fun j hj hlt => hc j hj (by omega))

/-- C9: when every cube of the input is valid on entry, every input cube, and so each
cube that `corridorSimplify` drops, is contained (`isContains`) by a cube of the
output. -/
theorem corridorSimplify_loses_no_volume (cubicList : List Cube)
    (hv : ∀ c ∈ cubicList, c.valid = true) :
    ∀ c ∈ cubicList, ∃ d ∈ corridorSimplify cubicList, isContains d c = true := by
  rw [corridorSimplify_eq_keptCubes]
  exact keptCubes_covers cubicList hv

/-- C10: `isContains` is reflexive, and two cubes in the fixed corner order (the cubes of
the data model, which are the ones the program compares) that contain each other have
equal vertex coordinates. For any two vertex matrices that contain each other, the two
diagonal corner vertices the function compares (rows 0 and 6) are equal. -/
theorem isContains_refl_antisymm (A B : Cube) :
    isContains A A = true ∧
    (isContains A B = true → isContains B A = true →
      (A.vertex.x0 = B.vertex.x0 ∧ A.vertex.y0 = B.vertex.y0 ∧ A.vertex.z0 = B.vertex.z0 ∧
       A.vertex.x6 = B.vertex.x6 ∧ A.vertex.y6 = B.vertex.y6 ∧ A.vertex.z6 = B.vertex.z6) ∧
      (A.vertex.boxLayout → B.vertex.boxLayout → A.vertex = B.vertex)) := by
  refine ⟨isContains_refl A, ?_⟩
  intro hab hba
  simp only [isContains, Bool.and_eq_true, decide_eq_true_eq, ge_iff_le] at hab hba
  obtain ⟨⟨⟨⟨⟨h1, h2⟩, h3⟩, h4⟩, h5⟩, h6⟩ := hab
  obtain ⟨⟨⟨⟨⟨g1, g2⟩, g3⟩, g4⟩, g5⟩, g6⟩ := hba
  have e1 := le_antisymm g1 h1
  have e2 := le_antisymm h2 g2
  have e3 := le_antisymm g3 h3
  have e4 := le_antisymm h4 g4
  have e5 := le_antisymm g5 h5
  have e6 := le_antisymm h6 g6
  refine ⟨⟨e1, e2, e3, e4, e5, e6⟩, ?_⟩
  intro hA hB
  obtain ⟨va, ca, vala, ta⟩ := A
  obtain ⟨vb, cb, valb, tb⟩ := B
  cases va
  cases vb
  simp only [Mat8x3.boxLayout] at hA hB
  simp only at e1 e2 e3 e4 e5 e6
  simp only [Mat8x3.mk.injEq]
  obtain ⟨⟨a1, a2, a3⟩, ⟨a4, a5, a6⟩, ⟨a7, a8, a9⟩, ⟨a10, a11, a12⟩, ⟨a13, a14, a15⟩,
    ⟨a16, a17, a18⟩⟩ := hA
  obtain ⟨⟨b1, b2, b3⟩, ⟨b4, b5, b6⟩, ⟨b7, b8, b9⟩, ⟨b10, b11, b12⟩, ⟨b13, b14, b15⟩,
    ⟨b16, b17, b18⟩⟩ := hB
  subst_vars
  simp

/-- C8 at the list `[sampleSmall, sampleBig]`: the later, larger cube is kept. -/
theorem corridorSimplify_keeps_uncontained_witness :
    sampleBig ∈ corridorSimplify [sampleSmall, sampleBig] :=
  (corridorSimplify_keeps_uncontained [sampleSmall, sampleBig]).2.2 1 (by simp)
    (by simp [sampleBig])
    (by
      intro j hj hne
      have hj0 : j = 0 := by simp at hj; omega
      subst hj0
      norm_num [isContains, sampleSmall, sampleBig, boxVertices])

/-- C9 at the list `[sampleSmall, sampleBig]`. -/
theorem corridorSimplify_loses_no_volume_witness :
    (∀ c ∈ [sampleSmall, sampleBig], c.valid = true) ∧
    ∀ c ∈ [sampleSmall, sampleBig],
      ∃ d ∈ corridorSimplify [sampleSmall, sampleBig], isContains d c = true :=
  ⟨by simp [sampleSmall, sampleBig],
   corridorSimplify_loses_no_volume [sampleSmall, sampleBig]
     (by simp [sampleSmall, sampleBig])⟩

/-- C10 at two boxes with the same vertices and different arrival times. -/
theorem isContains_refl_antisymm_witness :
    isContains sampleBig { sampleBig with t := 5 } = true ∧
    isContains { sampleBig with t := 5 } sampleBig = true ∧
    sampleBig.vertex.boxLayout ∧ (({ sampleBig with t := 5 } : Cube)).vertex.boxLayout ∧
    sampleBig.vertex = (({ sampleBig with t := 5 } : Cube)).vertex :=
  have hab : isContains sampleBig { sampleBig with t := 5 } = true := by
    norm_num [isContains, sampleBig, boxVertices]
  have hba : isContains { sampleBig with t := 5 } sampleBig = true := by
    norm_num [isContains, sampleBig, boxVertices]
  have hA : sampleBig.vertex.boxLayout := by
    simp [Mat8x3.boxLayout, sampleBig, boxVertices]
  ⟨hab, hba, hA, hA,
    ((isContains_refl_antisymm sampleBig { sampleBig with t := 5 }).2 hab hba).2 hA hA⟩

/-! ## Claims on time allocation -/

theorem timeAllocation_eq (corridor : List Cube) (time : List ℚ) (lastCube : Cube) (T : ℚ)
    (hc : corridor.getLast? = some lastCube) (ht : time.getLast? = some T) :
    timeAllocation corridor time =
      some (List.zipWith (fun cube d => { cube with t := d }) corridor
              ((List.range (corridor.length - 1)).map
                (fun i => max (cubeTime corridor (i + 1) - cubeTime corridor i) 1)
                ++ [T - lastCube.t]),
            (List.range (corridor.length - 1)).map
                (fun i => max (cubeTime corridor (i + 1) - cubeTime corridor i) 1)
                ++ [T - lastCube.t]) := by
  have hne : corridor ≠ [] := by
    intro h; subst h; simp at hc
  have hlen : 0 < corridor.length := List.length_pos.mpr hne
  simp only [timeAllocation, hc, ht, Option.some.injEq, Prod.mk.injEq, true_and]
  apply List.ext_getElem?
  intro i
  simp only [List.getElem?_zipWith]
  by_cases hi : i < corridor.length
  · rw [List.getElem?_eq_getElem hi]
    cases h : ((List.range (corridor.length - 1)).map
        (fun i => max (cubeTime corridor (i + 1) - cubeTime corridor i) 1)
        ++ [T - lastCube.t])[i]? <;> rfl
  · have h1 : corridor[i]? = none := List.getElem?_eq_none (by omega)
    have h2 : ((List.range (corridor.length - 1)).map
        (fun i => max (cubeTime corridor (i + 1) - cubeTime corridor i) 1)
        ++ [T - lastCube.t])[i]? = none := by
      apply List.getElem?_eq_none
      simp
      omega
    rw [h1, h2]

/-- C5 (amended): for a non-empty corridor and a non-empty time series whose times are
finite numbers (doubles as rationals: no NaN, no infinity), `timeAllocation` returns, and
every interior duration (entry `i` of `_Time` with `i + 1 < n`) is at least 1; the final
entry is `time.back() - corridor.back().t`, with no lower bound. -/
theorem timeAllocation_interior_ge_one (corridor : List Cube) (time : List ℚ)
    (hc : corridor ≠ []) (ht : time ≠ []) :
    ∃ corridor' Time, timeAllocation corridor time = some (corridor', Time) ∧
      (∀ i d, i + 1 < corridor.length → Time[i]? = some d → 1 ≤ d) ∧
      Time[corridor.length - 1]? = some (time.getLast ht - (corridor.getLast hc).t) := by
  have h1 : corridor.getLast? = some (corridor.getLast hc) := List.getLast?_eq_getLast _ hc
  have h2 : time.getLast? = some (time.getLast ht) := List.getLast?_eq_getLast _ ht
  refine ⟨_, _, timeAllocation_eq corridor time _ _ h1 h2, ?_, ?_⟩
  · intro i d hi hd
    rw [List.getElem?_append_left (by simp; omega)] at hd
    simp only [List.getElem?_map, List.getElem?_range (show i < corridor.length - 1 by omega),
      Option.map_some', Option.some.injEq] at hd
    rw [← hd]
    exact le_max_right _ _
  · rw [List.getElem?_append_right (by simp)]
    simp

/-- C5 as stated fails: for the one-cube corridor `[sampleSmall]` (seed time 0) and the
time series `[0]`, the only duration is `0 - 0 = 0`, below 1. -/
theorem timeAllocation_final_below_one :
    ¬ (∀ (corridor : List Cube) (time : List ℚ), corridor ≠ [] →
        ∀ corridor' Time, timeAllocation corridor time = some (corridor', Time) →
          ∀ d ∈ Time, 1 ≤ d) := by
  intro h
  have h0 := h [sampleSmall] [0] (by simp) [{ sampleSmall with t := 0 - sampleSmall.t }]
    [0 - sampleSmall.t] (by simp [timeAllocation]) (0 - sampleSmall.t) (by simp)
  norm_num [sampleSmall] at h0

/-- C5 (amended) at the corridor `[sampleSmall, sampleBig]` and the times `[0, 1, 4]`. -/
theorem timeAllocation_interior_ge_one_witness :
    [sampleSmall, sampleBig] ≠ [] ∧ [(0 : ℚ), 1, 4] ≠ [] ∧
    ∃ corridor' Time, timeAllocation [sampleSmall, sampleBig] [0, 1, 4] = some (corridor', Time) ∧
      (∀ i d, i + 1 < [sampleSmall, sampleBig].length → Time[i]? = some d → 1 ≤ d) ∧
      Time[[sampleSmall, sampleBig].length - 1]? =
        some ([(0 : ℚ), 1, 4].getLast (by simp) -
          ([sampleSmall, sampleBig].getLast (by simp)).t) :=
  ⟨by simp, by simp,
    timeAllocation_interior_ge_one [sampleSmall, sampleBig] [0, 1, 4] (by simp) (by simp)⟩

/-- C6: for a non-empty corridor of `n` cubes and a time series with last element `T`,
`timeAllocation` returns `n` durations and `n` cubes; duration `i` is
`max (t (i+1) - t i) 1` for `i + 1 < n`, duration `n - 1` is `T - t (n-1)`, and cube `i`
of the result is cube `i` of the input with its `t` field set to duration `i`, the value
stored in `_Time(i)`. -/
theorem timeAllocation_durations (corridor : List Cube) (time : List ℚ)
    (hc : corridor ≠ []) (ht : time ≠ []) :
    ∃ corridor' Time, timeAllocation corridor time = some (corridor', Time) ∧
      Time.length = corridor.length ∧ corridor'.length = corridor.length ∧
      (∀ i c0 c1, corridor[i]? = some c0 → corridor[i + 1]? = some c1 →
        Time[i]? = some (max (c1.t - c0.t) 1)) ∧
      Time[corridor.length - 1]? = some (time.getLast ht - (corridor.getLast hc).t) ∧
      (∀ (i : Nat) (c : Cube), corridor[i]? = some c →
        ∃ d, Time[i]? = some d ∧ corridor'[i]? = some { c with t := d }) := by
  have h1 : corridor.getLast? = some (corridor.getLast hc) := List.getLast?_eq_getLast _ hc
  have h2 : time.getLast? = some (time.getLast ht) := List.getLast?_eq_getLast _ ht
  have hlen : 0 < corridor.length := List.length_pos.mpr hc
  have hT : ((List.range (corridor.length - 1)).map
        (fun i => max (cubeTime corridor (i + 1) - cubeTime corridor i) 1)
        ++ [time.getLast ht - (corridor.getLast hc).t]).length = corridor.length := by
    simp; omega
  refine ⟨_, _, timeAllocation_eq corridor time _ _ h1 h2, hT, ?_, ?_, ?_, ?_⟩
  · rw [List.length_zipWith, hT, min_self]
  · intro i c0 c1 h0 h1'
    have hi : i + 1 < corridor.length := (List.getElem?_eq_some_iff.mp h1').1
    rw [List.getElem?_append_left (by simp; omega)]
    simp only [List.getElem?_map, List.getElem?_range (show i < corridor.length - 1 by omega),
      Option.map_some', cubeTime, h0, h1']
  · rw [List.getElem?_append_right (by simp)]
    simp
  · intro i c hi
    have hi' : i < corridor.length := (List.getElem?_eq_some_iff.mp hi).1
    obtain ⟨d, hd⟩ : ∃ d, ((List.range (corridor.length - 1)).map
        (fun i => max (cubeTime corridor (i + 1) - cubeTime corridor i) 1)
        ++ [time.getLast ht - (corridor.getLast hc).t])[i]? = some d := by
      rw [List.getElem?_eq_getElem (by rw [hT]; exact hi')]
      exact ⟨_, rfl⟩
    refine ⟨d, hd, ?_⟩
    rw [List.getElem?_zipWith, hi, hd]

/-- C6 at the corridor `[sampleSmall, sampleBig]` and the times `[0, 1, 4]`. -/
theorem timeAllocation_durations_witness :
    [sampleSmall, sampleBig] ≠ [] ∧ [(0 : ℚ), 1, 4] ≠ [] ∧
    timeAllocation [sampleSmall, sampleBig] [0, 1, 4] =
      some ([{ sampleSmall with t := 1 }, { sampleBig with t := 3 }], [1, 3]) ∧
    ∃ corridor' Time, timeAllocation [sampleSmall, sampleBig] [0, 1, 4] = some (corridor', Time) ∧
      Time.length = [sampleSmall, sampleBig].length ∧
      corridor'.length = [sampleSmall, sampleBig].length ∧
      (∀ i c0 c1, [sampleSmall, sampleBig][i]? = some c0 →
        [sampleSmall, sampleBig][i + 1]? = some c1 →
        Time[i]? = some (max (c1.t - c0.t) 1)) ∧
      Time[[sampleSmall, sampleBig].length - 1]? =
        some ([(0 : ℚ), 1, 4].getLast (by simp) -
          ([sampleSmall, sampleBig].getLast (by simp)).t) ∧
      (∀ (i : Nat) (c : Cube), [sampleSmall, sampleBig][i]? = some c →
        ∃ d, Time[i]? = some d ∧ corridor'[i]? = some { c with t := d }) :=
  ⟨by simp, by simp,
    by norm_num [timeAllocation, cubeTime, List.range, List.range.loop, sampleSmall, sampleBig],
    timeAllocation_durations [sampleSmall, sampleBig] [0, 1, 4] (by simp) (by simp)⟩

/-! ## Claims on Bezier evaluation -/

theorem sum_map_range_eq_single (f : Nat → ℚ) (n k : Nat) (hk : k < n)
    (h : ∀ j, j < n → j ≠ k → f j = 0) : ((List.range n).map f).sum = f k := by
  have hsum : ∀ m, ((List.range m).map f).sum = ∑ j in Finset.range m, f j := by
    intro m
    induction m with
    | zero => simp
    | succ m ih => rw [List.sum_range_succ, Finset.sum_range_succ, ih]
  rw [hsum]
  apply Finset.sum_eq_single k
  · intro j hj hne
    exact h j (Finset.mem_range.mp hj) hne
  · intro hnot
    exact absurd (Finset.mem_range.mpr hk) hnot

theorem bezierAxis_zero (C : Nat → ℚ) (n : Nat) (polyCoeff : MatrixXd)
    (hcols : polyCoeff.cols = 3 * (n + 1)) (hC : C 0 = 1) (seg i : Nat) :
    bezierAxis C n polyCoeff 0 seg i = polyCoeff.entry seg (i * (n + 1)) := by
  have hdiv : polyCoeff.cols / 3 = n + 1 := by omega
  unfold bezierAxis
  rw [hdiv, sum_map_range_eq_single _ (n + 1) 0 (by omega)]
  · simp [hC]
  · intro j _ hj
    have : (0 : ℚ) ^ j = 0 := zero_pow hj
    simp [this]

theorem bezierAxis_one (C : Nat → ℚ) (n : Nat) (polyCoeff : MatrixXd)
    (hcols : polyCoeff.cols = 3 * (n + 1)) (hC : C n = 1) (seg i : Nat) :
    bezierAxis C n polyCoeff 1 seg i = polyCoeff.entry seg (i * (n + 1) + n) := by
  have hdiv : polyCoeff.cols / 3 = n + 1 := by omega
  unfold bezierAxis
  rw [hdiv, sum_map_range_eq_single _ (n + 1) n (by omega)]
  · simp [hC]
  · intro j hj hne
    have hpos : (n : Int) - (j : Int) ≠ 0 := by omega
    have h0 : ((1 : ℚ) - 1) ^ ((n : Int) - (j : Int)) = 0 := by
      rw [sub_self]; exact zero_zpow _ hpos
    rw [h0, mul_zero]

/-- C7: with basis constants `C j = binomial n j` and `n + 1` control points per axis
(a matrix of `3 * (n + 1)` columns), `getPosFromBezier` at normalized time 0 returns the
first control point of each axis, and at normalized time 1 the last one. It holds for
every order `n`, in particular for `n ≥ 1`. -/
theorem getPosFromBezier_endpoints (n : Nat) (C : Nat → ℚ) (polyCoeff : MatrixXd) (seg : Nat)
    (hC : ∀ j, j ≤ n → C j = (Nat.choose n j : ℚ))
    (hcols : polyCoeff.cols = 3 * (n + 1)) :
    getPosFromBezier C n polyCoeff 0 seg =
      ⟨polyCoeff.entry seg 0, polyCoeff.entry seg (n + 1), polyCoeff.entry seg (2 * (n + 1))⟩ ∧
    getPosFromBezier C n polyCoeff 1 seg =
      ⟨polyCoeff.entry seg n, polyCoeff.entry seg (n + 1 + n),
       polyCoeff.entry seg (2 * (n + 1) + n)⟩ := by
  have h0 : C 0 = 1 := by rw [hC 0 (Nat.zero_le n)]; simp
  have hn : C n = 1 := by rw [hC n (le_refl n)]; simp
  constructor
  · simp only [getPosFromBezier, bezierAxis_zero C n polyCoeff hcols h0]
    simp
  · simp only [getPosFromBezier, bezierAxis_one C n polyCoeff hcols hn]
    simp

/-- C7 at order 2 with the control points `samplePoly` and the binomial constants. -/
theorem getPosFromBezier_endpoints_witness :
    (∀ j, j ≤ 2 → (fun j => (Nat.choose 2 j : ℚ)) j = (Nat.choose 2 j : ℚ)) ∧
    samplePoly.cols = 3 * (2 + 1) ∧
    getPosFromBezier (fun j => (Nat.choose 2 j : ℚ)) 2 samplePoly 0 0 = ⟨1, 4, 7⟩ ∧
    getPosFromBezier (fun j => (Nat.choose 2 j : ℚ)) 2 samplePoly 1 0 = ⟨3, 6, 9⟩ := by
  have h := getPosFromBezier_endpoints 2 (fun j => (Nat.choose 2 j : ℚ)) samplePoly 0
    (fun _ _ => rfl) rfl
  refine ⟨fun _ _ => rfl, rfl, ?_, ?_⟩
  · rw [h.1]; norm_num [samplePoly]
  · rw [h.2]; norm_num [samplePoly]

/-! ## The monitor walk -/

theorem anyBetween_false {lo hi : Int} {p : Int → Bool} (h : anyBetween lo hi p = false)
    (i : Int) (h1 : lo ≤ i) (h2 : i ≤ hi) : p i = false := by
  unfold anyBetween at h
  rw [List.any_eq_false] at h
  have hk := h (i - lo).toNat (List.mem_range.mpr (by omega))
  have he : lo + ((i - lo).toNat : Int) = i := by omega
  rw [he] at hk
  simpa using hk

theorem scanDown_spec (hit : Int → Bool) :
    ∀ (n : Nat) (s : Int),
      ((scanDown hit n s).1 = false → (scanDown hit n s).2 = s - n) ∧
      ((scanDown hit n s).1 = true → (scanDown hit n s).2 < s) ∧
      ∀ i, (if (scanDown hit n s).1 then (scanDown hit n s).2 + 1 else (scanDown hit n s).2) < i →
        i ≤ s → hit i = false := by
  intro n
  induction n with
  | zero =>
    intro s
    refine ⟨fun _ => by simp [scanDown], fun h => by simp [scanDown] at h, ?_⟩
    intro i h1 h2
    simp [scanDown] at h1
    omega
  | succ n ih =>
    intro s
    by_cases hs : hit s = true
    · simp only [scanDown, hs, if_true]
      refine ⟨fun h => by simp at h, fun _ => by omega, ?_⟩
      intro i h1 h2
      omega
    · have hs' : hit s = false := by simpa using hs
      obtain ⟨a, b, c⟩ := ih (s - 1)
      simp only [scanDown, hs', Bool.false_eq_true, if_false]
      refine ⟨fun h => ?_, fun h => ?_, ?_⟩
      · rw [a h]; push_cast; ring
      · have := b h; omega
      · intro i h1 h2
        by_cases hi : i = s
        · rw [hi]; exact hs'
        · exact c i h1 (by omega)

theorem scanUp_spec (hit : Int → Bool) :
    ∀ (n : Nat) (s : Int),
      ((scanUp hit n s).1 = false → (scanUp hit n s).2 = s + n) ∧
      ((scanUp hit n s).1 = true → s < (scanUp hit n s).2) ∧
      ∀ i, s ≤ i →
        i < (if (scanUp hit n s).1 then (scanUp hit n s).2 - 1 else (scanUp hit n s).2) →
        hit i = false := by
  intro n
  induction n with
  | zero =>
    intro s
    refine ⟨fun _ => by simp [scanUp], fun h => by simp [scanUp] at h, ?_⟩
    intro i h1 h2
    simp [scanUp] at h2
    omega
  | succ n ih =>
    intro s
    by_cases hs : hit s = true
    · simp only [scanUp, hs, if_true]
      refine ⟨fun h => by simp at h, fun _ => by omega, ?_⟩
      intro i h1 h2
      omega
    · have hs' : hit s = false := by simpa using hs
      obtain ⟨a, b, c⟩ := ih (s + 1)
      simp only [scanUp, hs', Bool.false_eq_true, if_false]
      refine ⟨fun h => ?_, fun h => ?_, ?_⟩
      · rw [a h]; push_cast; ring
      · have := b h; omega
      · intro i h1 h2
        by_cases hi : i = s
        · rw [hi]; exact hs'
        · exact c i (by omega) h2

theorem lowFace_free (hit : Int → Bool) (n : Nat) (s i : Int)
    (h1 : lowFace hit n s ≤ i) (h2 : i < s) : hit i = false := by
  obtain ⟨_, _, c⟩ := scanDown_spec hit n s
  apply c i _ (by omega)
  unfold lowFace at h1
  by_cases hc : (scanDown hit n s).1 = true
  · rw [if_pos hc] at h1 ⊢
    have := min_le_left ((scanDown hit n s).2 + 2) s
    rcases min_choice ((scanDown hit n s).2 + 2) s with h | h
    · rw [h] at h1; omega
    · rw [h] at h1; omega
  · rw [if_neg hc] at h1 ⊢
    omega

theorem highFace_free (hit : Int → Bool) (n : Nat) (s i : Int)
    (h1 : s < i) (h2 : i ≤ highFace hit n s) : hit i = false := by
  obtain ⟨_, _, c⟩ := scanUp_spec hit n s
  apply c i (by omega)
  unfold highFace at h2
  by_cases hc : (scanUp hit n s).1 = true
  · rw [if_pos hc] at h2 ⊢
    rcases max_choice ((scanUp hit n s).2 - 2) s with h | h
    · rw [h] at h2; omega
    · rw [h] at h2; omega
  · rw [if_neg hc] at h2 ⊢
    omega

theorem topFace_free (hit : Int → Bool) (n : Nat) (s i : Int)
    (h1 : s ≤ i) (h2 : i < topFace hit n s) : hit i = false := by
  obtain ⟨_, _, c⟩ := scanUp_spec hit n s
  apply c i h1
  unfold topFace at h2
  by_cases hc : (scanUp hit n s).1 = true
  · rw [if_pos hc]; exact h2
  · rw [if_neg hc]; omega

theorem boxLayout_eq_boxVertices {α : Type} (v : Mat8x3 α) (h : v.boxLayout) :
    v = boxVertices v.x6 v.x0 v.y0 v.y6 v.z6 v.z0 := by
  cases v
  simp only [Mat8x3.boxLayout] at h
  obtain ⟨⟨a1, a2, a3⟩, ⟨a4, a5, a6⟩, ⟨a7, a8, a9⟩, ⟨a10, a11, a12⟩, ⟨a13, a14, a15⟩,
    ⟨a16, a17, a18⟩⟩ := h
  subst_vars
  rfl

theorem boxLayout_boxVertices {α : Type} (xl xu yl yu zl zu : α) :
    (boxVertices xl xu yl yu zl zu).boxLayout := by
  simp [Mat8x3.boxLayout, boxVertices]

theorem faceYNeg_box (occ : Int → Int → Int → Bool) (y_lo xl xu yl yu zl zu : Int) :
    ∃ yl', faceYNeg occ y_lo (boxVertices xl xu yl yu zl zu) = boxVertices xl xu yl' yu zl zu ∧
      (FreeBelowTop occ xl xu yl yu zl zu → FreeBelowTop occ xl xu yl' yu zl zu) := by
  refine ⟨lowFace (fun id_y => anyBetween xl xu (fun id_x => anyBetween zl zu (fun id_z =>
      occ id_x id_y id_z))) (yl - y_lo + 1).toNat yl, ?_, ?_⟩
  · simp only [faceYNeg, boxVertices, lowFace]
    split <;> rfl
  · intro hJ x y z hx1 hx2 hy1 hy2 hz1 hz2
    by_cases hy : y < yl
    · have hl := lowFace_free _ _ _ y hy1 hy
      exact anyBetween_false (anyBetween_false hl x hx1 hx2) z hz1 (by omega)
    · exact hJ x y z hx1 hx2 (by omega) hy2 hz1 hz2

theorem faceYPos_box (occ : Int → Int → Int → Bool) (y_up xl xu yl yu zl zu : Int) :
    ∃ yu', faceYPos occ y_up (boxVertices xl xu yl yu zl zu) = boxVertices xl xu yl yu' zl zu ∧
      (FreeBelowTop occ xl xu yl yu zl zu → FreeBelowTop occ xl xu yl yu' zl zu) := by
  refine ⟨highFace (fun id_y => anyBetween xl xu (fun id_x => anyBetween zl zu (fun id_z =>
      occ id_x id_y id_z))) (y_up - yu + 1).toNat yu, ?_, ?_⟩
  · simp only [faceYPos, boxVertices, highFace]
    split <;> rfl
  · intro hJ x y z hx1 hx2 hy1 hy2 hz1 hz2
    by_cases hy : yu < y
    · have hl := highFace_free _ _ _ y hy hy2
      exact anyBetween_false (anyBetween_false hl x hx1 hx2) z hz1 (by omega)
    · exact hJ x y z hx1 hx2 hy1 (by omega) hz1 hz2

theorem faceXPos_box (occ : Int → Int → Int → Bool) (x_up xl xu yl yu zl zu : Int) :
    ∃ xu', faceXPos occ x_up (boxVertices xl xu yl yu zl zu) = boxVertices xl xu' yl yu zl zu ∧
      (FreeBelowTop occ xl xu yl yu zl zu → FreeBelowTop occ xl xu' yl yu zl zu) := by
  refine ⟨highFace (fun id_x => anyBetween yl yu (fun id_y => anyBetween zl zu (fun id_z =>
      occ id_x id_y id_z))) (x_up - xu + 1).toNat xu, ?_, ?_⟩
  · simp only [faceXPos, boxVertices, highFace]
    split <;> rfl
  · intro hJ x y z hx1 hx2 hy1 hy2 hz1 hz2
    by_cases hx : xu < x
    · have hl := highFace_free _ _ _ x hx hx2
      exact anyBetween_false (anyBetween_false hl y hy1 hy2) z hz1 (by omega)
    · exact hJ x y z hx1 (by omega) hy1 hy2 hz1 hz2

theorem faceXNeg_box (occ : Int → Int → Int → Bool) (x_lo xl xu yl yu zl zu : Int) :
    ∃ xl', faceXNeg occ x_lo (boxVertices xl xu yl yu zl zu) = boxVertices xl' xu yl yu zl zu ∧
      (FreeBelowTop occ xl xu yl yu zl zu → FreeBelowTop occ xl' xu yl yu zl zu) := by
  refine ⟨lowFace (fun id_x => anyBetween yl yu (fun id_y => anyBetween zl zu (fun id_z =>
      occ id_x id_y id_z))) (xl - x_lo + 1).toNat xl, ?_, ?_⟩
  · simp only [faceXNeg, boxVertices, lowFace]
    split <;> rfl
  · intro hJ x y z hx1 hx2 hy1 hy2 hz1 hz2
    by_cases hx : x < xl
    · have hl := lowFace_free _ _ _ x hx1 hx
      exact anyBetween_false (anyBetween_false hl y hy1 hy2) z hz1 (by omega)
    · exact hJ x y z (by omega) hx2 hy1 hy2 hz1 hz2

theorem faceZPos_box (occ : Int → Int → Int → Bool) (z_up xl xu yl yu zl zu : Int) :
    ∃ zu', faceZPos occ z_up (boxVertices xl xu yl yu zl zu) = boxVertices xl xu yl yu zl zu' ∧
      (FreeBelowTop occ xl xu yl yu zl zu → FreeBelowTop occ xl xu yl yu zl zu') := by
  refine ⟨topFace (fun id_z => anyBetween yl yu (fun id_y => anyBetween xl xu (fun id_x =>
      occ id_x id_y id_z))) (z_up - zu + 1).toNat zu, ?_, ?_⟩
  · simp only [faceZPos, boxVertices, topFace]
    split <;> rfl
  · intro hJ x y z hx1 hx2 hy1 hy2 hz1 hz2
    by_cases hz : z < zu
    · exact hJ x y z hx1 hx2 hy1 hy2 hz1 hz
    · have hl := topFace_free _ _ _ z (by omega) hz2
      exact anyBetween_false (anyBetween_false hl y hy1 hy2) x hx1 hx2

theorem faceZNeg_box (occ : Int → Int → Int → Bool) (z_lo xl xu yl yu zl zu : Int) :
    ∃ zl', faceZNeg occ z_lo (boxVertices xl xu yl yu zl zu) = boxVertices xl xu yl yu zl' zu ∧
      (FreeBelowTop occ xl xu yl yu zl zu → FreeBelowTop occ xl xu yl yu zl' zu) := by
  refine ⟨lowFace (fun id_z => anyBetween yl yu (fun id_y => anyBetween xl xu (fun id_x =>
      occ id_x id_y id_z))) (zl - z_lo + 1).toNat zl, ?_, ?_⟩
  · simp only [faceZNeg, boxVertices, lowFace]
    split <;> rfl
  · intro hJ x y z hx1 hx2 hy1 hy2 hz1 hz2
    by_cases hz : z < zl
    · have hl := lowFace_free _ _ _ z hz1 hz
      exact anyBetween_false (anyBetween_false hl y hy1 hy2) x hx1 hx2
    · exact hJ x y z hx1 hx2 hy1 hy2 (by omega) hz2

theorem sweepFaces_box (occ : Int → Int → Int → Bool) (step mx my mz xl xu yl yu zl zu : Int) :
    ∃ xl' xu' yl' yu' zl' zu',
      sweepFaces occ step mx my mz (boxVertices xl xu yl yu zl zu) =
        boxVertices xl' xu' yl' yu' zl' zu' ∧
      (FreeBelowTop occ xl xu yl yu zl zu → FreeBelowTop occ xl' xu' yl' yu' zl' zu') := by
  unfold sweepFaces sweepZ sweepX sweepY
  obtain ⟨yl', e1, j1⟩ := faceYNeg_box occ
    (max 0 (wrapInt ((boxVertices xl xu yl yu zl zu).y0 - step))) xl xu yl yu zl zu
  obtain ⟨yu', e2, j2⟩ := faceYPos_box occ
    (min my (wrapInt ((boxVertices xl xu yl yu zl zu).y1 + step))) xl xu yl' yu zl zu
  simp only [e1, e2]
  obtain ⟨xu', e3, j3⟩ := faceXPos_box occ
    (min mx (wrapInt ((boxVertices xl xu yl' yu' zl zu).x0 + step))) xl xu yl' yu' zl zu
  obtain ⟨xl', e4, j4⟩ := faceXNeg_box occ
    (max 0 (wrapInt ((boxVertices xl xu yl' yu' zl zu).x3 - step))) xl xu' yl' yu' zl zu
  simp only [e3, e4]
  obtain ⟨zu', e5, j5⟩ := faceZPos_box occ
    (min mz (wrapInt ((boxVertices xl' xu' yl' yu' zl zu).z0 + step))) xl' xu' yl' yu' zl zu
  obtain ⟨zl', e6, j6⟩ := faceZNeg_box occ
    (max 0 (wrapInt ((boxVertices xl' xu' yl' yu' zl zu).z4 - step))) xl' xu' yl' yu' zl zu'
  simp only [e5, e6]
  exact ⟨xl', xu', yl', yu', zl', zu', rfl, fun h => j6 (j5 (j4 (j3 (j2 (j1 h)))))⟩

theorem inflateLoop_box (g : GridEnv) (lstcube : Cube) :
    ∀ (n : Nat) (xl xu yl yu zl zu : Int) (cubeMax : Cube),
      FreeBelowTop g.occupied xl xu yl yu zl zu →
      ∃ xl' xu' yl' yu' zl' zu',
        (inflateLoop g lstcube n (boxVertices xl xu yl yu zl zu) cubeMax).2 =
          boxVertices xl' xu' yl' yu' zl' zu' ∧
        FreeBelowTop g.occupied xl' xu' yl' yu' zl' zu' := by
  intro n
  induction n with
  | zero =>
    intro xl xu yl yu zl zu cubeMax hJ
    exact ⟨xl, xu, yl, yu, zl, zu, rfl, hJ⟩
  | succ n ih =>
    intro xl xu yl yu zl zu cubeMax hJ
    obtain ⟨xl', xu', yl', yu', zl', zu', e, j⟩ :=
      sweepFaces_box g.occupied g.step_length g.max_x g.max_y g.max_z xl xu yl yu zl zu
    rw [inflateLoop, e]
    split
    · exact ⟨xl', xu', yl', yu', zl', zu', rfl, j hJ⟩
    · split
      · exact ⟨xl', xu', yl', yu', zl', zu', rfl, j hJ⟩
      · exact ih xl' xu' yl' yu' zl' zu' _ (j hJ)

theorem inflateLoop_returned (g : GridEnv) (lstcube : Cube) :
    ∀ (n : Nat) (v : Mat8x3 Int) (cubeMax : Cube),
      (inflateLoop g lstcube n v cubeMax).1.2 = true →
      ((inflateLoop g lstcube n v cubeMax).1.1 = cubeMax ∧
        (inflateLoop g lstcube n v cubeMax).2 = v) ∨
      ∃ c, (inflateLoop g lstcube n v cubeMax).1.1 =
        g.setVertex c (vertexCoord g (inflateLoop g lstcube n v cubeMax).2) g.resolution := by
  intro n
  induction n with
  | zero =>
    intro v cubeMax _
    exact Or.inl ⟨rfl, rfl⟩
  | succ n ih =>
    intro v cubeMax hok
    rw [inflateLoop] at hok ⊢
    split at hok
    · rename_i hv
      rw [if_pos hv]
      exact Or.inl ⟨rfl, hv.symm⟩
    · rename_i hv
      rw [if_neg hv]
      split at hok
      · simp at hok
      · rename_i hc
        rw [if_neg hc]
        rcases ih _ _ hok with ⟨h1, h2⟩ | h
        · right
          refine ⟨cubeMax, ?_⟩
          rw [h1, h2]
        · exact Or.inr h

/-! ## The interior of an inflated cube -/

/-- When the vertex indices of the seed form an axis-aligned box in the fixed corner order
and no voxel of that box is occupied, and `inflateCube` returns success, then the final
`vertex_idx` is a box in the fixed corner order, it is the index matrix the returned cube
was built from, and no voxel whose index is strictly between its opposite faces on all
three axes has occupancy above 0.5. -/
theorem inflateCube_interior_free (g : GridEnv) (cube lstcube : Cube)
    (hbox : (seedMatrix g cube).boxLayout)
    (hseed : ∀ x y z, (seedMatrix g cube).x6 ≤ x → x ≤ (seedMatrix g cube).x0 →
      (seedMatrix g cube).y0 ≤ y → y ≤ (seedMatrix g cube).y6 →
      (seedMatrix g cube).z6 ≤ z → z ≤ (seedMatrix g cube).z0 → g.occupancy x y z ≤ 1 / 2)
    (hok : (inflateCube g cube lstcube).2 = true) :
    (inflateCubeIdx g cube lstcube).2.boxLayout ∧
    (((inflateCube g cube lstcube).1 = cube ∧
        (inflateCubeIdx g cube lstcube).2 = seedMatrix g cube) ∨
      ∃ c, (inflateCube g cube lstcube).1 =
        g.setVertex c (vertexCoord g (inflateCubeIdx g cube lstcube).2) g.resolution) ∧
    ∀ x y z, (inflateCubeIdx g cube lstcube).2.x6 < x → x < (inflateCubeIdx g cube lstcube).2.x0 →
      (inflateCubeIdx g cube lstcube).2.y0 < y → y < (inflateCubeIdx g cube lstcube).2.y6 →
      (inflateCubeIdx g cube lstcube).2.z6 < z → z < (inflateCubeIdx g cube lstcube).2.z0 →
      g.occupancy x y z ≤ 1 / 2 := by
  have hJ0 : FreeBelowTop g.occupied (seedMatrix g cube).x6 (seedMatrix g cube).x0
      (seedMatrix g cube).y0 (seedMatrix g cube).y6 (seedMatrix g cube).z6
      (seedMatrix g cube).z0 := by
    intro x y z h1 h2 h3 h4 h5 h6
    have := hseed x y z h1 h2 h3 h4 h5 (by omega)
    simp only [GridEnv.occupied, decide_eq_false_iff_not, not_lt]
    exact this
  unfold inflateCube at hok ⊢
  unfold inflateCubeIdx at hok ⊢
  split at hok
  · simp at hok
  · rename_i hb
    simp only [if_neg hb]
    have hv := boxLayout_eq_boxVertices _ hbox
    obtain ⟨xl, xu, yl, yu, zl, zu, e, j⟩ := inflateLoop_box g lstcube
      g.max_inflate_iter.toNat _ _ _ _ _ _ cube hJ0
    rw [← hv] at e
    refine ⟨?_, inflateLoop_returned g lstcube _ _ _ hok, ?_⟩
    · rw [e]; exact boxLayout_boxVertices _ _ _ _ _ _
    · rw [e]
      intro x y z h1 h2 h3 h4 h5 h6
      simp only [boxVertices] at h1 h2 h3 h4 h5 h6
      have := j x y z (by omega) (by omega) (by omega) (by omega) (by omega) h6
      simpa [GridEnv.occupied] using this

/-! ## The sample grid -/

theorem demoGrid_occupied : demoGrid.occupied = demoOccupied := by
  funext ix iy iz
  unfold GridEnv.occupied demoOccupied demoGrid
  by_cases h : ix = 1 ∧ iy = 1 ∧ iz = 1
  · simp only [h, and_self, if_true]
    norm_num
  · simp only [h, if_false]
    norm_num

theorem inflateLoop_continue (g : GridEnv) (lstcube : Cube) (n : Nat) (v w : Mat8x3 Int)
    (cubeMax : Cube)
    (hw : sweepFaces g.occupied g.step_length g.max_x g.max_y g.max_z v = w) (hne : v ≠ w)
    (hc : isContains lstcube (g.setVertex cubeMax (vertexCoord g w) g.resolution) = false) :
    inflateLoop g lstcube (n + 1) v cubeMax =
      inflateLoop g lstcube n w (g.setVertex cubeMax (vertexCoord g w) g.resolution) := by
  rw [inflateLoop, hw, if_neg hne, hc]
  simp

theorem inflateLoop_stop (g : GridEnv) (lstcube : Cube) (n : Nat) (v : Mat8x3 Int)
    (cubeMax : Cube)
    (hw : sweepFaces g.occupied g.step_length g.max_x g.max_y g.max_z v = v) :
    inflateLoop g lstcube (n + 1) v cubeMax = ((cubeMax, true), v) := by
  rw [inflateLoop, hw, if_pos rfl]

theorem isContains_initialLstcube (c : Cube) (m : Mat8x3 ℚ) (h : -10000 < m.x0 + 1 / 2) :
    isContains (initialLstcube demoGrid) (demoGrid.setVertex c m demoGrid.resolution) = false := by
  have h1 : (initialLstcube demoGrid).vertex.x0 = -10000 := rfl
  have h2 : (demoGrid.setVertex c m demoGrid.resolution).vertex.x0 = m.x0 + 1 / 2 := by
    simp [demoGrid, padVertex]
  simp only [isContains, h1, h2, Bool.and_eq_false_iff, decide_eq_false_iff_not, not_le, ge_iff_le]
  left; left; left; left; left
  exact h

theorem vertexCoord_x0_lower (v : Mat8x3 Int) : -10000 < (vertexCoord demoGrid v).x0 + 1 / 2 := by
  have h : (0 : Int) ≤ max (min v.x0 (demoGrid.max_x - 1)) 0 := le_max_right _ _
  have h' : (0 : ℚ) ≤ ((max (min v.x0 (demoGrid.max_x - 1)) 0 : Int) : ℚ) := Int.cast_nonneg.mpr h
  have e : (vertexCoord demoGrid v).x0 =
      ((max (min v.x0 (demoGrid.max_x - 1)) 0 : Int) : ℚ) + 1 / 2 - 2 := rfl
  rw [e]
  linarith

theorem floor_three_halves : ⌊(-1 / 2 : ℚ) + 2⌋ = 1 := by
  rw [Int.floor_eq_iff]; norm_num

theorem floor_half : ⌊(1 / 2 : ℚ)⌋ = 0 := by
  rw [Int.floor_eq_iff]; norm_num

theorem floor_half_up : ⌊(-3 / 2 : ℚ) + 2⌋ = 0 := by
  rw [Int.floor_eq_iff]; norm_num

theorem floor_five_halves_up : ⌊(1 / 2 : ℚ) + 2⌋ = 2 := by
  rw [Int.floor_eq_iff]; norm_num

theorem floor_five_halves : ⌊(5 / 2 : ℚ)⌋ = 2 := by
  rw [Int.floor_eq_iff]; norm_num

theorem clampedIndex_demo (x y z : ℚ) (hx1 : -2 ≤ x) (hx2 : x ≤ 2) (hy1 : -2 ≤ y) (hy2 : y ≤ 2)
    (hz1 : 0 ≤ z) (hz2 : z ≤ 4) : clampedIndex demoGrid x y z = ⟨⌊x + 2⌋, ⌊y + 2⌋, ⌊z⌋⟩ := by
  simp only [clampedIndex, demoGrid, min_eq_left hx2, min_eq_left hy2, min_eq_left hz2,
    max_eq_left hx1, max_eq_left hy1, max_eq_left hz1]

theorem generateCube_demo :
    generateCube demoGrid ⟨-1 / 2, -1 / 2, 1 / 2⟩ =
      ⟨boxVertices (-1 / 2) (-1 / 2) (-1 / 2) (-1 / 2) (1 / 2) (1 / 2), ⟨-1 / 2, -1 / 2, 1 / 2⟩,
        true, 0⟩ := by
  have h := clampedIndex_demo (-1 / 2) (-1 / 2) (1 / 2) (by norm_num) (by norm_num)
    (by norm_num) (by norm_num) (by norm_num) (by norm_num)
  rw [floor_three_halves, floor_half] at h
  simp only [generateCube, h]
  norm_num [demoGrid, boxVertices]

theorem seedMatrix_demo :
    seedMatrix demoGrid (generateCube demoGrid ⟨-1 / 2, -1 / 2, 1 / 2⟩) =
      boxVertices 1 1 1 1 0 0 := by
  have h := clampedIndex_demo (-1 / 2) (-1 / 2) (1 / 2) (by norm_num) (by norm_num)
    (by norm_num) (by norm_num) (by norm_num) (by norm_num)
  rw [floor_three_halves, floor_half] at h
  rw [generateCube_demo]
  simp only [seedMatrix, boxVertices, h]

theorem sweep_demo_1 :
    sweepFaces demoGrid.occupied demoGrid.step_length demoGrid.max_x demoGrid.max_y
      demoGrid.max_z (boxVertices 1 1 1 1 0 0) = boxVertices 0 2 0 2 0 1 := by
  rw [demoGrid_occupied]; decide

theorem sweep_demo_2 :
    sweepFaces demoGrid.occupied demoGrid.step_length demoGrid.max_x demoGrid.max_y
      demoGrid.max_z (boxVertices 0 2 0 2 0 1) = boxVertices 0 3 0 3 0 1 := by
  rw [demoGrid_occupied]; decide

theorem sweep_demo_3 :
    sweepFaces demoGrid.occupied demoGrid.step_length demoGrid.max_x demoGrid.max_y
      demoGrid.max_z (boxVertices 0 3 0 3 0 1) = boxVertices 0 4 0 4 0 1 := by
  rw [demoGrid_occupied]; decide

theorem sweep_demo_4 :
    sweepFaces demoGrid.occupied demoGrid.step_length demoGrid.max_x demoGrid.max_y
      demoGrid.max_z (boxVertices 0 4 0 4 0 1) = boxVertices 0 4 0 4 0 1 := by
  rw [demoGrid_occupied]; decide

theorem inflateCubeIdx_demo :
    inflateCubeIdx demoGrid (generateCube demoGrid ⟨-1 / 2, -1 / 2, 1 / 2⟩)
        (initialLstcube demoGrid) =
      ((⟨boxVertices (-2) 2 (-2) 2 0 2, ⟨-1 / 2, -1 / 2, 1 / 2⟩, true, 0⟩, true),
        boxVertices 0 4 0 4 0 1) := by
  have hb : seedBlocked demoGrid (boxVertices 1 1 1 1 0 0) = false := by
    simp only [seedBlocked, demoGrid_occupied]; decide
  have hn : demoGrid.max_inflate_iter.toNat = 96 + 1 + 1 + 1 + 1 := rfl
  unfold inflateCubeIdx
  rw [seedMatrix_demo, hb, hn]
  simp only [Bool.false_eq_true, if_false]
  rw [inflateLoop_continue _ _ _ _ _ _ sweep_demo_1 (by decide)
      (isContains_initialLstcube _ _ (vertexCoord_x0_lower _)),
    inflateLoop_continue _ _ _ _ _ _ sweep_demo_2 (by decide)
      (isContains_initialLstcube _ _ (vertexCoord_x0_lower _)),
    inflateLoop_continue _ _ _ _ _ _ sweep_demo_3 (by decide)
      (isContains_initialLstcube _ _ (vertexCoord_x0_lower _)),
    inflateLoop_stop _ _ _ _ _ sweep_demo_4, generateCube_demo]
  norm_num [demoGrid, padVertex, vertexCoord, vertexPos, boxVertices]

theorem demoGrid_occupancy_mid : demoGrid.occupancy 1 1 1 = 1 := by
  simp [demoGrid]

/-- C1 fails on the code. On `demoGrid` (only voxel `(1, 1, 1)` occupied, directly above
the seed voxel `(1, 1, 0)`) the one-point path gives a corridor of one cube, built from
the face indices `[0, 4] × [0, 4] × [0, 1]`: the Z+ sweep sets the upper face to the
colliding layer `z = 1`, so the occupied voxel lies within the face indices, and the
returned cube `[-2, 2] × [-2, 2] × [0, 2]` covers that voxel's cell
`[-1, 0] × [-1, 0] × [1, 2]`. -/
theorem corridorGeneration_cube_holds_occupied_voxel :
    corridorGeneration demoGrid [⟨-1 / 2, -1 / 2, 1 / 2⟩] [0] =
      [⟨boxVertices (-2) 2 (-2) 2 0 2, ⟨-1 / 2, -1 / 2, 1 / 2⟩, true, 0⟩] ∧
    (inflateCubeIdx demoGrid (generateCube demoGrid ⟨-1 / 2, -1 / 2, 1 / 2⟩)
      (initialLstcube demoGrid)).2 = boxVertices 0 4 0 4 0 1 ∧
    demoGrid.occupancy 1 1 1 > 1 / 2 := by
  refine ⟨?_, ?_, ?_⟩
  · rw [corridorGeneration, corridorSimplify_eq_keptCubes]
    simp only [corridorLoop, inflateCube, inflateCubeIdx_demo]
    simp [keptCubes]
  · rw [inflateCubeIdx_demo]
  · rw [demoGrid_occupancy_mid]; norm_num

theorem generateCube_high :
    generateCube demoGrid ⟨-1 / 2, -1 / 2, 5 / 2⟩ =
      ⟨boxVertices (-1 / 2) (-1 / 2) (-1 / 2) (-1 / 2) (5 / 2) (5 / 2), ⟨-1 / 2, -1 / 2, 5 / 2⟩,
        true, 0⟩ := by
  have h := clampedIndex_demo (-1 / 2) (-1 / 2) (5 / 2) (by norm_num) (by norm_num)
    (by norm_num) (by norm_num) (by norm_num) (by norm_num)
  rw [floor_three_halves, floor_five_halves] at h
  simp only [generateCube, h]
  norm_num [demoGrid, boxVertices]

theorem seedMatrix_high :
    seedMatrix demoGrid (generateCube demoGrid ⟨-1 / 2, -1 / 2, 5 / 2⟩) =
      boxVertices 1 1 1 1 2 2 := by
  have h := clampedIndex_demo (-1 / 2) (-1 / 2) (5 / 2) (by norm_num) (by norm_num)
    (by norm_num) (by norm_num) (by norm_num) (by norm_num)
  rw [floor_three_halves, floor_five_halves] at h
  rw [generateCube_high]
  simp only [seedMatrix, boxVertices, h]

theorem sweep_high_1 :
    sweepFaces demoGrid.occupied demoGrid.step_length demoGrid.max_x demoGrid.max_y
      demoGrid.max_z (boxVertices 1 1 1 1 2 2) = boxVertices 0 2 0 2 2 3 := by
  rw [demoGrid_occupied]; decide

theorem sweep_high_2 :
    sweepFaces demoGrid.occupied demoGrid.step_length demoGrid.max_x demoGrid.max_y
      demoGrid.max_z (boxVertices 0 2 0 2 2 3) = boxVertices 0 3 0 3 2 4 := by
  rw [demoGrid_occupied]; decide

theorem sweep_high_3 :
    sweepFaces demoGrid.occupied demoGrid.step_length demoGrid.max_x demoGrid.max_y
      demoGrid.max_z (boxVertices 0 3 0 3 2 4) = boxVertices 0 4 0 4 2 4 := by
  rw [demoGrid_occupied]; decide

theorem sweep_high_4 :
    sweepFaces demoGrid.occupied demoGrid.step_length demoGrid.max_x demoGrid.max_y
      demoGrid.max_z (boxVertices 0 4 0 4 2 4) = boxVertices 0 4 0 4 2 4 := by
  rw [demoGrid_occupied]; decide

theorem inflateCubeIdx_high :
    inflateCubeIdx demoGrid (generateCube demoGrid ⟨-1 / 2, -1 / 2, 5 / 2⟩)
        (initialLstcube demoGrid) =
      ((⟨boxVertices (-2) 2 (-2) 2 2 4, ⟨-1 / 2, -1 / 2, 5 / 2⟩, true, 0⟩, true),
        boxVertices 0 4 0 4 2 4) := by
  have hb : seedBlocked demoGrid (boxVertices 1 1 1 1 2 2) = false := by
    simp only [seedBlocked, demoGrid_occupied]; decide
  have hn : demoGrid.max_inflate_iter.toNat = 96 + 1 + 1 + 1 + 1 := rfl
  unfold inflateCubeIdx
  rw [seedMatrix_high, hb, hn]
  simp only [Bool.false_eq_true, if_false]
  rw [inflateLoop_continue _ _ _ _ _ _ sweep_high_1 (by decide)
      (isContains_initialLstcube _ _ (vertexCoord_x0_lower _)),
    inflateLoop_continue _ _ _ _ _ _ sweep_high_2 (by decide)
      (isContains_initialLstcube _ _ (vertexCoord_x0_lower _)),
    inflateLoop_continue _ _ _ _ _ _ sweep_high_3 (by decide)
      (isContains_initialLstcube _ _ (vertexCoord_x0_lower _)),
    inflateLoop_stop _ _ _ _ _ sweep_high_4, generateCube_high]
  norm_num [demoGrid, padVertex, vertexCoord, vertexPos, boxVertices]

/-! ## Claims of the second group: containment of boxes -/

/-- C11: for two cubes whose vertices are boxes in the corner order of `generateCube`
(vertex 0 = `(x_max, y_min, z_max)`, vertex 6 = `(x_min, y_max, z_min)`), with `min ≤ max`
on each axis of `B`, `isContains A B` holds exactly when the interval `[min, max]` of `A`
is a superset of that of `B` on each of the three axes. -/
theorem isContains_iff_intervals (A B : Cube) (axl axu ayl ayu azl azu bxl bxu byl byu bzl bzu : ℚ)
    (hA : A.vertex = boxVertices axl axu ayl ayu azl azu)
    (hB : B.vertex = boxVertices bxl bxu byl byu bzl bzu)
    (hx : bxl ≤ bxu) (hy : byl ≤ byu) (hz : bzl ≤ bzu) :
    isContains A B = true ↔
      Set.Icc bxl bxu ⊆ Set.Icc axl axu ∧ Set.Icc byl byu ⊆ Set.Icc ayl ayu ∧
      Set.Icc bzl bzu ⊆ Set.Icc azl azu := by
  rw [Set.Icc_subset_Icc_iff hx, Set.Icc_subset_Icc_iff hy, Set.Icc_subset_Icc_iff hz]
  simp only [isContains, hA, hB, boxVertices, Bool.and_eq_true, decide_eq_true_eq, ge_iff_le]
  constructor
  · rintro ⟨⟨⟨⟨⟨h1, h2⟩, h3⟩, h4⟩, h5⟩, h6⟩
    exact ⟨⟨h4, h1⟩, ⟨h2, h5⟩, ⟨h6, h3⟩⟩
  · rintro ⟨⟨h4, h1⟩, ⟨h2, h5⟩, ⟨h6, h3⟩⟩
    exact ⟨⟨⟨⟨⟨h1, h2⟩, h3⟩, h4⟩, h5⟩, h6⟩

/-- C11 at the boxes `sampleBig = [0, 3] × [0, 3] × [0, 2]` and
`sampleSmall = [1, 2] × [1, 2] × [0, 1]`: the first contains the second. -/
theorem isContains_iff_intervals_witness :
    sampleBig.vertex = boxVertices 0 3 0 3 0 2 ∧ sampleSmall.vertex = boxVertices 1 2 1 2 0 1 ∧
    ((1 : ℚ) ≤ 2 ∧ (1 : ℚ) ≤ 2 ∧ (0 : ℚ) ≤ 1) ∧
    isContains sampleBig sampleSmall = true ∧
    (Set.Icc (1 : ℚ) 2 ⊆ Set.Icc 0 3 ∧ Set.Icc (1 : ℚ) 2 ⊆ Set.Icc 0 3 ∧
      Set.Icc (0 : ℚ) 1 ⊆ Set.Icc 0 2) := by
  have h := isContains_iff_intervals sampleBig sampleSmall 0 3 0 3 0 2 1 2 1 2 0 1 rfl rfl
    (by norm_num) (by norm_num) (by norm_num)
  have hc : isContains sampleBig sampleSmall = true := by
    norm_num [isContains, sampleBig, sampleSmall, boxVertices]
  exact ⟨rfl, rfl, ⟨by norm_num, by norm_num, by norm_num⟩, hc, h.mp hc⟩

/-! ## Claims of the second group: points on occupied voxels -/

theorem generateCube_eq (g : GridEnv) (pt : Vec3) :
    generateCube g pt =
      { g.defaultCube with
        center := snapCenter g pt
        vertex := boxVertices (snapCenter g pt).x (snapCenter g pt).x (snapCenter g pt).y
          (snapCenter g pt).y (snapCenter g pt).z (snapCenter g pt).z } := rfl

theorem seedMatrix_generateCube (g : GridEnv) (pt : Vec3) :
    seedMatrix g (generateCube g pt) =
      boxVertices
        (clampedIndex g (snapCenter g pt).x (snapCenter g pt).y (snapCenter g pt).z).x
        (clampedIndex g (snapCenter g pt).x (snapCenter g pt).y (snapCenter g pt).z).x
        (clampedIndex g (snapCenter g pt).x (snapCenter g pt).y (snapCenter g pt).z).y
        (clampedIndex g (snapCenter g pt).x (snapCenter g pt).y (snapCenter g pt).z).y
        (clampedIndex g (snapCenter g pt).x (snapCenter g pt).y (snapCenter g pt).z).z
        (clampedIndex g (snapCenter g pt).x (snapCenter g pt).y (snapCenter g pt).z).z := rfl

theorem inflateCube_of_seedBlocked (g : GridEnv) (cube lstcube : Cube)
    (h : seedBlocked g (seedMatrix g cube) = true) :
    inflateCube g cube lstcube = (cube, false) := by
  simp [inflateCube, inflateCubeIdx, h]

theorem list_getD_eraseIdx (time : List ℚ) (m j : Nat) :
    (time.eraseIdx m).getD j 0 = if j < m then time.getD j 0 else time.getD (j + 1) 0 := by
  simp only [List.getD_eq_getElem?_getD, List.getElem?_eraseIdx]
  split <;> rfl

theorem corridorLoop_time_congr (g : GridEnv) (time time' : List ℚ) :
    ∀ (path : List Vec3) (i i' : Nat) (lst : Cube) (acc : List Cube),
      (∀ j, j < path.length → time.getD (i + j) 0 = time'.getD (i' + j) 0) →
      corridorLoop g time path i lst acc = corridorLoop g time' path i' lst acc := by
  intro path
  induction path with
  | nil => intro i i' lst acc _; rfl
  | cons p rest ih =>
    intro i i' lst acc h
    have h0 : time.getD i 0 = time'.getD i' 0 := by simpa using h 0 (by simp)
    have hrest : ∀ j, j < rest.length → time.getD (i + 1 + j) 0 = time'.getD (i' + 1 + j) 0 := by
      intro j hj
      have := h (j + 1) (by simp; omega)
      rw [show i + 1 + j = i + (j + 1) by omega, show i' + 1 + j = i' + (j + 1) by omega]
      exact this
    simp only [corridorLoop, h0]
    split
    · exact ih (i + 1) (i' + 1) lst acc hrest
    · exact ih (i + 1) (i' + 1) _ _ hrest

theorem corridorLoop_eraseIdx (g : GridEnv) (time : List ℚ) (pt : Vec3)
    (hfail : ∀ lst, (inflateCube g (generateCube g pt) lst).2 = false) :
    ∀ (k : Nat) (path : List Vec3) (i : Nat) (lst : Cube) (acc : List Cube),
      path[k]? = some pt →
      corridorLoop g time path i lst acc =
        corridorLoop g (time.eraseIdx (i + k)) (path.eraseIdx k) i lst acc := by
  intro k
  induction k with
  | zero =>
    intro path i lst acc hk
    cases path with
    | nil => simp at hk
    | cons p rest =>
      simp only [List.getElem?_cons_zero, Option.some.injEq] at hk
      subst hk
      simp only [corridorLoop, hfail lst, if_true, List.eraseIdx_cons_zero, Nat.add_zero]
      apply corridorLoop_time_congr
      intro j _
      rw [list_getD_eraseIdx, if_neg (by omega)]
      congr 1
      omega
  | succ k ih =>
    intro path i lst acc hk
    cases path with
    | nil => simp at hk
    | cons p rest =>
      simp only [List.getElem?_cons_succ] at hk
      have h0 : (time.eraseIdx (i + (k + 1))).getD i 0 = time.getD i 0 := by
        rw [list_getD_eraseIdx, if_pos (by omega)]
      simp only [corridorLoop, List.eraseIdx_cons_succ, h0]
      have e : i + (k + 1) = i + 1 + k := by omega
      rw [e]
      split
      · exact ih rest (i + 1) lst acc hk
      · exact ih rest (i + 1) _ _ hk

/-- C12: when the cell that a path point snaps to is occupied (and the center of that
cell lies in the cell, as the grid library has it), `inflateCube` returns the seed cube
unchanged with failure, whatever `lstcube` is, and `corridorGeneration` adds no cube for
the point: the cube list before simplification, and so the corridor, is the one of the
path with that point and its time removed. -/
theorem corridorGeneration_skips_blocked_point (g : GridEnv) (path_coord : List Vec3)
    (time : List ℚ) (k : Nat) (pt : Vec3)
    (hk : path_coord[k]? = some pt)
    (hcenter : clampedIndex g (snapCenter g pt).x (snapCenter g pt).y (snapCenter g pt).z =
      snapIndex g pt)
    (hocc : g.occupancy (snapIndex g pt).x (snapIndex g pt).y (snapIndex g pt).z > 1 / 2) :
    (∀ lstcube, inflateCube g (generateCube g pt) lstcube = (generateCube g pt, false)) ∧
    corridorLoop g time path_coord 0 (initialLstcube g) [] =
      corridorLoop g (time.eraseIdx k) (path_coord.eraseIdx k) 0 (initialLstcube g) [] ∧
    corridorGeneration g path_coord time =
      corridorGeneration g (path_coord.eraseIdx k) (time.eraseIdx k) := by
  have hb : seedBlocked g (seedMatrix g (generateCube g pt)) = true := by
    have ho : g.occupied (snapIndex g pt).x (snapIndex g pt).y (snapIndex g pt).z = true := by
      simp only [GridEnv.occupied, decide_eq_true_eq]
      exact hocc
    rw [seedMatrix_generateCube, hcenter]
    simp [seedBlocked, boxVertices, ho]
  have hfail : ∀ lstcube, inflateCube g (generateCube g pt) lstcube = (generateCube g pt, false) :=
    fun lstcube => inflateCube_of_seedBlocked g _ lstcube hb
  have hloop := corridorLoop_eraseIdx g time pt (fun lst => by rw [hfail lst]) k path_coord 0
    (initialLstcube g) [] hk
  rw [Nat.zero_add] at hloop
  exact ⟨hfail, hloop, by rw [corridorGeneration, corridorGeneration, hloop]⟩

theorem floor_three_halves_z : ⌊(3 / 2 : ℚ)⌋ = 1 := by
  rw [Int.floor_eq_iff]; norm_num

theorem snapIndex_blocked : snapIndex demoGrid ⟨-1 / 2, -1 / 2, 3 / 2⟩ = ⟨1, 1, 1⟩ := by
  have h := clampedIndex_demo (-1 / 2) (-1 / 2) (3 / 2) (by norm_num) (by norm_num)
    (by norm_num) (by norm_num) (by norm_num) (by norm_num)
  rw [floor_three_halves, floor_three_halves_z] at h
  exact h

theorem snapCenter_blocked : snapCenter demoGrid ⟨-1 / 2, -1 / 2, 3 / 2⟩ = ⟨-1 / 2, -1 / 2, 3 / 2⟩ := by
  rw [snapCenter, snapIndex_blocked]
  norm_num [demoGrid]

/-- C12 on `demoGrid`, for the one-point path at `(-1/2, -1/2, 3/2)`, which snaps to the
occupied voxel `(1, 1, 1)`: no cube is generated. -/
theorem corridorGeneration_skips_blocked_point_witness :
    ([⟨-1 / 2, -1 / 2, 3 / 2⟩] : List Vec3)[0]? = some ⟨-1 / 2, -1 / 2, 3 / 2⟩ ∧
    demoGrid.occupancy (snapIndex demoGrid ⟨-1 / 2, -1 / 2, 3 / 2⟩).x
      (snapIndex demoGrid ⟨-1 / 2, -1 / 2, 3 / 2⟩).y
      (snapIndex demoGrid ⟨-1 / 2, -1 / 2, 3 / 2⟩).z > 1 / 2 ∧
    (∀ lstcube, inflateCube demoGrid (generateCube demoGrid ⟨-1 / 2, -1 / 2, 3 / 2⟩) lstcube =
      (generateCube demoGrid ⟨-1 / 2, -1 / 2, 3 / 2⟩, false)) ∧
    corridorGeneration demoGrid [⟨-1 / 2, -1 / 2, 3 / 2⟩] [0] = corridorGeneration demoGrid [] [] := by
  have hocc : demoGrid.occupancy (snapIndex demoGrid ⟨-1 / 2, -1 / 2, 3 / 2⟩).x
      (snapIndex demoGrid ⟨-1 / 2, -1 / 2, 3 / 2⟩).y
      (snapIndex demoGrid ⟨-1 / 2, -1 / 2, 3 / 2⟩).z > 1 / 2 := by
    rw [snapIndex_blocked, demoGrid_occupancy_mid]; norm_num
  have h := corridorGeneration_skips_blocked_point demoGrid [⟨-1 / 2, -1 / 2, 3 / 2⟩] [0] 0
    ⟨-1 / 2, -1 / 2, 3 / 2⟩ rfl
    (by
      rw [snapCenter_blocked]
      rfl)
    hocc
  exact ⟨rfl, hocc, h.1, h.2.2⟩

/-- C13 fails on the code. On `demoGrid` the one-point path at `(-1/2, -1/2, 3/2)` snaps
to the occupied voxel `(1, 1, 1)`, so `corridorGeneration` returns the empty corridor;
`timeAllocation` then evaluates `corridor.back()` on an empty vector (source line 996),
an out-of-range access, which the embedding renders as `none`, for every time series. -/
theorem timeAllocation_undefined_on_empty_corridor :
    corridorGeneration demoGrid [⟨-1 / 2, -1 / 2, 3 / 2⟩] [0] = [] ∧
    timeAllocation (corridorGeneration demoGrid [⟨-1 / 2, -1 / 2, 3 / 2⟩] [0]) [0] = none ∧
    ∀ time, timeAllocation [] time = none := by
  have hb : seedBlocked demoGrid (seedMatrix demoGrid
      (generateCube demoGrid ⟨-1 / 2, -1 / 2, 3 / 2⟩)) = true := by
    have ho : demoGrid.occupied 1 1 1 = true := by rw [demoGrid_occupied]; decide
    have hc : clampedIndex demoGrid (snapCenter demoGrid ⟨-1 / 2, -1 / 2, 3 / 2⟩).x
        (snapCenter demoGrid ⟨-1 / 2, -1 / 2, 3 / 2⟩).y
        (snapCenter demoGrid ⟨-1 / 2, -1 / 2, 3 / 2⟩).z = ⟨1, 1, 1⟩ := by
      rw [snapCenter_blocked]; exact snapIndex_blocked
    rw [seedMatrix_generateCube, hc]
    simp [seedBlocked, boxVertices, ho]
  have hc : corridorGeneration demoGrid [⟨-1 / 2, -1 / 2, 3 / 2⟩] [0] = [] := by
    simp only [corridorGeneration, corridorLoop, inflateCube_of_seedBlocked _ _ _ hb, if_true]
    rfl
  refine ⟨hc, ?_, ?_⟩
  · rw [hc]; rfl
  · intro time; rfl

/-! ## Claims on inflation -/

/-- C2: for every grid, path point and last cube, when `inflateCube` returns success on
the seed that `generateCube` builds for the point (the seeds that the program inflates,
source lines 717-718), the final `vertex_idx` is a box in the fixed corner order, it is
the index matrix the returned cube was built from, and no voxel whose index is strictly
between its opposite faces on all three axes has occupancy above 0.5. -/
theorem inflateCube_seed_interior_free (g : GridEnv) (pt : Vec3) (lstcube : Cube)
    (hok : (inflateCube g (generateCube g pt) lstcube).2 = true) :
    (inflateCubeIdx g (generateCube g pt) lstcube).2.boxLayout ∧
    (((inflateCube g (generateCube g pt) lstcube).1 = generateCube g pt ∧
        (inflateCubeIdx g (generateCube g pt) lstcube).2 = seedMatrix g (generateCube g pt)) ∨
      ∃ c, (inflateCube g (generateCube g pt) lstcube).1 =
        g.setVertex c (vertexCoord g (inflateCubeIdx g (generateCube g pt) lstcube).2)
          g.resolution) ∧
    ∀ x y z, (inflateCubeIdx g (generateCube g pt) lstcube).2.x6 < x →
      x < (inflateCubeIdx g (generateCube g pt) lstcube).2.x0 →
      (inflateCubeIdx g (generateCube g pt) lstcube).2.y0 < y →
      y < (inflateCubeIdx g (generateCube g pt) lstcube).2.y6 →
      (inflateCubeIdx g (generateCube g pt) lstcube).2.z6 < z →
      z < (inflateCubeIdx g (generateCube g pt) lstcube).2.z0 →
      g.occupancy x y z ≤ 1 / 2 := by
  have hnb : seedBlocked g (seedMatrix g (generateCube g pt)) = false := by
    by_contra hb
    have hb' : seedBlocked g (seedMatrix g (generateCube g pt)) = true := by simpa using hb
    rw [inflateCube_of_seedBlocked g _ lstcube hb'] at hok
    simp at hok
  have hbox : (seedMatrix g (generateCube g pt)).boxLayout := by
    rw [seedMatrix_generateCube]; exact boxLayout_boxVertices _ _ _ _ _ _
  refine inflateCube_interior_free g (generateCube g pt) lstcube hbox ?_ hok
  intro x y z h1 h2 h3 h4 h5 h6
  rw [seedMatrix_generateCube] at h1 h2 h3 h4 h5 h6 hnb
  simp only [boxVertices] at h1 h2 h3 h4 h5 h6
  have hx := le_antisymm h2 h1
  have hy := le_antisymm h4 h3
  have hz := le_antisymm h6 h5
  simp only [seedBlocked, boxVertices, Bool.or_self] at hnb
  rw [hx, hy, hz]
  simpa [GridEnv.occupied] using hnb

/-- C2 at the seed of the path point `(-1/2, -1/2, 5/2)` on `demoGrid` (voxel `(1, 1, 2)`,
above the occupied voxel): the final face indices are `[0, 4] × [0, 4] × [2, 4]`, and the
voxels strictly between them are free. -/
theorem inflateCube_seed_interior_free_witness :
    (inflateCube demoGrid (generateCube demoGrid ⟨-1 / 2, -1 / 2, 5 / 2⟩)
      (initialLstcube demoGrid)).2 = true ∧
    (inflateCubeIdx demoGrid (generateCube demoGrid ⟨-1 / 2, -1 / 2, 5 / 2⟩)
      (initialLstcube demoGrid)).2 = boxVertices 0 4 0 4 2 4 ∧
    ∀ x y z : Int, 0 < x → x < 4 → 0 < y → y < 4 → 2 < z → z < 4 →
      demoGrid.occupancy x y z ≤ 1 / 2 := by
  have hok : (inflateCube demoGrid (generateCube demoGrid ⟨-1 / 2, -1 / 2, 5 / 2⟩)
      (initialLstcube demoGrid)).2 = true := by
    rw [inflateCube, inflateCubeIdx_high]
  have h := inflateCube_seed_interior_free demoGrid ⟨-1 / 2, -1 / 2, 5 / 2⟩
    (initialLstcube demoGrid) hok
  refine ⟨hok, inflateCubeIdx_high ▸ rfl, ?_⟩
  have h3 := h.2.2
  rw [inflateCubeIdx_high] at h3
  exact h3

/-! ## Lemmas on the positions of the faces -/

theorem scanDown_bounds (hit : Int → Bool) :
    ∀ (n : Nat) (s : Int),
      s - n ≤ (scanDown hit n s).2 ∧ ((scanDown hit n s).1 = true → 1 ≤ n) := by
  intro n
  induction n with
  | zero => intro s; simp [scanDown]
  | succ n ih =>
    intro s
    by_cases hs : hit s = true
    · simp only [scanDown, hs, if_true]
      refine ⟨by push_cast; omega, fun _ => by omega⟩
    · have hs' : hit s = false := by simpa using hs
      simp only [scanDown, hs', Bool.false_eq_true, if_false]
      have := (ih (s - 1)).1
      refine ⟨by push_cast; omega, fun _ => by omega⟩

theorem scanUp_bounds (hit : Int → Bool) :
    ∀ (n : Nat) (s : Int),
      (scanUp hit n s).2 ≤ s + n ∧ ((scanUp hit n s).1 = true → 1 ≤ n) := by
  intro n
  induction n with
  | zero => intro s; simp [scanUp]
  | succ n ih =>
    intro s
    by_cases hs : hit s = true
    · simp only [scanUp, hs, if_true]
      refine ⟨by push_cast; omega, fun _ => by omega⟩
    · have hs' : hit s = false := by simpa using hs
      simp only [scanUp, hs', Bool.false_eq_true, if_false]
      have := (ih (s + 1)).1
      refine ⟨by push_cast; omega, fun _ => by omega⟩

theorem lowFace_bounds (hit : Int → Bool) (n : Nat) (s : Int) (hn : 1 ≤ n) :
    lowFace hit n s ≤ s ∧ s - n + 1 ≤ lowFace hit n s := by
  obtain ⟨a, _, _⟩ := scanDown_spec hit n s
  obtain ⟨b, _⟩ := scanDown_bounds hit n s
  unfold lowFace
  by_cases hc : (scanDown hit n s).1 = true
  · rw [if_pos hc]
    refine ⟨min_le_right _ _, le_min (by omega) (by omega)⟩
  · rw [if_neg hc]
    have := a (by simpa using hc)
    omega

theorem highFace_bounds (hit : Int → Bool) (n : Nat) (s : Int) (hn : 1 ≤ n) :
    s ≤ highFace hit n s ∧ highFace hit n s ≤ s + n - 1 := by
  obtain ⟨a, _, _⟩ := scanUp_spec hit n s
  obtain ⟨b, _⟩ := scanUp_bounds hit n s
  unfold highFace
  by_cases hc : (scanUp hit n s).1 = true
  · rw [if_pos hc]
    refine ⟨le_max_right _ _, max_le (by omega) (by omega)⟩
  · rw [if_neg hc]
    have := a (by simpa using hc)
    omega

theorem topFace_bounds (hit : Int → Bool) (n : Nat) (s : Int) (hn : 1 ≤ n) :
    s ≤ topFace hit n s ∧ topFace hit n s ≤ s + n - 1 := by
  obtain ⟨a, c, _⟩ := scanUp_spec hit n s
  obtain ⟨b, _⟩ := scanUp_bounds hit n s
  unfold topFace
  by_cases hc : (scanUp hit n s).1 = true
  · have := c hc
    omega
  · have := a (by simpa using hc)
    omega

theorem faceYNeg_entries (occ : Int → Int → Int → Bool) (y_lo : Int) (v : Mat8x3 Int) :
    (faceYNeg occ y_lo v).y0 =
      lowFace (fun id_y => anyBetween v.x3 v.x0 (fun id_x => anyBetween v.z4 v.z0 (fun id_z =>
        occ id_x id_y id_z))) (v.y0 - y_lo + 1).toNat v.y0 ∧
    (faceYNeg occ y_lo v).y1 = v.y1 ∧ (faceYNeg occ y_lo v).x0 = v.x0 ∧
    (faceYNeg occ y_lo v).x3 = v.x3 ∧ (faceYNeg occ y_lo v).z0 = v.z0 ∧
    (faceYNeg occ y_lo v).z4 = v.z4 := by
  simp only [faceYNeg, lowFace]
  split <;> exact ⟨rfl, rfl, rfl, rfl, rfl, rfl⟩

theorem faceYPos_entries (occ : Int → Int → Int → Bool) (y_up : Int) (v : Mat8x3 Int) :
    (faceYPos occ y_up v).y1 =
      highFace (fun id_y => anyBetween v.x2 v.x1 (fun id_x => anyBetween v.z5 v.z1 (fun id_z =>
        occ id_x id_y id_z))) (y_up - v.y1 + 1).toNat v.y1 ∧
    (faceYPos occ y_up v).y0 = v.y0 ∧ (faceYPos occ y_up v).x0 = v.x0 ∧
    (faceYPos occ y_up v).x3 = v.x3 ∧ (faceYPos occ y_up v).z0 = v.z0 ∧
    (faceYPos occ y_up v).z4 = v.z4 := by
  simp only [faceYPos, highFace]
  split <;> exact ⟨rfl, rfl, rfl, rfl, rfl, rfl⟩

theorem faceXPos_entries (occ : Int → Int → Int → Bool) (x_up : Int) (v : Mat8x3 Int) :
    (faceXPos occ x_up v).x0 =
      highFace (fun id_x => anyBetween v.y0 v.y1 (fun id_y => anyBetween v.z4 v.z0 (fun id_z =>
        occ id_x id_y id_z))) (x_up - v.x0 + 1).toNat v.x0 ∧
    (faceXPos occ x_up v).y0 = v.y0 ∧ (faceXPos occ x_up v).y1 = v.y1 ∧
    (faceXPos occ x_up v).x3 = v.x3 ∧ (faceXPos occ x_up v).z0 = v.z0 ∧
    (faceXPos occ x_up v).z4 = v.z4 := by
  simp only [faceXPos, highFace]
  split <;> exact ⟨rfl, rfl, rfl, rfl, rfl, rfl⟩

theorem faceXNeg_entries (occ : Int → Int → Int → Bool) (x_lo : Int) (v : Mat8x3 Int) :
    (faceXNeg occ x_lo v).x3 =
      lowFace (fun id_x => anyBetween v.y3 v.y2 (fun id_y => anyBetween v.z7 v.z3 (fun id_z =>
        occ id_x id_y id_z))) (v.x3 - x_lo + 1).toNat v.x3 ∧
    (faceXNeg occ x_lo v).y0 = v.y0 ∧ (faceXNeg occ x_lo v).y1 = v.y1 ∧
    (faceXNeg occ x_lo v).x0 = v.x0 ∧ (faceXNeg occ x_lo v).z0 = v.z0 ∧
    (faceXNeg occ x_lo v).z4 = v.z4 := by
  simp only [faceXNeg, lowFace]
  split <;> exact ⟨rfl, rfl, rfl, rfl, rfl, rfl⟩

theorem faceZPos_entries (occ : Int → Int → Int → Bool) (z_up : Int) (v : Mat8x3 Int) :
    (faceZPos occ z_up v).z0 =
      topFace (fun id_z => anyBetween v.y0 v.y1 (fun id_y => anyBetween v.x3 v.x0 (fun id_x =>
        occ id_x id_y id_z))) (z_up - v.z0 + 1).toNat v.z0 ∧
    (faceZPos occ z_up v).y0 = v.y0 ∧ (faceZPos occ z_up v).y1 = v.y1 ∧
    (faceZPos occ z_up v).x0 = v.x0 ∧ (faceZPos occ z_up v).x3 = v.x3 ∧
    (faceZPos occ z_up v).z4 = v.z4 := by
  unfold faceZPos topFace
  generalize scanUp (fun id_z => anyBetween v.y0 v.y1 (fun id_y => anyBetween v.x3 v.x0
      (fun id_x => occ id_x id_y id_z))) (z_up - v.z0 + 1).toNat v.z0 = r
  obtain ⟨c, e⟩ := r
  cases c <;> exact ⟨rfl, rfl, rfl, rfl, rfl, rfl⟩

theorem faceZNeg_entries (occ : Int → Int → Int → Bool) (z_lo : Int) (v : Mat8x3 Int) :
    (faceZNeg occ z_lo v).z4 =
      lowFace (fun id_z => anyBetween v.y4 v.y5 (fun id_y => anyBetween v.x7 v.x4 (fun id_x =>
        occ id_x id_y id_z))) (v.z4 - z_lo + 1).toNat v.z4 ∧
    (faceZNeg occ z_lo v).y0 = v.y0 ∧ (faceZNeg occ z_lo v).y1 = v.y1 ∧
    (faceZNeg occ z_lo v).x0 = v.x0 ∧ (faceZNeg occ z_lo v).x3 = v.x3 ∧
    (faceZNeg occ z_lo v).z0 = v.z0 := by
  simp only [faceZNeg, lowFace]
  split <;> exact ⟨rfl, rfl, rfl, rfl, rfl, rfl⟩

theorem lowFace_in (hit : Int → Bool) (s lo : Int) (h : lo ≤ s) :
    lowFace hit (s - lo + 1).toNat s ≤ s ∧ lo ≤ lowFace hit (s - lo + 1).toNat s := by
  have hb := lowFace_bounds hit (s - lo + 1).toNat s (by omega)
  refine ⟨hb.1, ?_⟩
  have := hb.2
  omega

theorem highFace_in (hit : Int → Bool) (s up : Int) (h : s ≤ up) :
    s ≤ highFace hit (up - s + 1).toNat s ∧ highFace hit (up - s + 1).toNat s ≤ up := by
  have hb := highFace_bounds hit (up - s + 1).toNat s (by omega)
  refine ⟨hb.1, ?_⟩
  have := hb.2
  omega

theorem topFace_in (hit : Int → Bool) (s up : Int) (h : s ≤ up) :
    s ≤ topFace hit (up - s + 1).toNat s ∧ topFace hit (up - s + 1).toNat s ≤ up := by
  have hb := topFace_bounds hit (up - s + 1).toNat s (by omega)
  refine ⟨hb.1, ?_⟩
  have := hb.2
  omega

theorem anyBetween_of_free (lo hi : Int) (p : Int → Bool) (h : ∀ i, p i = false) :
    anyBetween lo hi p = false := by
  unfold anyBetween
  rw [List.any_eq_false]
  intro k _
  simp [h]

theorem wrapInt_of_range (z : Int) (h1 : -2147483648 ≤ z) (h2 : z ≤ 2147483647) :
    wrapInt z = z := by
  unfold wrapInt
  omega

theorem sweepY_entries (occ : Int → Int → Int → Bool) (step my : Int) (v : Mat8x3 Int)
    (hstep : 0 ≤ step) (hr : my + step ≤ 2147483647)
    (h : 0 ≤ v.y0 ∧ v.y0 ≤ my ∧ 0 ≤ v.y1 ∧ v.y1 ≤ my) :
    ∃ hitLo hitUp,
      (sweepY occ step my v).y0 =
        lowFace hitLo (v.y0 - max 0 (v.y0 - step) + 1).toNat v.y0 ∧
      (sweepY occ step my v).y1 =
        highFace hitUp (min my (v.y1 + step) - v.y1 + 1).toNat v.y1 ∧
      (sweepY occ step my v).x0 = v.x0 ∧ (sweepY occ step my v).x3 = v.x3 ∧
      (sweepY occ step my v).z0 = v.z0 ∧ (sweepY occ step my v).z4 = v.z4 ∧
      ((∀ x y z, occ x y z = false) → (∀ i, hitLo i = false) ∧ ∀ i, hitUp i = false) := by
  obtain ⟨h1, h2, h3, h4⟩ := h
  unfold sweepY
  rw [wrapInt_of_range (v.y0 - step) (by omega) (by omega),
    wrapInt_of_range (v.y1 + step) (by omega) (by omega)]
  obtain ⟨a0, a1, a2, a3, a4, a5⟩ := faceYNeg_entries occ (max 0 (v.y0 - step)) v
  obtain ⟨b0, b1, b2, b3, b4, b5⟩ := faceYPos_entries occ (min my (v.y1 + step))
    (faceYNeg occ (max 0 (v.y0 - step)) v)
  rw [a1] at b0
  refine ⟨_, _, b1.trans a0, b0, b2.trans a2, b3.trans a3, b4.trans a4, b5.trans a5, ?_⟩
  · intro hfree
    exact ⟨fun i => anyBetween_of_free _ _ _ (fun x => anyBetween_of_free _ _ _
        (fun z => hfree x i z)),
      fun i => anyBetween_of_free _ _ _ (fun x => anyBetween_of_free _ _ _
        (fun z => hfree x i z))⟩

theorem sweepX_entries (occ : Int → Int → Int → Bool) (step mx : Int) (v : Mat8x3 Int)
    (hstep : 0 ≤ step) (hr : mx + step ≤ 2147483647)
    (h : 0 ≤ v.x3 ∧ v.x3 ≤ mx ∧ 0 ≤ v.x0 ∧ v.x0 ≤ mx) :
    ∃ hitLo hitUp,
      (sweepX occ step mx v).x3 =
        lowFace hitLo (v.x3 - max 0 (v.x3 - step) + 1).toNat v.x3 ∧
      (sweepX occ step mx v).x0 =
        highFace hitUp (min mx (v.x0 + step) - v.x0 + 1).toNat v.x0 ∧
      (sweepX occ step mx v).y0 = v.y0 ∧ (sweepX occ step mx v).y1 = v.y1 ∧
      (sweepX occ step mx v).z0 = v.z0 ∧ (sweepX occ step mx v).z4 = v.z4 ∧
      ((∀ x y z, occ x y z = false) → (∀ i, hitLo i = false) ∧ ∀ i, hitUp i = false) := by
  obtain ⟨h1, h2, h3, h4⟩ := h
  unfold sweepX
  rw [wrapInt_of_range (v.x3 - step) (by omega) (by omega),
    wrapInt_of_range (v.x0 + step) (by omega) (by omega)]
  obtain ⟨c0, c1, c2, c3, c4, c5⟩ := faceXPos_entries occ (min mx (v.x0 + step)) v
  obtain ⟨d0, d1, d2, d3, d4, d5⟩ := faceXNeg_entries occ (max 0 (v.x3 - step))
    (faceXPos occ (min mx (v.x0 + step)) v)
  rw [c3] at d0
  refine ⟨_, _, d0, d3.trans c0, d1.trans c1, d2.trans c2, d4.trans c4, d5.trans c5, ?_⟩
  · intro hfree
    exact ⟨fun i => anyBetween_of_free _ _ _ (fun y => anyBetween_of_free _ _ _
        (fun z => hfree i y z)),
      fun i => anyBetween_of_free _ _ _ (fun y => anyBetween_of_free _ _ _
        (fun z => hfree i y z))⟩

theorem sweepZ_entries (occ : Int → Int → Int → Bool) (step mz : Int) (v : Mat8x3 Int)
    (hstep : 0 ≤ step) (hr : mz + step ≤ 2147483647)
    (h : 0 ≤ v.z4 ∧ v.z4 ≤ mz ∧ 0 ≤ v.z0 ∧ v.z0 ≤ mz) :
    ∃ hitLo hitUp,
      (sweepZ occ step mz v).z4 =
        lowFace hitLo (v.z4 - max 0 (v.z4 - step) + 1).toNat v.z4 ∧
      (sweepZ occ step mz v).z0 =
        topFace hitUp (min mz (v.z0 + step) - v.z0 + 1).toNat v.z0 ∧
      (sweepZ occ step mz v).y0 = v.y0 ∧ (sweepZ occ step mz v).y1 = v.y1 ∧
      (sweepZ occ step mz v).x0 = v.x0 ∧ (sweepZ occ step mz v).x3 = v.x3 := by
  obtain ⟨h1, h2, h3, h4⟩ := h
  unfold sweepZ
  rw [wrapInt_of_range (v.z4 - step) (by omega) (by omega),
    wrapInt_of_range (v.z0 + step) (by omega) (by omega)]
  obtain ⟨e0, e1, e2, e3, e4, e5⟩ := faceZPos_entries occ (min mz (v.z0 + step)) v
  obtain ⟨f0, f1, f2, f3, f4, f5⟩ := faceZNeg_entries occ (max 0 (v.z4 - step))
    (faceZPos occ (min mz (v.z0 + step)) v)
  rw [e5] at f0
  exact ⟨_, _, f0, f5.trans e0, f1.trans e1, f2.trans e2, f3.trans e3, f4.trans e4⟩

theorem sweepFaces_outward (g : GridEnv) (v : Mat8x3 Int) (hstep : 0 ≤ g.step_length)
    (hr : StepInRange g) (h : FacesInMap g v) :
    FacesOutward v (sweepFaces g.occupied g.step_length g.max_x g.max_y g.max_z v) ∧
    FacesInMap g (sweepFaces g.occupied g.step_length g.max_x g.max_y g.max_z v) := by
  obtain ⟨⟨h1, h2, h3, h4, h5, h6⟩, k1, k2, k3, k4, k5, k6⟩ := h
  obtain ⟨r1, r2, r3⟩ := hr
  unfold sweepFaces
  obtain ⟨p1, p2, a0, a1, a2, a3, a4, a5, _⟩ := sweepY_entries g.occupied g.step_length
    g.max_y v hstep (le_of_lt r2) ⟨h1, k1, k2, h2⟩
  have la := lowFace_in p1 v.y0 (max 0 (v.y0 - g.step_length)) (by omega)
  have lb := highFace_in p2 v.y1 (min g.max_y (v.y1 + g.step_length)) (by omega)
  rw [← a0] at la
  rw [← a1] at lb
  clear a0 a1
  generalize sweepY g.occupied g.step_length g.max_y v = v2 at *
  obtain ⟨q1, q2, c0, c1, c2, c3, c4, c5, _⟩ := sweepX_entries g.occupied g.step_length
    g.max_x v2 hstep (le_of_lt r1) ⟨by omega, by omega, by omega, by omega⟩
  have lc := lowFace_in q1 v2.x3 (max 0 (v2.x3 - g.step_length)) (by omega)
  have ld := highFace_in q2 v2.x0 (min g.max_x (v2.x0 + g.step_length)) (by omega)
  rw [← c0] at lc
  rw [← c1] at ld
  clear c0 c1
  generalize sweepX g.occupied g.step_length g.max_x v2 = v4 at *
  obtain ⟨s1, s2, e0, e1, e2, e3, e4, e5⟩ := sweepZ_entries g.occupied g.step_length
    g.max_z v4 hstep (le_of_lt r3) ⟨by omega, by omega, by omega, by omega⟩
  have le := lowFace_in s1 v4.z4 (max 0 (v4.z4 - g.step_length)) (by omega)
  have lf := topFace_in s2 v4.z0 (min g.max_z (v4.z0 + g.step_length)) (by omega)
  rw [← e0] at le
  rw [← e1] at lf
  clear e0 e1
  generalize sweepZ g.occupied g.step_length g.max_z v4 = v6 at *
  unfold FacesOutward FacesInMap
  refine ⟨⟨?_, ?_, ?_, ?_, ?_, ?_⟩, ⟨?_, ?_, ?_, ?_, ?_, ?_⟩, ?_, ?_, ?_, ?_, ?_, ?_⟩ <;> omega

theorem facesInMap_of_indicesInMap (g : GridEnv) (v : Mat8x3 Int) (h : indicesInMap g v) :
    FacesInMap g v := by
  unfold indicesInMap at h
  unfold FacesInMap
  omega

theorem iterate_facesInMap (g : GridEnv) (v : Mat8x3 Int) (hstep : 0 ≤ g.step_length)
    (hr : StepInRange g) (h : FacesInMap g v) :
    ∀ k, FacesInMap g
      (Nat.iterate (sweepFaces g.occupied g.step_length g.max_x g.max_y g.max_z) k v) := by
  intro k
  induction k with
  | zero => exact h
  | succ k ih =>
    rw [Function.iterate_succ_apply']
    exact (sweepFaces_outward g _ hstep hr ih).2

theorem sweepFaces_boxLayout (occ : Int → Int → Int → Bool) (step mx my mz : Int)
    (v : Mat8x3 Int) (h : v.boxLayout) : (sweepFaces occ step mx my mz v).boxLayout := by
  rw [boxLayout_eq_boxVertices v h]
  obtain ⟨xl, xu, yl, yu, zl, zu, e, _⟩ :=
    sweepFaces_box occ step mx my mz v.x6 v.x0 v.y0 v.y6 v.z6 v.z0
  rw [e]
  exact boxLayout_boxVertices _ _ _ _ _ _

theorem inflateLoop_idx_iterate (g : GridEnv) (lstcube : Cube) :
    ∀ (n : Nat) (v : Mat8x3 Int) (cubeMax : Cube),
      ∃ k, (inflateLoop g lstcube n v cubeMax).2 =
        Nat.iterate (sweepFaces g.occupied g.step_length g.max_x g.max_y g.max_z) k v := by
  intro n
  induction n with
  | zero => intro v cubeMax; exact ⟨0, rfl⟩
  | succ n ih =>
    intro v cubeMax
    rw [inflateLoop]
    split
    · exact ⟨1, rfl⟩
    · split
      · exact ⟨1, rfl⟩
      · obtain ⟨k, hk⟩ := ih (sweepFaces g.occupied g.step_length g.max_x g.max_y g.max_z v)
          (g.setVertex cubeMax (vertexCoord g
            (sweepFaces g.occupied g.step_length g.max_x g.max_y g.max_z v)) g.resolution)
        exact ⟨k + 1, by rw [hk, Function.iterate_succ_apply]⟩

/-! ## Claims of the second group: monotone inflation -/

/-- C15 (amended): for a seed whose vertex indices lie inside the map, `_step_length ≥ 0`
and `_max + _step_length < INT_MAX` on each axis (no `int` of the sweeps overflows), every
pass of the sweeps of `inflateCube` leaves each face at least as far outward as before:
between two consecutive values of `vertex_idx` the Y-, X- and Z- face indices do not
increase and the Y+, X+ and Z+ face indices do not decrease (the face indices being the
entries the sweeps read as the positions of the faces). A seed in the fixed corner order
stays in it, so that the four vertices of a face share that index; and the final
`vertex_idx` of `inflateCube` is one of these values. -/
theorem inflateCube_faces_outward (g : GridEnv) (cube : Cube) (hstep : 0 ≤ g.step_length)
    (hr : StepInRange g) (hin : indicesInMap g (seedMatrix g cube)) :
    (∀ k, FacesOutward
      (Nat.iterate (sweepFaces g.occupied g.step_length g.max_x g.max_y g.max_z) k
        (seedMatrix g cube))
      (Nat.iterate (sweepFaces g.occupied g.step_length g.max_x g.max_y g.max_z) (k + 1)
        (seedMatrix g cube))) ∧
    ((seedMatrix g cube).boxLayout → ∀ k,
      (Nat.iterate (sweepFaces g.occupied g.step_length g.max_x g.max_y g.max_z) k
        (seedMatrix g cube)).boxLayout) ∧
    ∀ lstcube, ∃ k, (inflateCubeIdx g cube lstcube).2 =
      Nat.iterate (sweepFaces g.occupied g.step_length g.max_x g.max_y g.max_z) k
        (seedMatrix g cube) := by
  have h0 := facesInMap_of_indicesInMap g _ hin
  refine ⟨?_, ?_, ?_⟩
  · intro k
    rw [Function.iterate_succ_apply']
    exact (sweepFaces_outward g _ hstep hr (iterate_facesInMap g _ hstep hr h0 k)).1
  · intro hbox k
    induction k with
    | zero => exact hbox
    | succ k ih =>
      rw [Function.iterate_succ_apply']
      exact sweepFaces_boxLayout _ _ _ _ _ _ ih
  · intro lstcube
    unfold inflateCubeIdx
    split
    · exact ⟨0, rfl⟩
    · exact inflateLoop_idx_iterate g lstcube _ _ _

/-! ## Claims of the second group: the free grid -/

theorem scanDown_of_free (hit : Int → Bool) (h : ∀ i, hit i = false) :
    ∀ (n : Nat) (s : Int), scanDown hit n s = (false, s - n) := by
  intro n
  induction n with
  | zero => intro s; simp [scanDown]
  | succ n ih =>
    intro s
    simp only [scanDown, h s, Bool.false_eq_true, if_false, ih]
    congr 1
    push_cast
    ring

theorem scanUp_of_free (hit : Int → Bool) (h : ∀ i, hit i = false) :
    ∀ (n : Nat) (s : Int), scanUp hit n s = (false, s + n) := by
  intro n
  induction n with
  | zero => intro s; simp [scanUp]
  | succ n ih =>
    intro s
    simp only [scanUp, h s, Bool.false_eq_true, if_false, ih]
    congr 1
    push_cast
    ring

theorem lowFace_of_free (hit : Int → Bool) (h : ∀ i, hit i = false) (s lo : Int) (hlo : lo ≤ s) :
    lowFace hit (s - lo + 1).toNat s = lo := by
  simp only [lowFace, scanDown_of_free hit h, Bool.false_eq_true, if_false]
  omega

theorem highFace_of_free (hit : Int → Bool) (h : ∀ i, hit i = false) (s up : Int) (hup : s ≤ up) :
    highFace hit (up - s + 1).toNat s = up := by
  simp only [highFace, scanUp_of_free hit h, Bool.false_eq_true, if_false]
  omega

theorem sweepFaces_of_free (g : GridEnv) (v : Mat8x3 Int) (hstep : 0 ≤ g.step_length)
    (hr : StepInRange g) (hfree : ∀ x y z, g.occupied x y z = false) (h : FacesInMap g v) :
    (sweepFaces g.occupied g.step_length g.max_x g.max_y g.max_z v).y0 =
      max 0 (v.y0 - g.step_length) ∧
    (sweepFaces g.occupied g.step_length g.max_x g.max_y g.max_z v).y1 =
      min g.max_y (v.y1 + g.step_length) ∧
    (sweepFaces g.occupied g.step_length g.max_x g.max_y g.max_z v).x0 =
      min g.max_x (v.x0 + g.step_length) ∧
    (sweepFaces g.occupied g.step_length g.max_x g.max_y g.max_z v).x3 =
      max 0 (v.x3 - g.step_length) := by
  obtain ⟨⟨h1, h2, h3, h4, h5, h6⟩, k1, k2, k3, k4, k5, k6⟩ := h
  obtain ⟨r1, r2, r3⟩ := hr
  unfold sweepFaces
  obtain ⟨p1, p2, a0, a1, a2, a3, a4, a5, pf⟩ := sweepY_entries g.occupied g.step_length
    g.max_y v hstep (le_of_lt r2) ⟨h1, k1, k2, h2⟩
  rw [lowFace_of_free p1 (pf hfree).1 _ _ (by omega)] at a0
  rw [highFace_of_free p2 (pf hfree).2 _ _ (by omega)] at a1
  clear pf
  generalize sweepY g.occupied g.step_length g.max_y v = v2 at *
  obtain ⟨q1, q2, c0, c1, c2, c3, c4, c5, qf⟩ := sweepX_entries g.occupied g.step_length
    g.max_x v2 hstep (le_of_lt r1) ⟨by omega, by omega, by omega, by omega⟩
  rw [lowFace_of_free q1 (qf hfree).1 _ _ (by omega)] at c0
  rw [highFace_of_free q2 (qf hfree).2 _ _ (by omega)] at c1
  clear qf
  generalize sweepX g.occupied g.step_length g.max_x v2 = v4 at *
  have hz0 : 0 ≤ v4.z4 ∧ v4.z4 ≤ g.max_z ∧ 0 ≤ v4.z0 ∧ v4.z0 ≤ g.max_z :=
    ⟨by omega, by omega, by omega, by omega⟩
  obtain ⟨s1, s2, e0, e1, e2, e3, e4, e5⟩ := sweepZ_entries g.occupied g.step_length
    g.max_z v4 hstep (le_of_lt r3) hz0
  clear hfree e0 e1
  generalize sweepZ g.occupied g.step_length g.max_z v4 = v6 at *
  refine ⟨?_, ?_, ?_, ?_⟩ <;> omega


theorem inflateLoop_of_free (g : GridEnv) (hstep : 1 ≤ g.step_length) (hr : StepInRange g)
    (hfree : ∀ x y z, g.occupied x y z = false)
    (hset : ∀ c m r, (g.setVertex c m r).valid = c.valid)
    (hlst : ∀ c v, isContains (initialLstcube g)
      (g.setVertex c (vertexCoord g v) g.resolution) = false) :
    ∀ (n : Nat) (v : Mat8x3 Int) (cubeMax : Cube),
      v.boxLayout → FacesInMap g v →
      v.x3 ≤ n * g.step_length → g.max_x ≤ v.x0 + n * g.step_length →
      v.y0 ≤ n * g.step_length → g.max_y ≤ v.y1 + n * g.step_length →
      (inflateLoop g (initialLstcube g) n v cubeMax).1.2 = true ∧
      (inflateLoop g (initialLstcube g) n v cubeMax).1.1.valid = cubeMax.valid ∧
      (inflateLoop g (initialLstcube g) n v cubeMax).2.boxLayout ∧
      (inflateLoop g (initialLstcube g) n v cubeMax).2.x3 = 0 ∧
      (inflateLoop g (initialLstcube g) n v cubeMax).2.x0 = g.max_x ∧
      (inflateLoop g (initialLstcube g) n v cubeMax).2.y0 = 0 ∧
      (inflateLoop g (initialLstcube g) n v cubeMax).2.y1 = g.max_y := by
  intro n
  induction n with
  | zero =>
    intro v cubeMax hbox hmap h1 h2 h3 h4
    obtain ⟨⟨m1, m2, m3, m4, _, _⟩, _⟩ := hmap
    simp only [Nat.cast_zero, zero_mul, add_zero] at h1 h2 h3 h4
    refine ⟨rfl, rfl, hbox, ?_, ?_, ?_, ?_⟩ <;> simp only [inflateLoop] <;> omega
  | succ n ih =>
    intro v cubeMax hbox hmap h1 h2 h3 h4
    obtain ⟨e1, e2, e3, e4⟩ := sweepFaces_of_free g v (by omega) hr hfree hmap
    have hmap' := (sweepFaces_outward g v (by omega) hr hmap).2
    have hbox' := sweepFaces_boxLayout g.occupied g.step_length g.max_x g.max_y g.max_z v hbox
    obtain ⟨⟨m1, m2, m3, m4, _, _⟩, _⟩ := hmap
    have hn : (0 : Int) ≤ (n : Int) * g.step_length :=
      mul_nonneg (Int.ofNat_nonneg n) (by omega)
    have hc : ((n + 1 : Nat) : Int) * g.step_length = (n : Int) * g.step_length + g.step_length := by
      push_cast; ring
    rw [hc] at h1 h2 h3 h4
    rw [inflateLoop]
    split
    · rename_i hv
      rw [← hv] at e1 e2 e3 e4
      rw [← hv]
      refine ⟨rfl, rfl, hbox, ?_, ?_, ?_, ?_⟩ <;> dsimp only <;> omega
    · rw [hlst]
      simp only [Bool.false_eq_true, if_false]
      have h := ih (sweepFaces g.occupied g.step_length g.max_x g.max_y g.max_z v)
        (g.setVertex cubeMax (vertexCoord g
          (sweepFaces g.occupied g.step_length g.max_x g.max_y g.max_z v)) g.resolution)
        hbox' hmap' (by rw [e4]; omega) (by rw [e3]; omega) (by rw [e1]; omega)
        (by rw [e2]; omega)
      rw [hset] at h
      exact h

/-- C14 (amended): on a grid whose voxels are all free, for a one-point path whose seed
indices lie inside the map, with `_step_length ≥ 1`, `_max + _step_length < INT_MAX` on
each axis (no `int` of the sweeps overflows) and `_max_inflate_iter * _step_length` at least the extent of the
map in x and y (and with what `dataType.h` and the grid give: `Cube()` builds a valid
cube, `setVertex` keeps the flag, and no inflated cube lies inside the initial
`lstcube`), `inflateCube` succeeds, `corridorGeneration` returns exactly one cube, the
inflated one with the time of the point; the final `vertex_idx` has the faces `0` and
`_max_x` in x, `0` and `_max_y` in y, and the vertices of the returned cube are those that
`setVertex` builds from the world coordinates of that `vertex_idx` (or the seed itself,
when the first sweep changes nothing). -/
theorem corridorGeneration_free_grid (g : GridEnv) (pt : Vec3) (time : List ℚ)
    (hfree : ∀ x y z, g.occupancy x y z ≤ 1 / 2)
    (hin : indicesInMap g (seedMatrix g (generateCube g pt)))
    (hstep : 1 ≤ g.step_length)
    (hr : StepInRange g)
    (hx : g.max_x ≤ g.max_inflate_iter * g.step_length)
    (hy : g.max_y ≤ g.max_inflate_iter * g.step_length)
    (hvalid : g.defaultCube.valid = true)
    (hset : ∀ c m r, (g.setVertex c m r).valid = c.valid)
    (hlst : ∀ c v, isContains (initialLstcube g)
      (g.setVertex c (vertexCoord g v) g.resolution) = false) :
    (inflateCube g (generateCube g pt) (initialLstcube g)).2 = true ∧
    corridorGeneration g [pt] time =
      [{ (inflateCube g (generateCube g pt) (initialLstcube g)).1 with t := time.getD 0 0 }] ∧
    (inflateCubeIdx g (generateCube g pt) (initialLstcube g)).2.boxLayout ∧
    (inflateCubeIdx g (generateCube g pt) (initialLstcube g)).2.x6 = 0 ∧
    (inflateCubeIdx g (generateCube g pt) (initialLstcube g)).2.x0 = g.max_x ∧
    (inflateCubeIdx g (generateCube g pt) (initialLstcube g)).2.y0 = 0 ∧
    (inflateCubeIdx g (generateCube g pt) (initialLstcube g)).2.y6 = g.max_y ∧
    (((inflateCube g (generateCube g pt) (initialLstcube g)).1 = generateCube g pt ∧
        (inflateCubeIdx g (generateCube g pt) (initialLstcube g)).2 =
          seedMatrix g (generateCube g pt)) ∨
      ∃ c, (inflateCube g (generateCube g pt) (initialLstcube g)).1 =
        g.setVertex c
          (vertexCoord g (inflateCubeIdx g (generateCube g pt) (initialLstcube g)).2)
          g.resolution) := by
  have hocc : ∀ x y z, g.occupied x y z = false := by
    intro x y z
    simp only [GridEnv.occupied, decide_eq_false_iff_not, not_lt]
    exact hfree x y z
  have hb : seedBlocked g (seedMatrix g (generateCube g pt)) = false := by
    simp [seedBlocked, hocc]
  have hbox : (seedMatrix g (generateCube g pt)).boxLayout := by
    rw [seedMatrix_generateCube]; exact boxLayout_boxVertices _ _ _ _ _ _
  have hmap := facesInMap_of_indicesInMap g _ hin
  have hiter : g.max_inflate_iter * g.step_length ≤
      (g.max_inflate_iter.toNat : Int) * g.step_length :=
    mul_le_mul_of_nonneg_right (Int.self_le_toNat _) (by omega)
  have hin' := hin
  unfold indicesInMap at hin'
  have hloop := inflateLoop_of_free g hstep hr hocc hset hlst g.max_inflate_iter.toNat
    (seedMatrix g (generateCube g pt)) (generateCube g pt) hbox hmap
    (by omega) (by omega) (by omega) (by omega)
  have hidx : inflateCubeIdx g (generateCube g pt) (initialLstcube g) =
      inflateLoop g (initialLstcube g) g.max_inflate_iter.toNat
        (seedMatrix g (generateCube g pt)) (generateCube g pt) := by
    simp [inflateCubeIdx, hb]
  have hret := inflateLoop_returned g (initialLstcube g) g.max_inflate_iter.toNat
    (seedMatrix g (generateCube g pt)) (generateCube g pt) hloop.1
  obtain ⟨r1, r2, r3, r4, r5, r6, r7⟩ := hloop
  rw [← hidx] at r1 r2 r3 r4 r5 r6 r7 hret
  have hv : (inflateCube g (generateCube g pt) (initialLstcube g)).1.valid = true := by
    rw [inflateCube, r2]; exact hvalid
  have l3 := r3
  simp only [Mat8x3.boxLayout] at l3
  refine ⟨r1, ?_, r3, ?_, r5, r6, ?_, hret⟩
  · rw [corridorGeneration, corridorSimplify_eq_keptCubes]
    have r1' : (inflateCube g (generateCube g pt) (initialLstcube g)).2 = true := r1
    simp [corridorLoop, r1', keptCubes, hv]
  · rw [← l3.2.1.2.1]; exact r4
  · rw [← l3.2.2.2.1.1]; exact r7

/-! ## The free grid and the step length at the limit of `int` -/

theorem freeGrid_occupied : freeGrid.occupied = fun _ _ _ => false := by
  funext ix iy iz
  simp only [GridEnv.occupied, freeGrid]
  norm_num

theorem wideStepGrid_occupied : wideStepGrid.occupied = fun _ _ _ => false := by
  funext ix iy iz
  simp only [GridEnv.occupied, wideStepGrid]
  norm_num

theorem stepInRange_demo : StepInRange demoGrid := by
  unfold StepInRange
  decide

theorem sweep_free_1 :
    sweepFaces freeGrid.occupied freeGrid.step_length freeGrid.max_x freeGrid.max_y
      freeGrid.max_z (boxVertices 1 1 1 1 0 0) = boxVertices 0 2 0 2 0 1 := by
  rw [freeGrid_occupied]; decide

theorem sweep_free_2 :
    sweepFaces freeGrid.occupied freeGrid.step_length freeGrid.max_x freeGrid.max_y
      freeGrid.max_z (boxVertices 0 2 0 2 0 1) = boxVertices 0 3 0 3 0 2 := by
  rw [freeGrid_occupied]; decide

theorem sweep_free_3 :
    sweepFaces freeGrid.occupied freeGrid.step_length freeGrid.max_x freeGrid.max_y
      freeGrid.max_z (boxVertices 0 3 0 3 0 2) = boxVertices 0 4 0 4 0 3 := by
  rw [freeGrid_occupied]; decide

theorem sweep_free_4 :
    sweepFaces freeGrid.occupied freeGrid.step_length freeGrid.max_x freeGrid.max_y
      freeGrid.max_z (boxVertices 0 4 0 4 0 3) = boxVertices 0 4 0 4 0 4 := by
  rw [freeGrid_occupied]; decide

theorem sweep_free_5 :
    sweepFaces freeGrid.occupied freeGrid.step_length freeGrid.max_x freeGrid.max_y
      freeGrid.max_z (boxVertices 0 4 0 4 0 4) = boxVertices 0 4 0 4 0 4 := by
  rw [freeGrid_occupied]; decide

theorem inflateCubeIdx_free :
    inflateCubeIdx freeGrid (generateCube freeGrid ⟨-1 / 2, -1 / 2, 1 / 2⟩)
        (initialLstcube freeGrid) =
      ((⟨boxVertices (-2) 2 (-2) 2 0 4, ⟨-1 / 2, -1 / 2, 1 / 2⟩, true, 0⟩, true),
        boxVertices 0 4 0 4 0 4) := by
  have hs : seedMatrix freeGrid (generateCube freeGrid ⟨-1 / 2, -1 / 2, 1 / 2⟩) =
      boxVertices 1 1 1 1 0 0 := seedMatrix_demo
  have hg : generateCube freeGrid ⟨-1 / 2, -1 / 2, 1 / 2⟩ =
      ⟨boxVertices (-1 / 2) (-1 / 2) (-1 / 2) (-1 / 2) (1 / 2) (1 / 2), ⟨-1 / 2, -1 / 2, 1 / 2⟩,
        true, 0⟩ := generateCube_demo
  have hb : seedBlocked freeGrid (boxVertices 1 1 1 1 0 0) = false := by
    simp only [seedBlocked, freeGrid_occupied]; decide
  have hn : freeGrid.max_inflate_iter.toNat = 95 + 1 + 1 + 1 + 1 + 1 := rfl
  have hl : ∀ c v, isContains (initialLstcube freeGrid)
      (freeGrid.setVertex c (vertexCoord freeGrid v) freeGrid.resolution) = false :=
    fun c v => isContains_initialLstcube c _ (vertexCoord_x0_lower v)
  unfold inflateCubeIdx
  rw [hs, hb, hn]
  simp only [Bool.false_eq_true, if_false]
  rw [inflateLoop_continue _ _ _ _ _ _ sweep_free_1 (by decide) (hl _ _),
    inflateLoop_continue _ _ _ _ _ _ sweep_free_2 (by decide) (hl _ _),
    inflateLoop_continue _ _ _ _ _ _ sweep_free_3 (by decide) (hl _ _),
    inflateLoop_continue _ _ _ _ _ _ sweep_free_4 (by decide) (hl _ _),
    inflateLoop_stop _ _ _ _ _ sweep_free_5, hg]
  norm_num [freeGrid, demoGrid, padVertex, vertexCoord, vertexPos, boxVertices]

theorem sweep_wide :
    sweepFaces wideStepGrid.occupied wideStepGrid.step_length wideStepGrid.max_x
      wideStepGrid.max_y wideStepGrid.max_z (boxVertices 1 1 1 1 0 0) =
        boxVertices 0 0 0 0 0 4 := by
  rw [wideStepGrid_occupied]; decide

theorem indicesInMap_wide :
    indicesInMap wideStepGrid
      (seedMatrix wideStepGrid (generateCube wideStepGrid ⟨-1 / 2, -1 / 2, 1 / 2⟩)) := by
  have e : seedMatrix wideStepGrid (generateCube wideStepGrid ⟨-1 / 2, -1 / 2, 1 / 2⟩) =
      boxVertices 1 1 1 1 0 0 := seedMatrix_demo
  rw [e]; simp [indicesInMap, boxVertices, wideStepGrid, demoGrid]

theorem inflateCubeIdx_wide :
    inflateCubeIdx wideStepGrid (generateCube wideStepGrid ⟨-1 / 2, -1 / 2, 1 / 2⟩)
        (initialLstcube wideStepGrid) =
      ((⟨boxVertices (-2) (-1) (-2) (-1) 0 4, ⟨-1 / 2, -1 / 2, 1 / 2⟩, true, 0⟩, true),
        boxVertices 0 0 0 0 0 4) := by
  have hs : seedMatrix wideStepGrid (generateCube wideStepGrid ⟨-1 / 2, -1 / 2, 1 / 2⟩) =
      boxVertices 1 1 1 1 0 0 := seedMatrix_demo
  have hg : generateCube wideStepGrid ⟨-1 / 2, -1 / 2, 1 / 2⟩ =
      ⟨boxVertices (-1 / 2) (-1 / 2) (-1 / 2) (-1 / 2) (1 / 2) (1 / 2), ⟨-1 / 2, -1 / 2, 1 / 2⟩,
        true, 0⟩ := generateCube_demo
  have hb : seedBlocked wideStepGrid (boxVertices 1 1 1 1 0 0) = false := by
    simp only [seedBlocked, wideStepGrid_occupied]; decide
  have hn : wideStepGrid.max_inflate_iter.toNat = 0 + 1 := rfl
  have hl : ∀ c v, isContains (initialLstcube wideStepGrid)
      (wideStepGrid.setVertex c (vertexCoord wideStepGrid v) wideStepGrid.resolution) = false :=
    fun c v => isContains_initialLstcube c _ (vertexCoord_x0_lower v)
  unfold inflateCubeIdx
  rw [hs, hb, hn]
  simp only [Bool.false_eq_true, if_false]
  rw [inflateLoop_continue _ _ _ _ _ _ sweep_wide (by decide) (hl _ _), inflateLoop, hg]
  norm_num [wideStepGrid, demoGrid, padVertex, vertexCoord, vertexPos, boxVertices]

/-- C15 (amended) at the zero-volume seed at voxel `(1, 1, 0)` of `demoGrid`: the first pass moves
the faces from `[1, 1] × [1, 1] × [0, 0]` to `[0, 2] × [0, 2] × [0, 1]`. -/
theorem inflateCube_faces_outward_witness :
    (0 : Int) ≤ demoGrid.step_length ∧ StepInRange demoGrid ∧
    indicesInMap demoGrid (seedMatrix demoGrid (generateCube demoGrid ⟨-1 / 2, -1 / 2, 1 / 2⟩)) ∧
    FacesOutward (boxVertices 1 1 1 1 0 0) (boxVertices 0 2 0 2 0 1) := by
  have hin : indicesInMap demoGrid
      (seedMatrix demoGrid (generateCube demoGrid ⟨-1 / 2, -1 / 2, 1 / 2⟩)) := by
    rw [seedMatrix_demo]; simp [indicesInMap, boxVertices, demoGrid]
  have h := (inflateCube_faces_outward demoGrid (generateCube demoGrid ⟨-1 / 2, -1 / 2, 1 / 2⟩)
    (by decide) stepInRange_demo hin).1 0
  rw [seedMatrix_demo] at h
  simp only [Function.iterate_succ, Function.iterate_zero, Function.comp_apply, id_eq] at h
  rw [sweep_demo_1] at h
  exact ⟨by decide, stepInRange_demo, hin, h⟩

/-- C15 as stated fails. On `wideStepGrid` (`_step_length = INT_MAX ≥ 0`) the seed at the
voxel `(1, 1, 0)` has its vertex indices inside the map, and the first pass of
`inflateCube` takes `vertex_idx` from `[1, 1] × [1, 1] × [0, 0]` to
`[0, 0] × [0, 0] × [0, 4]`: the sums `vertex_idx(1, 1) + _step_length` and
`vertex_idx(0, 0) + _step_length` wrap around to `INT_MIN`, the Y+ and X+ loops do not
run, and the Y+ and X+ faces move from 1 to 0, inward. -/
theorem inflateCube_face_moves_inward_on_overflow :
    (0 : Int) ≤ wideStepGrid.step_length ∧
    indicesInMap wideStepGrid
      (seedMatrix wideStepGrid (generateCube wideStepGrid ⟨-1 / 2, -1 / 2, 1 / 2⟩)) ∧
    seedMatrix wideStepGrid (generateCube wideStepGrid ⟨-1 / 2, -1 / 2, 1 / 2⟩) =
      boxVertices 1 1 1 1 0 0 ∧
    sweepFaces wideStepGrid.occupied wideStepGrid.step_length wideStepGrid.max_x
      wideStepGrid.max_y wideStepGrid.max_z
      (seedMatrix wideStepGrid (generateCube wideStepGrid ⟨-1 / 2, -1 / 2, 1 / 2⟩)) =
        boxVertices 0 0 0 0 0 4 ∧
    (inflateCubeIdx wideStepGrid (generateCube wideStepGrid ⟨-1 / 2, -1 / 2, 1 / 2⟩)
      (initialLstcube wideStepGrid)).2 = boxVertices 0 0 0 0 0 4 ∧
    ¬ FacesOutward (boxVertices 1 1 1 1 0 0 : Mat8x3 Int) (boxVertices 0 0 0 0 0 4) := by
  have hs : seedMatrix wideStepGrid (generateCube wideStepGrid ⟨-1 / 2, -1 / 2, 1 / 2⟩) =
      boxVertices 1 1 1 1 0 0 := seedMatrix_demo
  refine ⟨by decide, indicesInMap_wide, hs, ?_, ?_, ?_⟩
  · rw [hs]; exact sweep_wide
  · rw [inflateCubeIdx_wide]
  · unfold FacesOutward
    decide

/-- C14 (amended) on `freeGrid` (indices `0 .. 4`, `_step_length = 1`, `_max_inflate_iter = 100`) for
the one-point path at `(-1/2, -1/2, 1/2)`: the corridor is the one cube
`[-2, 2] × [-2, 2] × [0, 4]`, the whole map. -/
theorem corridorGeneration_free_grid_witness :
    (∀ x y z, freeGrid.occupancy x y z ≤ 1 / 2) ∧
    indicesInMap freeGrid (seedMatrix freeGrid (generateCube freeGrid ⟨-1 / 2, -1 / 2, 1 / 2⟩)) ∧
    (1 : Int) ≤ freeGrid.step_length ∧ StepInRange freeGrid ∧
    freeGrid.max_x ≤ freeGrid.max_inflate_iter * freeGrid.step_length ∧
    corridorGeneration freeGrid [⟨-1 / 2, -1 / 2, 1 / 2⟩] [0] =
      [⟨boxVertices (-2) 2 (-2) 2 0 4, ⟨-1 / 2, -1 / 2, 1 / 2⟩, true, 0⟩] ∧
    (inflateCubeIdx freeGrid (generateCube freeGrid ⟨-1 / 2, -1 / 2, 1 / 2⟩)
      (initialLstcube freeGrid)).2.x6 = 0 ∧
    (inflateCubeIdx freeGrid (generateCube freeGrid ⟨-1 / 2, -1 / 2, 1 / 2⟩)
      (initialLstcube freeGrid)).2.x0 = 4 ∧
    (inflateCubeIdx freeGrid (generateCube freeGrid ⟨-1 / 2, -1 / 2, 1 / 2⟩)
      (initialLstcube freeGrid)).2.y0 = 0 ∧
    (inflateCubeIdx freeGrid (generateCube freeGrid ⟨-1 / 2, -1 / 2, 1 / 2⟩)
      (initialLstcube freeGrid)).2.y6 = 4 := by
  have hfree : ∀ x y z, freeGrid.occupancy x y z ≤ 1 / 2 := by
    intro x y z
    simp only [freeGrid]
    norm_num
  have hin : indicesInMap freeGrid
      (seedMatrix freeGrid (generateCube freeGrid ⟨-1 / 2, -1 / 2, 1 / 2⟩)) := by
    have e : seedMatrix freeGrid (generateCube freeGrid ⟨-1 / 2, -1 / 2, 1 / 2⟩) =
        boxVertices 1 1 1 1 0 0 := seedMatrix_demo
    rw [e]; simp [indicesInMap, boxVertices, freeGrid, demoGrid]
  have hr : StepInRange freeGrid := stepInRange_demo
  have h := corridorGeneration_free_grid freeGrid ⟨-1 / 2, -1 / 2, 1 / 2⟩ [0] hfree hin
    (by decide) hr (by decide) (by decide) rfl (fun _ _ _ => rfl)
    (fun c v => isContains_initialLstcube c _ (vertexCoord_x0_lower v))
  have hc := h.2.1
  rw [inflateCube, inflateCubeIdx_free] at hc
  exact ⟨hfree, hin, by decide, hr, by decide, hc, h.2.2.2.1, h.2.2.2.2.1, h.2.2.2.2.2.1,
    h.2.2.2.2.2.2.1⟩

/-- C14 as stated fails. On `wideStepGrid` every voxel is free, the one-point path at
`(-1/2, -1/2, 1/2)` is inside the map, `_step_length = INT_MAX ≥ 1` and
`_max_inflate_iter * _step_length = INT_MAX` is at least the extent of the map; the
corridor is the one cube `[-2, -1] × [-2, -1] × [0, 4]`, built from the face indices
`[0, 0] × [0, 0] × [0, 4]`: the upper x and y faces end at 0, not at `_max_x = 4` and
`_max_y = 4`, because `vertex_idx + _step_length` wraps around. -/
theorem corridorGeneration_free_grid_overflow :
    (∀ x y z, wideStepGrid.occupancy x y z ≤ 1 / 2) ∧
    indicesInMap wideStepGrid
      (seedMatrix wideStepGrid (generateCube wideStepGrid ⟨-1 / 2, -1 / 2, 1 / 2⟩)) ∧
    (1 : Int) ≤ wideStepGrid.step_length ∧
    wideStepGrid.max_x ≤ wideStepGrid.max_inflate_iter * wideStepGrid.step_length ∧
    wideStepGrid.max_y ≤ wideStepGrid.max_inflate_iter * wideStepGrid.step_length ∧
    wideStepGrid.max_z ≤ wideStepGrid.max_inflate_iter * wideStepGrid.step_length ∧
    corridorGeneration wideStepGrid [⟨-1 / 2, -1 / 2, 1 / 2⟩] [0] =
      [⟨boxVertices (-2) (-1) (-2) (-1) 0 4, ⟨-1 / 2, -1 / 2, 1 / 2⟩, true, 0⟩] ∧
    (inflateCubeIdx wideStepGrid (generateCube wideStepGrid ⟨-1 / 2, -1 / 2, 1 / 2⟩)
      (initialLstcube wideStepGrid)).2 = boxVertices 0 0 0 0 0 4 ∧
    wideStepGrid.max_x = 4 ∧ wideStepGrid.max_y = 4 := by
  have hfree : ∀ x y z, wideStepGrid.occupancy x y z ≤ 1 / 2 := by
    intro x y z
    simp only [wideStepGrid]
    norm_num
  refine ⟨hfree, indicesInMap_wide, by decide, by decide, by decide, by decide, ?_, ?_, rfl,
    rfl⟩
  · rw [corridorGeneration, corridorSimplify_eq_keptCubes]
    simp only [corridorLoop, inflateCube, inflateCubeIdx_wide]
    simp [keptCubes]
  · rw [inflateCubeIdx_wide]

/-! ## Claims of the second group: path conditioning -/

theorem dbl_le_trans {a b c : Dbl} (h1 : Dbl.le a b = true) (h2 : Dbl.le b c = true) :
    Dbl.le a c = true := by
  cases a <;> cases b <;> cases c <;> simp_all [Dbl.le]
  exact le_trans h1 h2

theorem dbl_lt_of_le_of_lt {a b c : Dbl} (h1 : Dbl.le a b = true) (h2 : Dbl.lt b c = true) :
    Dbl.lt a c = true := by
  cases a <;> cases b <;> cases c <;> simp_all [Dbl.le, Dbl.lt]
  exact lt_of_le_of_lt h1 h2

theorem dbl_lt_of_le_of_ne {a b : Dbl} (h1 : Dbl.le a b = true) (h2 : Dbl.beq b a = false) :
    Dbl.lt a b = true := by
  cases a <;> cases b <;> simp_all [Dbl.le, Dbl.lt, Dbl.beq]
  exact lt_of_le_of_ne h1 (fun e => h2 e.symm)

theorem dbl_ne_of_lt {a b : Dbl} (h : Dbl.lt a b = true) : Dbl.beq a b = false := by
  cases a <;> cases b <;> simp_all [Dbl.lt, Dbl.beq]
  exact ne_of_lt h

theorem readTime_of_lt (oob : Int → Dbl) (time : List Dbl) (i : Nat) (h : i < time.length) :
    readTime oob time (i : Int) = time[i] := by
  unfold readTime
  rw [if_neg (by omega)]
  simp [List.getElem?_eq_getElem h]

theorem readTime_pred (oob : Int → Dbl) (time : List Dbl) (i : Nat) (h : i + 1 < time.length) :
    readTime oob time (((i + 1 : Nat) : Int) - 1) = time[i] := by
  have e : ((i + 1 : Nat) : Int) - 1 = (i : Int) := by push_cast; ring
  rw [e, readTime_of_lt oob time i (by omega)]

theorem sortPath_foldl_succ (oob : Int → Dbl) (path_coord : List Vec3) (time : List Dbl) (n : Nat) :
    (List.range (n + 1)).foldl (sortPathStep oob path_coord time) ([], []) =
      sortPathStep oob path_coord time
        ((List.range n).foldl (sortPathStep oob path_coord time) ([], [])) n := by
  rw [List.range_succ, List.foldl_append]
  rfl

/-- Every retained time is finite: a pass keeps `time[i]` only after `isinf(time[i])`
failed. -/
theorem sortPath_prefix_not_inf (oob : Int → Dbl) (path_coord : List Vec3) (time : List Dbl) :
    ∀ n, ∀ t ∈ ((List.range n).foldl (sortPathStep oob path_coord time) ([], [])).2,
      t.isinf = false := by
  intro n
  induction n with
  | zero => intro t ht; simp at ht
  | succ n ih =>
    intro t ht
    rw [sortPath_foldl_succ] at ht
    unfold sortPathStep at ht
    split at ht
    · exact ih t ht
    · split at ht
      · exact ih t ht
      · rename_i hinf
        split at ht
        · exact ih t ht
        · split at ht
          · simp only [List.mem_append, List.mem_singleton] at ht
            rcases ht with ht | ht
            · exact ih t ht
            · rw [ht]
              have : ¬ (readTime oob time n).isinf = true := fun h => hinf (Or.inl h)
              simpa using this
          · exact ih t ht

/-- C17, as the code has it: for every input, no time retained by `sortPath` is infinite.
A NaN time is not filtered: `isinf` and `==` are both false on it. -/
theorem sortPath_no_infinite (oob : Int → Dbl) (path_coord : List Vec3) (time : List Dbl) :
    ∀ t ∈ (sortPath oob path_coord time).2, t.isinf = false :=
  sortPath_prefix_not_inf oob path_coord time path_coord.length

/-- C17 as stated fails: for the times `[0, NaN]` of a two-point path, `sortPath` retains
the NaN (at `i = 1`, `NaN == 0.0`, `isinf(NaN)`, `isinf(0.0)` and `NaN == 0.0` are all
false). -/
theorem sortPath_retains_nan :
    ¬ (∀ (oob : Int → Dbl) (path_coord : List Vec3) (time : List Dbl),
        ∀ t ∈ (sortPath oob path_coord time).2, t.isinf = false ∧ t.isnan = false) := by
  intro h
  have h1 := h (fun _ => Dbl.fin 0) [⟨0, 0, 0⟩, ⟨1, 0, 0⟩] [Dbl.fin 0, Dbl.nan] Dbl.nan
    (by
      simp [sortPath, List.range_succ, sortPathStep, readTime, Dbl.beq, Dbl.isinf])
  simp [Dbl.isnan] at h1

theorem sortPath_prefix_increasing (oob : Int → Dbl) (path_coord : List Vec3) (time : List Dbl)
    (hlen : path_coord.length = time.length)
    (hmono : List.Pairwise (fun a b => Dbl.le a b = true) time) :
    ∀ n, n ≤ time.length →
      ((List.range n).foldl (sortPathStep oob path_coord time) ([], [])).1.length =
        ((List.range n).foldl (sortPathStep oob path_coord time) ([], [])).2.length ∧
      List.Chain' (fun a b => Dbl.lt a b = true)
        ((List.range n).foldl (sortPathStep oob path_coord time) ([], [])).2 ∧
      (∀ t ∈ ((List.range n).foldl (sortPathStep oob path_coord time) ([], [])).2,
        ∃ j, ∃ (h : j < time.length), j < n ∧ t = time[j]) ∧
      (((List.range n).foldl (sortPathStep oob path_coord time) ([], [])).1.zip
        ((List.range n).foldl (sortPathStep oob path_coord time) ([], [])).2).Sublist
        ((path_coord.zip time).take n) := by
  intro n
  induction n with
  | zero =>
    intro _
    simp
  | succ n ih =>
    intro hn
    obtain ⟨ia, ib, ic, id⟩ := ih (by omega)
    have hn' : n < time.length := by omega
    have hpn : n < path_coord.length := by omega
    have hweak : (((List.range n).foldl (sortPathStep oob path_coord time) ([], [])).1.zip
        ((List.range n).foldl (sortPathStep oob path_coord time) ([], [])).2).Sublist
        ((path_coord.zip time).take (n + 1)) :=
      id.trans (List.take_sublist_take_left _ (by omega))
    have hcweak : ∀ t ∈ ((List.range n).foldl (sortPathStep oob path_coord time) ([], [])).2,
        ∃ j, ∃ (h : j < time.length), j < n + 1 ∧ t = time[j] := by
      intro t ht
      obtain ⟨j, hj, hjn, e⟩ := ic t ht
      exact ⟨j, hj, by omega, e⟩
    rw [sortPath_foldl_succ]
    generalize (List.range n).foldl (sortPathStep oob path_coord time) ([], []) = acc at *
    unfold sortPathStep
    rw [readTime_of_lt oob time n hn']
    split
    · exact ⟨ia, ib, hcweak, hweak⟩
    · rename_i h1
      split
      · exact ⟨ia, ib, hcweak, hweak⟩
      · split
        · exact ⟨ia, ib, hcweak, hweak⟩
        · rename_i h3
          rw [List.getElem?_eq_getElem hpn]
          dsimp only
          refine ⟨by simp [ia], ?_, ?_, ?_⟩
          · rw [List.chain'_append]
            refine ⟨ib, List.chain'_singleton _, ?_⟩
            intro x hx y hy
            simp only [List.head?_cons, Option.mem_def, Option.some.injEq] at hy
            subst hy
            obtain ⟨j, hj, hjn, e⟩ := ic x (List.mem_of_getLast?_eq_some hx)
            subst e
            obtain ⟨m, rfl⟩ : ∃ m, n = m + 1 := ⟨n - 1, by omega⟩
            rw [readTime_pred oob time m hn'] at h3
            have hne : Dbl.beq time[m + 1] time[m] = false := by
              cases hb : Dbl.beq time[m + 1] time[m]
              · rfl
              · exact absurd ⟨Nat.succ_pos m, hb⟩ h3
            have hle := (List.pairwise_iff_getElem.mp hmono) m (m + 1) (by omega) hn' (by omega)
            have hlt := dbl_lt_of_le_of_ne hle hne
            by_cases hjm : j = m
            · subst hjm; exact hlt
            · have hle' := (List.pairwise_iff_getElem.mp hmono) j m hj (by omega) (by omega)
              exact dbl_lt_of_le_of_lt hle' hlt
          · intro t ht
            simp only [List.mem_append, List.mem_singleton] at ht
            rcases ht with ht | ht
            · exact hcweak t ht
            · exact ⟨n, hn', by omega, ht⟩
          · rw [List.zip_append ia, List.take_succ]
            apply List.Sublist.append id
            have hz : (path_coord.zip time)[n]? = some (path_coord[n], time[n]) := by
              rw [List.getElem?_zip_eq_some]
              exact ⟨List.getElem?_eq_getElem hpn, List.getElem?_eq_getElem hn'⟩
            rw [hz]
            exact List.Sublist.refl _

/-- C16: for a path and its parallel list of arrival times (equal lengths), the times
non-decreasing, the times that `sortPath` retains are strictly increasing, so no two
consecutive ones are equal; the retained points and times have the same length and are,
pair by pair and in order, pairs of the input. -/
theorem sortPath_strictly_increasing (oob : Int → Dbl) (path_coord : List Vec3)
    (time : List Dbl) (hlen : path_coord.length = time.length)
    (hmono : List.Chain' (fun a b => Dbl.le a b = true) time) :
    List.Chain' (fun a b => Dbl.lt a b = true) (sortPath oob path_coord time).2 ∧
    List.Chain' (fun a b => Dbl.beq a b = false) (sortPath oob path_coord time).2 ∧
    (sortPath oob path_coord time).1.length = (sortPath oob path_coord time).2.length ∧
    ((sortPath oob path_coord time).1.zip (sortPath oob path_coord time).2).Sublist
      (path_coord.zip time) := by
  haveI : IsTrans Dbl (fun a b => Dbl.le a b = true) := ⟨fun _ _ _ h1 h2 => dbl_le_trans h1 h2⟩
  have hp := List.chain'_iff_pairwise.mp hmono
  obtain ⟨a, b, _, d⟩ := sortPath_prefix_increasing oob path_coord time hlen hp
    path_coord.length (by omega)
  refine ⟨b, b.imp (fun {_ _} h => dbl_ne_of_lt h), a, ?_⟩
  have ht : (path_coord.zip time).take path_coord.length = path_coord.zip time :=
    List.take_of_length_le (by simp [hlen])
  rw [ht] at d
  exact d

/-- C16 at a three-point path with the times `[0, 1, 1]`: the duplicate is dropped. -/
theorem sortPath_strictly_increasing_witness :
    ([⟨0, 0, 0⟩, ⟨1, 0, 0⟩, ⟨2, 0, 0⟩] : List Vec3).length =
      [Dbl.fin 0, Dbl.fin 1, Dbl.fin 1].length ∧
    List.Chain' (fun a b => Dbl.le a b = true) [Dbl.fin 0, Dbl.fin 1, Dbl.fin 1] ∧
    (sortPath (fun _ => Dbl.fin 0) [⟨0, 0, 0⟩, ⟨1, 0, 0⟩, ⟨2, 0, 0⟩]
      [Dbl.fin 0, Dbl.fin 1, Dbl.fin 1]).2 = [Dbl.fin 0, Dbl.fin 1] ∧
    List.Chain' (fun a b => Dbl.lt a b = true)
      (sortPath (fun _ => Dbl.fin 0) [⟨0, 0, 0⟩, ⟨1, 0, 0⟩, ⟨2, 0, 0⟩]
        [Dbl.fin 0, Dbl.fin 1, Dbl.fin 1]).2 := by
  have hm : List.Chain' (fun a b => Dbl.le a b = true) [Dbl.fin 0, Dbl.fin 1, Dbl.fin 1] := by
    simp [Dbl.le]
  have h := sortPath_strictly_increasing (fun _ => Dbl.fin 0)
    [⟨0, 0, 0⟩, ⟨1, 0, 0⟩, ⟨2, 0, 0⟩] [Dbl.fin 0, Dbl.fin 1, Dbl.fin 1] rfl hm
  refine ⟨rfl, hm, ?_, h.1⟩
  simp [sortPath, List.range_succ, sortPathStep, readTime, Dbl.beq, Dbl.isinf]

/-- C17 (amended) at a three-point path with the times `[0, +inf, 1]`: only the time 0 is
retained (the infinite time is dropped, and so is its successor), and it is finite. -/
theorem sortPath_no_infinite_witness :
    (sortPath (fun _ => Dbl.fin 0) [⟨0, 0, 0⟩, ⟨1, 0, 0⟩, ⟨2, 0, 0⟩]
      [Dbl.fin 0, Dbl.posInf, Dbl.fin 1]).2 = [Dbl.fin 0] ∧
    Dbl.fin 0 ∈ (sortPath (fun _ => Dbl.fin 0) [⟨0, 0, 0⟩, ⟨1, 0, 0⟩, ⟨2, 0, 0⟩]
      [Dbl.fin 0, Dbl.posInf, Dbl.fin 1]).2 ∧
    (Dbl.fin 0).isinf = false := by
  have he : (sortPath (fun _ => Dbl.fin 0) [⟨0, 0, 0⟩, ⟨1, 0, 0⟩, ⟨2, 0, 0⟩]
      [Dbl.fin 0, Dbl.posInf, Dbl.fin 1]).2 = [Dbl.fin 0] := by
    simp [sortPath, List.range_succ, sortPathStep, readTime, Dbl.beq, Dbl.isinf]
  have hm : Dbl.fin 0 ∈ (sortPath (fun _ => Dbl.fin 0) [⟨0, 0, 0⟩, ⟨1, 0, 0⟩, ⟨2, 0, 0⟩]
      [Dbl.fin 0, Dbl.posInf, Dbl.fin 1]).2 := by
    rw [he]; exact List.mem_singleton.mpr rfl
  exact ⟨he, hm, sortPath_no_infinite (fun _ => Dbl.fin 0) [⟨0, 0, 0⟩, ⟨1, 0, 0⟩, ⟨2, 0, 0⟩]
    [Dbl.fin 0, Dbl.posInf, Dbl.fin 1] (Dbl.fin 0) hm⟩

/-! ## Claims of the second group: failures of the planning cycle -/

/-- C18: when the path search fails in `fastMarching3D` (no path, or the end of the
reconstructed path farther than one voxel diagonal from the goal), then, if `_has_traj`
and `_is_emerg` are both set, the action of `_traj` becomes `WARN_IMPOSSIBLE`, that message
is published and `_has_traj` is cleared, nothing else changes; otherwise the state is
unchanged: no message is published, the flags and the active trajectory are as before. -/
theorem fastMarching3D_search_failure (env : PlanEnv) (st : Planner)
    (ht : st.has_target = true) (hm : st.has_map = true) (ho : st.has_odom = true)
    (hfail : env.search = none ∨ ∃ path3D time, env.search = some (path3D, time) ∧
      goalMissed env
        (((st.start_pt.toVec3 :: path3D.map (pathPoint env)).getLast?).getD st.start_pt.toVec3)
        st.end_pt = true) :
    (st.has_traj = true ∧ st.is_emerg = true →
      fastMarching3D env st = some
        { st with
          traj := { st.traj with action := TrajAction.WARN_IMPOSSIBLE }
          published := st.published ++ [{ st.traj with action := TrajAction.WARN_IMPOSSIBLE }]
          has_traj := false }) ∧
    (¬ (st.has_traj = true ∧ st.is_emerg = true) → fastMarching3D env st = some st) := by
  have h : fastMarching3D env st = some (abortIfEmergency st) := by
    unfold fastMarching3D
    rw [if_neg (by simp [ht, hm, ho])]
    rcases hfail with h | ⟨path3D, time, h, hg⟩
    · rw [h]
    · rw [h]
      simp only [hg, if_true]
  constructor
  · intro hb
    rw [h, abortIfEmergency, if_pos hb]
  · intro hb
    rw [h, abortIfEmergency, if_neg hb]

/-- C18 at `samplePlanner` when the search finds no path: the trajectory is active and
not in emergency, so the state is unchanged; with the emergency flag set, the abort
message is published. -/
theorem fastMarching3D_search_failure_witness :
    fastMarching3D { samplePlan with search := none } samplePlanner = some samplePlanner ∧
    fastMarching3D { samplePlan with search := none } { samplePlanner with is_emerg := true } =
      some
        { samplePlanner with
          is_emerg := true
          traj := { samplePlanner.traj with action := TrajAction.WARN_IMPOSSIBLE }
          published := samplePlanner.published ++
            [{ samplePlanner.traj with action := TrajAction.WARN_IMPOSSIBLE }]
          has_traj := false } :=
  ⟨(fastMarching3D_search_failure { samplePlan with search := none } samplePlanner rfl rfl rfl
      (Or.inl rfl)).2 (by simp [samplePlanner]),
   (fastMarching3D_search_failure { samplePlan with search := none }
      { samplePlanner with is_emerg := true } rfl rfl rfl (Or.inl rfl)).1 ⟨rfl, rfl⟩⟩

theorem rcvOdometryCallbck_nan (odom : Odometry) (st : Planner)
    (hf : ¬ (odom.child_frame_id = "X" ∨ odom.child_frame_id = "O"))
    (hn : odom.position.x.isnan = true ∨ odom.position.y.isnan = true ∨
      odom.position.z.isnan = true) :
    rcvOdometryCallbck odom st =
      ({ st with odom := odom, has_odom := true, start_pt := odom.position,
                 start_vel := odom.linear }, false) := by
  rw [rcvOdometryCallbck, if_neg hf, if_pos hn]

/-- C20 fails on the code. The message `nanOdom` (position `(NaN, 0, 1)`) is not ignored:
the assignments of lines 1022-1031 precede the NaN test of line 1033, so the stored
odometry and the start position and velocity are overwritten (the start position now
holds the NaN) and `_has_odom` is set, here from `false` to `true`; only the transform
broadcast is skipped. -/
theorem rcvOdometryCallbck_stores_nan :
    nanOdom.position.x.isnan = true ∧
    (rcvOdometryCallbck nanOdom { samplePlanner with has_odom := false }).1.has_odom = true ∧
    (rcvOdometryCallbck nanOdom { samplePlanner with has_odom := false }).1.odom = nanOdom ∧
    (rcvOdometryCallbck nanOdom { samplePlanner with has_odom := false }).1.start_pt =
      ⟨Dbl.nan, Dbl.fin 0, Dbl.fin 1⟩ ∧
    (rcvOdometryCallbck nanOdom { samplePlanner with has_odom := false }).1.start_pt ≠
      samplePlanner.start_pt ∧
    (rcvOdometryCallbck nanOdom { samplePlanner with has_odom := false }).2 = false := by
  have h := rcvOdometryCallbck_nan nanOdom { samplePlanner with has_odom := false }
    (by decide) (Or.inl rfl)
  rw [h]
  refine ⟨rfl, rfl, rfl, rfl, ?_, rfl⟩
  simp [samplePlanner, nanOdom]

theorem pathPoint_sample : pathPoint samplePlan ⟨3 / 2, 3 / 2, 1 / 2⟩ = ⟨-1 / 2, -1 / 2, 1⟩ := by
  norm_num [pathPoint, samplePlan, demoGrid]

theorem seedBlocked_sample :
    seedBlocked demoGrid (seedMatrix demoGrid (generateCube demoGrid ⟨-1 / 2, -1 / 2, 1⟩)) =
      true := by
  have hi : snapIndex demoGrid ⟨-1 / 2, -1 / 2, 1⟩ = ⟨1, 1, 1⟩ := by
    have h := clampedIndex_demo (-1 / 2) (-1 / 2) 1 (by norm_num) (by norm_num)
      (by norm_num) (by norm_num) (by norm_num) (by norm_num)
    rw [floor_three_halves, Int.floor_one] at h
    exact h
  have hcen : snapCenter demoGrid ⟨-1 / 2, -1 / 2, 1⟩ = ⟨-1 / 2, -1 / 2, 3 / 2⟩ := by
    rw [snapCenter, hi]
    norm_num [demoGrid]
  have hc : clampedIndex demoGrid (snapCenter demoGrid ⟨-1 / 2, -1 / 2, 1⟩).x
      (snapCenter demoGrid ⟨-1 / 2, -1 / 2, 1⟩).y
      (snapCenter demoGrid ⟨-1 / 2, -1 / 2, 1⟩).z = ⟨1, 1, 1⟩ := by
    rw [hcen]; exact snapIndex_blocked
  have ho : demoGrid.occupied 1 1 1 = true := by rw [demoGrid_occupied]; decide
  rw [seedMatrix_generateCube, hc]
  simp [seedBlocked, boxVertices, ho]

theorem inflateCube_demo :
    inflateCube demoGrid (generateCube demoGrid ⟨-1 / 2, -1 / 2, 1 / 2⟩) (initialLstcube demoGrid) =
      (⟨boxVertices (-2) 2 (-2) 2 0 2, ⟨-1 / 2, -1 / 2, 1 / 2⟩, true, 0⟩, true) := by
  rw [inflateCube, inflateCubeIdx_demo]

theorem corridorGeneration_sample :
    corridorGeneration demoGrid [⟨-1 / 2, -1 / 2, 1 / 2⟩, ⟨-1 / 2, -1 / 2, 1⟩] [0, 2] =
      [⟨boxVertices (-2) 2 (-2) 2 0 2, ⟨-1 / 2, -1 / 2, 1 / 2⟩, true, 0⟩] := by
  rw [corridorGeneration, corridorSimplify_eq_keptCubes]
  simp only [corridorLoop, inflateCube_demo,
    inflateCube_of_seedBlocked demoGrid _ _ seedBlocked_sample, Bool.true_eq_false, if_false,
    if_true, List.nil_append, List.getD_cons_zero]
  simp [keptCubes]

theorem sortPath_sample :
    sortPath (fun _ => Dbl.fin 0) [⟨-1 / 2, -1 / 2, 1 / 2⟩, ⟨-1 / 2, -1 / 2, 1⟩]
      [Dbl.fin 0, Dbl.fin 2] =
      ([⟨-1 / 2, -1 / 2, 1 / 2⟩, ⟨-1 / 2, -1 / 2, 1⟩], [Dbl.fin 0, Dbl.fin 2]) := by
  simp [sortPath, List.range_succ, sortPathStep, readTime, Dbl.beq, Dbl.isinf]

/-- C19 fails on the code. In the cycle `samplePlan` on `samplePlanner` (a trajectory of
one segment of duration 5 is flown, no emergency) the search succeeds, the corridor has one
cube and the fit fails. `timeAllocation` has by then overwritten `_Time` (lines 1004-1007)
and line 950 has overwritten `_SegNum`: the state after the cycle keeps `_has_traj` set
and the old control points, but its `_Time` is `[2]`, not `[5]`. -/
theorem fastMarching3D_fit_failure_changes_time :
    samplePlanner.has_traj = true ∧ samplePlanner.is_emerg = false ∧
    samplePlan.fitOk = false ∧ samplePlanner.Time = [5] ∧
    ∃ st', fastMarching3D samplePlan samplePlanner = some st' ∧
      st'.has_traj = true ∧ st'.Time = [2] ∧ st'.Time ≠ samplePlanner.Time := by
  have hstart : samplePlanner.start_pt.toVec3 = ⟨-1 / 2, -1 / 2, 1 / 2⟩ := by
    simp [samplePlanner, DVec3.toVec3, Dbl.toRat]
  have hsearch : samplePlan.search = some ([⟨3 / 2, 3 / 2, 1 / 2⟩], [Dbl.fin 2]) := rfl
  have hgoal : goalMissed samplePlan ⟨-1 / 2, -1 / 2, 1⟩ samplePlanner.end_pt = false := by
    norm_num [goalMissed, samplePlan, samplePlanner, demoGrid]
  have hta : timeAllocation [⟨boxVertices (-2) 2 (-2) 2 0 2, ⟨-1 / 2, -1 / 2, 1 / 2⟩, true, 0⟩]
      [0, 2] = some ([⟨boxVertices (-2) 2 (-2) 2 0 2, ⟨-1 / 2, -1 / 2, 1 / 2⟩, true, 2⟩], [2]) := by
    norm_num [timeAllocation]
  have hrun : fastMarching3D samplePlan samplePlanner =
      some (abortIfEmergency
        { samplePlanner with Time := [2], SegNum := 1, PolyCoeff := samplePlan.fitCoeff }) := by
    unfold fastMarching3D
    rw [if_neg (by simp [samplePlanner]), hsearch]
    simp only [List.map_cons, List.map_nil, pathPoint_sample, hstart, List.getLast?_cons_cons,
      List.getLast?_singleton, Option.getD_some, hgoal, Bool.false_eq_true, if_false,
      List.singleton_append, List.reverse_cons, List.reverse_nil, List.nil_append]
    have hoob : samplePlan.oob = fun _ => Dbl.fin 0 := rfl
    have hgrid : samplePlan.grid = demoGrid := rfl
    rw [hoob, hgrid, sortPath_sample]
    simp only [List.map_cons, List.map_nil, Dbl.toRat, corridorGeneration_sample]
    rw [planFit, hta]
    rfl
  refine ⟨rfl, rfl, rfl, rfl, _, hrun, ?_, ?_, ?_⟩
  · simp [abortIfEmergency, samplePlanner]
  · simp [abortIfEmergency, samplePlanner]
  · simp [abortIfEmergency, samplePlanner]
/-! ## The containment test of the inflation -/

theorem sweepStep_iterate_succ (g : GridEnv) (v : Mat8x3 Int) (c : Cube) (j : Nat) :
    (sweepStep g)^[j + 1] (v, c) =
      (sweepStep g)^[j] (sweepFaces g.occupied g.step_length g.max_x g.max_y g.max_z v,
        g.setVertex c
          (vertexCoord g (sweepFaces g.occupied g.step_length g.max_x g.max_y g.max_z v))
          g.resolution) :=
  Function.iterate_succ_apply _ _ _

theorem inflateLoop_rejects_iff (g : GridEnv) (lstcube : Cube) :
    ∀ (n : Nat) (v : Mat8x3 Int) (c : Cube),
      ((inflateLoop g lstcube n v c).1.2 = false ↔
        ∃ k, k < n ∧
          (∀ j, j ≤ k → ((sweepStep g)^[j] (v, c)).1 ≠ ((sweepStep g)^[j + 1] (v, c)).1) ∧
          isContains lstcube ((sweepStep g)^[k + 1] (v, c)).2 = true) ∧
      ((inflateLoop g lstcube n v c).1.2 = false → (inflateLoop g lstcube n v c).1.1 = lstcube) := by
  intro n
  induction n with
  | zero =>
    intro v c
    simp [inflateLoop]
  | succ n ih =>
    intro v c
    rw [inflateLoop]
    by_cases h1 : v = sweepFaces g.occupied g.step_length g.max_x g.max_y g.max_z v
    · rw [if_pos h1]
      refine ⟨⟨fun h => by simp at h, ?_⟩, fun h => by simp at h⟩
      rintro ⟨k, _, hch, _⟩
      exact absurd h1 (hch 0 (Nat.zero_le k))
    · rw [if_neg h1]
      by_cases h2 : isContains lstcube
          (g.setVertex c
            (vertexCoord g (sweepFaces g.occupied g.step_length g.max_x g.max_y g.max_z v))
            g.resolution) = true
      · rw [if_pos h2]
        refine ⟨⟨fun _ => ⟨0, Nat.succ_pos n, ?_, h2⟩, fun _ => rfl⟩, fun _ => rfl⟩
        intro j hj
        have hj0 : j = 0 := by omega
        subst hj0
        exact h1
      · rw [if_neg h2]
        obtain ⟨ih1, ih2⟩ := ih
          (sweepFaces g.occupied g.step_length g.max_x g.max_y g.max_z v)
          (g.setVertex c
            (vertexCoord g (sweepFaces g.occupied g.step_length g.max_x g.max_y g.max_z v))
            g.resolution)
        refine ⟨?_, ih2⟩
        rw [ih1]
        constructor
        · rintro ⟨k, hk, hch, hc⟩
          refine ⟨k + 1, by omega, ?_, ?_⟩
          · intro j hj
            cases j with
            | zero => exact h1
            | succ j =>
              rw [sweepStep_iterate_succ g v c j, sweepStep_iterate_succ g v c (j + 1)]
              exact hch j (by omega)
          · rw [sweepStep_iterate_succ g v c (k + 1)]
            exact hc
        · rintro ⟨k, hk, hch, hc⟩
          cases k with
          | zero => exact absurd hc h2
          | succ k =>
            refine ⟨k, by omega, ?_, ?_⟩
            · intro j hj
              have := hch (j + 1) (by omega)
              rw [sweepStep_iterate_succ g v c j, sweepStep_iterate_succ g v c (j + 1)] at this
              exact this
            · rw [sweepStep_iterate_succ g v c (k + 1)] at hc
              exact hc

/-- C21 (amended): the containment test of `inflateCube` is `isContains(lstcube, cubeMax)`,
the last cube containing the inflated box. For a seed that passes the seed test,
`inflateCube` returns failure exactly when, within `_max_inflate_iter` passes, some pass
whose sweep (like every sweep before it) changed the index matrix leaves a box that
`lstcube` contains; and every failure then returns `lstcube` itself. -/
theorem inflateCube_rejects_iff_lstcube_contains (g : GridEnv) (cube lstcube : Cube)
    (hseed : seedBlocked g (seedMatrix g cube) = false) :
    ((inflateCube g cube lstcube).2 = false ↔
      ∃ k, k < g.max_inflate_iter.toNat ∧
        (∀ j, j ≤ k → (boxAfter g cube j).1 ≠ (boxAfter g cube (j + 1)).1) ∧
        isContains lstcube (boxAfter g cube (k + 1)).2 = true) ∧
    ((inflateCube g cube lstcube).2 = false → inflateCube g cube lstcube = (lstcube, false)) := by
  have h := inflateLoop_rejects_iff g lstcube g.max_inflate_iter.toNat (seedMatrix g cube) cube
  have he : inflateCube g cube lstcube =
      (inflateLoop g lstcube g.max_inflate_iter.toNat (seedMatrix g cube) cube).1 := by
    rw [inflateCube, inflateCubeIdx, hseed]
    simp
  rw [he]
  refine ⟨h.1, fun hf => ?_⟩
  exact Prod.ext (h.2 hf) hf
theorem isContains_cellCube (c : Cube) (m : Mat8x3 ℚ) (h : 0 < m.x0 + 1 / 2) :
    isContains cellCube (demoGrid.setVertex c m demoGrid.resolution) = false := by
  have h1 : cellCube.vertex.x0 = 0 := rfl
  have h2 : (demoGrid.setVertex c m demoGrid.resolution).vertex.x0 = m.x0 + 1 / 2 := by
    simp [demoGrid, padVertex]
  simp only [isContains, h1, h2, Bool.and_eq_false_iff, decide_eq_false_iff_not, not_le, ge_iff_le]
  left; left; left; left; left
  exact h

theorem vertexCoord_x0_pos (v : Mat8x3 Int) (h : 2 ≤ v.x0) :
    0 < (vertexCoord demoGrid v).x0 + 1 / 2 := by
  have h1 : (2 : Int) ≤ max (min v.x0 (demoGrid.max_x - 1)) 0 := by
    have : demoGrid.max_x = 4 := rfl
    rw [this]
    omega
  have h2 : (2 : ℚ) ≤ ((max (min v.x0 (demoGrid.max_x - 1)) 0 : Int) : ℚ) := by
    exact_mod_cast h1
  have e : (vertexCoord demoGrid v).x0 =
      ((max (min v.x0 (demoGrid.max_x - 1)) 0 : Int) : ℚ) + 1 / 2 - 2 := rfl
  rw [e]
  linarith

theorem boxAfter_demo_one :
    boxAfter demoGrid (generateCube demoGrid ⟨-1 / 2, -1 / 2, 1 / 2⟩) 1 =
      (boxVertices 0 2 0 2 0 1,
        ⟨boxVertices (-2) 1 (-2) 1 0 2, ⟨-1 / 2, -1 / 2, 1 / 2⟩, true, 0⟩) := by
  rw [boxAfter, Function.iterate_one, sweepStep]
  dsimp only
  rw [seedMatrix_demo, sweep_demo_1, generateCube_demo]
  norm_num [demoGrid, padVertex, vertexCoord, vertexPos, boxVertices]

theorem boxAfter_demo_zero :
    (boxAfter demoGrid (generateCube demoGrid ⟨-1 / 2, -1 / 2, 1 / 2⟩) 0).1 =
      boxVertices 1 1 1 1 0 0 := by
  rw [boxAfter, Function.iterate_zero, id]
  exact seedMatrix_demo

theorem seedBlocked_demo :
    seedBlocked demoGrid (seedMatrix demoGrid (generateCube demoGrid ⟨-1 / 2, -1 / 2, 1 / 2⟩)) =
      false := by
  rw [seedMatrix_demo]
  simp only [seedBlocked, demoGrid_occupied]
  decide

/-- C21 as stated fails: on `demoGrid`, with the seed at the voxel `(1, 1, 0)` and the
last cube `cellCube` (the cell of that voxel), the box after the first full sweep,
`[-2, 1] × [-2, 1] × [0, 2]`, contains the last cube, and so does the returned box
`[-2, 2] × [-2, 2] × [0, 2]`; yet `inflateCube` returns that box with success, not the
last cube with failure. -/
theorem inflateCube_accepts_box_containing_lstcube :
    isContains (boxAfter demoGrid (generateCube demoGrid ⟨-1 / 2, -1 / 2, 1 / 2⟩) 1).2
      cellCube = true ∧
    inflateCube demoGrid (generateCube demoGrid ⟨-1 / 2, -1 / 2, 1 / 2⟩) cellCube =
      (⟨boxVertices (-2) 2 (-2) 2 0 2, ⟨-1 / 2, -1 / 2, 1 / 2⟩, true, 0⟩, true) ∧
    isContains ⟨boxVertices (-2) 2 (-2) 2 0 2, ⟨-1 / 2, -1 / 2, 1 / 2⟩, true, 0⟩ cellCube =
      true := by
  refine ⟨?_, ?_, ?_⟩
  · rw [boxAfter_demo_one]
    norm_num [isContains, cellCube, boxVertices]
  · have hn : demoGrid.max_inflate_iter.toNat = 96 + 1 + 1 + 1 + 1 := rfl
    unfold inflateCube inflateCubeIdx
    rw [seedBlocked_demo, seedMatrix_demo, hn]
    simp only [Bool.false_eq_true, if_false]
    rw [inflateLoop_continue _ _ _ _ _ _ sweep_demo_1 (by decide)
        (isContains_cellCube _ _ (vertexCoord_x0_pos _ (by decide))),
      inflateLoop_continue _ _ _ _ _ _ sweep_demo_2 (by decide)
        (isContains_cellCube _ _ (vertexCoord_x0_pos _ (by decide))),
      inflateLoop_continue _ _ _ _ _ _ sweep_demo_3 (by decide)
        (isContains_cellCube _ _ (vertexCoord_x0_pos _ (by decide))),
      inflateLoop_stop _ _ _ _ _ sweep_demo_4, generateCube_demo]
    norm_num [demoGrid, padVertex, vertexCoord, vertexPos, boxVertices]
  · norm_num [isContains, cellCube, boxVertices]

/-- C21 (amended) on `demoGrid` with the seed at the voxel `(1, 1, 0)` and the last cube
`mapCube`: the first sweep changes the index matrix and the last cube contains the box
`[-2, 1] × [-2, 1] × [0, 2]`, so `inflateCube` returns the last cube with failure. -/
theorem inflateCube_rejects_iff_lstcube_contains_witness :
    seedBlocked demoGrid (seedMatrix demoGrid (generateCube demoGrid ⟨-1 / 2, -1 / 2, 1 / 2⟩)) =
      false ∧
    inflateCube demoGrid (generateCube demoGrid ⟨-1 / 2, -1 / 2, 1 / 2⟩) mapCube =
      (mapCube, false) :=
  have h := inflateCube_rejects_iff_lstcube_contains demoGrid
    (generateCube demoGrid ⟨-1 / 2, -1 / 2, 1 / 2⟩) mapCube seedBlocked_demo
  have hch : ∀ j, j ≤ 0 →
      (boxAfter demoGrid (generateCube demoGrid ⟨-1 / 2, -1 / 2, 1 / 2⟩) j).1 ≠
        (boxAfter demoGrid (generateCube demoGrid ⟨-1 / 2, -1 / 2, 1 / 2⟩) (j + 1)).1 := by
    intro j hj
    have hj0 : j = 0 := by omega
    subst hj0
    rw [boxAfter_demo_zero, boxAfter_demo_one]
    decide
  have hc : isContains mapCube
      (boxAfter demoGrid (generateCube demoGrid ⟨-1 / 2, -1 / 2, 1 / 2⟩) (0 + 1)).2 = true := by
    rw [boxAfter_demo_one]
    norm_num [isContains, mapCube, boxVertices]
  ⟨seedBlocked_demo, h.2 (h.1.mpr ⟨0, by decide, hch, hc⟩)⟩
/-! ## Derivatives of the Bezier state -/

theorem list_range_map_sum (f : Nat → ℚ) (n : Nat) :
    ((List.range n).map f).sum = ∑ j ∈ Finset.range n, f j := by
  induction n with
  | zero => simp
  | succ n ih =>
    rw [List.range_succ, List.map_append, List.sum_append, ih, Finset.sum_range_succ]
    simp

theorem sum_range_guard (g : Nat → ℚ) (m N : Nat) (h : m ≤ N) :
    ∑ j ∈ Finset.range N, (if j < m then g j else 0) = ∑ j ∈ Finset.range m, g j := by
  rw [← Finset.sum_filter]
  congr 1
  ext j
  simp only [Finset.mem_filter, Finset.mem_range]
  omega

theorem bernstein_derivative (m : Nat) (d : Nat → ℚ) :
    Polynomial.derivative
        (∑ j ∈ Finset.range (m + 1), Polynomial.C (d j) * bernsteinPolynomial ℚ m j) =
      Polynomial.C (m : ℚ) *
        ∑ j ∈ Finset.range (m - 1 + 1),
          Polynomial.C (d (j + 1) - d j) * bernsteinPolynomial ℚ (m - 1) j := by
  cases m with
  | zero => simp [bernsteinPolynomial]
  | succ k =>
    have key : ∑ j ∈ Finset.range (k + 1),
          Polynomial.C (d (j + 1)) * bernsteinPolynomial ℚ k (j + 1) +
        Polynomial.C (d 0) * bernsteinPolynomial ℚ k 0 =
        ∑ j ∈ Finset.range (k + 1), Polynomial.C (d j) * bernsteinPolynomial ℚ k j := by
      rw [← Finset.sum_range_succ' (fun j => Polynomial.C (d j) * bernsteinPolynomial ℚ k j),
        Finset.sum_range_succ, bernsteinPolynomial.eq_zero_of_lt ℚ (Nat.lt_succ_self k)]
      simp
    rw [Polynomial.derivative_sum, Finset.sum_range_succ']
    simp only [Polynomial.derivative_C_mul, bernsteinPolynomial.derivative_succ,
      bernsteinPolynomial.derivative_zero, Nat.add_sub_cancel, Polynomial.C_sub,
      sub_mul, mul_sub, Finset.sum_sub_distrib, ← Finset.mul_sum, Polynomial.C_eq_natCast]
    have e1 : ∀ j, Polynomial.C (d (j + 1)) * ((((k + 1 : Nat) : Polynomial ℚ)) *
        bernsteinPolynomial ℚ k j) = ((k + 1 : Nat) : Polynomial ℚ) *
          (Polynomial.C (d (j + 1)) * bernsteinPolynomial ℚ k j) := fun j => by ring
    have e2 : ∀ j, Polynomial.C (d (j + 1)) * ((((k + 1 : Nat) : Polynomial ℚ)) *
        bernsteinPolynomial ℚ k (j + 1)) = ((k + 1 : Nat) : Polynomial ℚ) *
          (Polynomial.C (d (j + 1)) * bernsteinPolynomial ℚ k (j + 1)) := fun j => by ring
    simp only [e1, e2, ← Finset.mul_sum]
    linear_combination (-((k + 1 : Nat) : Polynomial ℚ)) * key
theorem bernsteinSum_eq_eval (m : Nat) (d : Nat → ℚ) (t : ℚ) :
    bernsteinSum m d t =
      Polynomial.eval t
        (∑ j ∈ Finset.range (m + 1), Polynomial.C (d j) * bernsteinPolynomial ℚ m j) := by
  simp [bernsteinSum, Polynomial.eval_finset_sum, bernsteinPolynomial]

theorem bernsteinSum_hasDerivAt (m : Nat) (d : Nat → ℚ) (t : ℚ) :
    HasDerivAt (fun s => bernsteinSum m d s)
      ((m : ℚ) * bernsteinSum (m - 1) (fun j => d (j + 1) - d j) t) t := by
  have h := Polynomial.hasDerivAt
    (∑ j ∈ Finset.range (m + 1), Polynomial.C (d j) * bernsteinPolynomial ℚ m j) t
  rw [bernstein_derivative, Polynomial.eval_mul, Polynomial.eval_C,
    ← bernsteinSum_eq_eval (m - 1) (fun j => d (j + 1) - d j) t] at h
  have e : (fun s => bernsteinSum m d s) = fun s => Polynomial.eval s
      (∑ j ∈ Finset.range (m + 1), Polynomial.C (d j) * bernsteinPolynomial ℚ m j) :=
    funext (bernsteinSum_eq_eval m d)
  rw [e]
  exact h

theorem bezierAxis_eq_bernsteinSum (C : Nat → ℚ) (n : Nat) (polyCoeff : MatrixXd)
    (seg_now i : Nat) (t : ℚ) (hcols : polyCoeff.cols / 3 = n + 1)
    (hC : ∀ j, j ≤ n → C j = (Nat.choose n j : ℚ)) :
    bezierAxis C n polyCoeff t seg_now i =
      bernsteinSum n (fun j => polyCoeff.entry seg_now (i * (n + 1) + j)) t := by
  rw [bezierAxis, list_range_map_sum, hcols, bernsteinSum]
  apply Finset.sum_congr rfl
  intro j hj
  have hj' : j ≤ n := by
    have := Finset.mem_range.mp hj
    omega
  have he : (n : Int) - (j : Int) = ((n - j : Nat) : Int) := by omega
  rw [hC j hj', he, zpow_natCast]
  ring

theorem velAxis_eq_bernsteinSum (Cv : Nat → ℚ) (n : Nat) (polyCoeff : MatrixXd)
    (seg_now i : Nat) (t : ℚ) (hcols : polyCoeff.cols / 3 = n + 1)
    (hCv : ∀ j, j + 1 ≤ n → Cv j = (Nat.choose (n - 1) j : ℚ)) :
    velAxis Cv n polyCoeff t seg_now i =
      (n : ℚ) * bernsteinSum (n - 1)
        (fun j => polyCoeff.entry seg_now (i * (n + 1) + (j + 1)) -
          polyCoeff.entry seg_now (i * (n + 1) + j)) t := by
  rw [velAxis, list_range_map_sum, hcols]
  cases n with
  | zero => simp
  | succ k =>
    have hg : ∀ j : Nat, ((j : Int) < ((k + 1 + 1 : Nat) : Int) - 1) = (j < k + 1) := by
      intro j
      apply propext
      constructor <;> intro h <;> omega
    simp only [hg]
    rw [sum_range_guard _ (k + 1) (k + 1 + 1) (by omega), bernsteinSum, Finset.mul_sum]
    apply Finset.sum_congr rfl
    intro j hj
    have hj' : j < k + 1 := Finset.mem_range.mp hj
    have he : ((k + 1 : Nat) : Int) - (j : Int) - 1 = ((k + 1 - 1 - j : Nat) : Int) := by omega
    rw [hCv j (by omega), he, zpow_natCast]
    simp only [Nat.add_sub_cancel, Nat.add_assoc]
    ring

theorem accAxis_eq_bernsteinSum (Ca : Nat → ℚ) (n : Nat) (polyCoeff : MatrixXd)
    (seg_now i : Nat) (t : ℚ) (hcols : polyCoeff.cols / 3 = n + 1)
    (hCa : ∀ j, j + 2 ≤ n → Ca j = (Nat.choose (n - 2) j : ℚ)) :
    accAxis Ca n polyCoeff t seg_now i =
      (n : ℚ) * (((n - 1 : Nat) : ℚ) * bernsteinSum (n - 1 - 1)
        (fun j => (polyCoeff.entry seg_now (i * (n + 1) + (j + 1 + 1)) -
            polyCoeff.entry seg_now (i * (n + 1) + (j + 1))) -
          (polyCoeff.entry seg_now (i * (n + 1) + (j + 1)) -
            polyCoeff.entry seg_now (i * (n + 1) + j))) t) := by
  rw [accAxis, list_range_map_sum, hcols]
  have hg : ∀ j : Nat, ((j : Int) < ((n + 1 : Nat) : Int) - 2) = (j < n - 1) := by
    intro j
    apply propext
    constructor <;> intro h <;> omega
  simp only [hg]
  rw [sum_range_guard _ (n - 1) (n + 1) (by omega)]
  rcases Nat.lt_or_ge n 2 with hn | hn
  · have h0 : n - 1 = 0 := by omega
    simp [h0]
  · obtain ⟨k, rfl⟩ : ∃ k, n = k + 2 := ⟨n - 2, by omega⟩
    have h1 : k + 2 - 1 = k + 1 := rfl
    have h2 : k + 1 - 1 = k := rfl
    rw [h1, h2, bernsteinSum, Finset.mul_sum, Finset.mul_sum]
    apply Finset.sum_congr rfl
    intro j hj
    have hj' : j < k + 1 := Finset.mem_range.mp hj
    have he : ((k + 2 : Nat) : Int) - (j : Int) - 2 = ((k - j : Nat) : Int) := by omega
    have hc : (((k + 2 : Nat) : Int) - 1 : Int) = ((k + 1 : Nat) : Int) := by omega
    rw [hCa j (by omega), he, zpow_natCast, hc]
    simp only [Nat.add_sub_cancel, Nat.add_assoc, Int.cast_natCast]
    push_cast
    ring

theorem jerkAxis_eq_bernsteinSum (Cj : Nat → ℚ) (n : Nat) (polyCoeff : MatrixXd)
    (seg_now i : Nat) (t : ℚ) (hcols : polyCoeff.cols / 3 = n + 1)
    (hCj : ∀ j, j + 3 ≤ n → Cj j = (Nat.choose (n - 3) j : ℚ)) :
    jerkAxis Cj n polyCoeff t seg_now i =
      (n : ℚ) * (((n - 1 : Nat) : ℚ) * (((n - 1 - 1 : Nat) : ℚ) * bernsteinSum (n - 1 - 1 - 1)
        (fun j => ((polyCoeff.entry seg_now (i * (n + 1) + (j + 1 + 1 + 1)) -
              polyCoeff.entry seg_now (i * (n + 1) + (j + 1 + 1))) -
            (polyCoeff.entry seg_now (i * (n + 1) + (j + 1 + 1)) -
              polyCoeff.entry seg_now (i * (n + 1) + (j + 1)))) -
          ((polyCoeff.entry seg_now (i * (n + 1) + (j + 1 + 1)) -
              polyCoeff.entry seg_now (i * (n + 1) + (j + 1))) -
            (polyCoeff.entry seg_now (i * (n + 1) + (j + 1)) -
              polyCoeff.entry seg_now (i * (n + 1) + j)))) t)) := by
  rw [jerkAxis, list_range_map_sum, hcols]
  have hg : ∀ j : Nat, ((j : Int) < ((n + 1 : Nat) : Int) - 3) = (j < n - 2) := by
    intro j
    apply propext
    constructor <;> intro h <;> omega
  simp only [hg]
  rw [sum_range_guard _ (n - 2) (n + 1) (by omega)]
  rcases Nat.lt_or_ge n 3 with hn | hn
  · have h0 : n - 2 = 0 := by omega
    have h1 : n - 1 - 1 = 0 := by omega
    simp [h0, h1]
  · obtain ⟨k, rfl⟩ : ∃ k, n = k + 3 := ⟨n - 3, by omega⟩
    have h1 : k + 3 - 2 = k + 1 := rfl
    have h2 : k + 3 - 1 - 1 - 1 = k := rfl
    have h3 : k + 3 - 1 = k + 2 := rfl
    have h4 : k + 3 - 1 - 1 = k + 1 := rfl
    have h5 : k + 3 - 3 = k := rfl
    rw [h1, h2, h4, h3, bernsteinSum, Finset.mul_sum, Finset.mul_sum, Finset.mul_sum]
    apply Finset.sum_congr rfl
    intro j hj
    have hj' : j < k + 1 := Finset.mem_range.mp hj
    have he : ((k + 3 : Nat) : Int) - (j : Int) - 3 = ((k - j : Nat) : Int) := by omega
    have hc : (((k + 3 : Nat) : Int) - 1 : Int) = ((k + 2 : Nat) : Int) := by omega
    have hc2 : (((k + 3 : Nat) : Int) - 2 : Int) = ((k + 1 : Nat) : Int) := by omega
    rw [hCj j (by omega), he, zpow_natCast, hc, hc2, h5]
    simp only [Nat.add_assoc, Int.cast_natCast]
    push_cast
    ring
theorem stateAxis_hasDerivAt (C Cv Ca Cj : Nat → ℚ) (n : Nat) (polyCoeff : MatrixXd)
    (seg_now i : Nat) (hcols : polyCoeff.cols / 3 = n + 1)
    (hC : ∀ j, j ≤ n → C j = (Nat.choose n j : ℚ))
    (hCv : ∀ j, j + 1 ≤ n → Cv j = (Nat.choose (n - 1) j : ℚ))
    (hCa : ∀ j, j + 2 ≤ n → Ca j = (Nat.choose (n - 2) j : ℚ))
    (hCj : ∀ j, j + 3 ≤ n → Cj j = (Nat.choose (n - 3) j : ℚ)) (t : ℚ) :
    HasDerivAt (fun s => bezierAxis C n polyCoeff s seg_now i)
      (velAxis Cv n polyCoeff t seg_now i) t ∧
    HasDerivAt (fun s => velAxis Cv n polyCoeff s seg_now i)
      (accAxis Ca n polyCoeff t seg_now i) t ∧
    HasDerivAt (fun s => accAxis Ca n polyCoeff s seg_now i)
      (jerkAxis Cj n polyCoeff t seg_now i) t := by
  refine ⟨?_, ?_, ?_⟩
  · have e : (fun s => bezierAxis C n polyCoeff s seg_now i) = fun s =>
        bernsteinSum n (fun j => polyCoeff.entry seg_now (i * (n + 1) + j)) s :=
      funext (fun s => bezierAxis_eq_bernsteinSum C n polyCoeff seg_now i s hcols hC)
    rw [e, velAxis_eq_bernsteinSum Cv n polyCoeff seg_now i t hcols hCv]
    exact bernsteinSum_hasDerivAt n _ t
  · have e : (fun s => velAxis Cv n polyCoeff s seg_now i) = fun s =>
        (n : ℚ) * bernsteinSum (n - 1)
          (fun j => polyCoeff.entry seg_now (i * (n + 1) + (j + 1)) -
            polyCoeff.entry seg_now (i * (n + 1) + j)) s :=
      funext (fun s => velAxis_eq_bernsteinSum Cv n polyCoeff seg_now i s hcols hCv)
    rw [e, accAxis_eq_bernsteinSum Ca n polyCoeff seg_now i t hcols hCa]
    exact (bernsteinSum_hasDerivAt (n - 1) _ t).const_mul (n : ℚ)
  · have e : (fun s => accAxis Ca n polyCoeff s seg_now i) = fun s =>
        (n : ℚ) * (((n - 1 : Nat) : ℚ) * bernsteinSum (n - 1 - 1)
          (fun j => (polyCoeff.entry seg_now (i * (n + 1) + (j + 1 + 1)) -
              polyCoeff.entry seg_now (i * (n + 1) + (j + 1))) -
            (polyCoeff.entry seg_now (i * (n + 1) + (j + 1)) -
              polyCoeff.entry seg_now (i * (n + 1) + j))) s) :=
      funext (fun s => accAxis_eq_bernsteinSum Ca n polyCoeff seg_now i s hcols hCa)
    rw [e, jerkAxis_eq_bernsteinSum Cj n polyCoeff seg_now i t hcols hCj]
    exact ((bernsteinSum_hasDerivAt (n - 1 - 1) _ t).const_mul ((n - 1 : Nat) : ℚ)).const_mul
      (n : ℚ)

theorem iteratedDeriv_of_chain (p v a j : ℚ → ℚ) (hv : ∀ s, HasDerivAt p (v s) s)
    (ha : ∀ s, HasDerivAt v (a s) s) (hj : ∀ s, HasDerivAt a (j s) s) (t : ℚ) :
    iteratedDeriv 1 p t = v t ∧ iteratedDeriv 2 p t = a t ∧ iteratedDeriv 3 p t = j t := by
  have e1 : deriv p = v := funext (fun s => (hv s).deriv)
  have e2 : deriv v = a := funext (fun s => (ha s).deriv)
  have e3 : deriv a = j := funext (fun s => (hj s).deriv)
  refine ⟨?_, ?_, ?_⟩
  · rw [iteratedDeriv_one, e1]
  · rw [iteratedDeriv_succ, iteratedDeriv_one, e1, e2]
  · rw [iteratedDeriv_succ, iteratedDeriv_succ, iteratedDeriv_one, e1, e2, e3]

/-- C22: with `n + 1` control points per axis and the basis constants `_C`, `_Cv`, `_Ca`,
`_Cj` equal to the binomial coefficients of the orders `n`, `n - 1`, `n - 2`, `n - 3` on
the entries that are read, for each axis `i` and every normalized time `t` the velocity,
acceleration and jerk entries of `getStateFromBezier` are the first, second and third
derivatives with respect to `t` of its position entry: each block is the derivative of the
block before it. This holds for every order `n`, so for every `n ≥ 1`. -/
theorem getStateFromBezier_derivatives (C Cv Ca Cj : Nat → ℚ) (n : Nat) (polyCoeff : MatrixXd)
    (seg_now i : Nat) (t : ℚ) (hcols : polyCoeff.cols / 3 = n + 1) (hi : i < 3)
    (hC : ∀ j, j ≤ n → C j = (Nat.choose n j : ℚ))
    (hCv : ∀ j, j + 1 ≤ n → Cv j = (Nat.choose (n - 1) j : ℚ))
    (hCa : ∀ j, j + 2 ≤ n → Ca j = (Nat.choose (n - 2) j : ℚ))
    (hCj : ∀ j, j + 3 ≤ n → Cj j = (Nat.choose (n - 3) j : ℚ)) :
    HasDerivAt (fun s => (getStateFromBezier C Cv Ca Cj n polyCoeff s seg_now).getD i 0)
      ((getStateFromBezier C Cv Ca Cj n polyCoeff t seg_now).getD (i + 3) 0) t ∧
    HasDerivAt (fun s => (getStateFromBezier C Cv Ca Cj n polyCoeff s seg_now).getD (i + 3) 0)
      ((getStateFromBezier C Cv Ca Cj n polyCoeff t seg_now).getD (i + 6) 0) t ∧
    HasDerivAt (fun s => (getStateFromBezier C Cv Ca Cj n polyCoeff s seg_now).getD (i + 6) 0)
      ((getStateFromBezier C Cv Ca Cj n polyCoeff t seg_now).getD (i + 9) 0) t ∧
    iteratedDeriv 1 (fun s => (getStateFromBezier C Cv Ca Cj n polyCoeff s seg_now).getD i 0) t =
      (getStateFromBezier C Cv Ca Cj n polyCoeff t seg_now).getD (i + 3) 0 ∧
    iteratedDeriv 2 (fun s => (getStateFromBezier C Cv Ca Cj n polyCoeff s seg_now).getD i 0) t =
      (getStateFromBezier C Cv Ca Cj n polyCoeff t seg_now).getD (i + 6) 0 ∧
    iteratedDeriv 3 (fun s => (getStateFromBezier C Cv Ca Cj n polyCoeff s seg_now).getD i 0) t =
      (getStateFromBezier C Cv Ca Cj n polyCoeff t seg_now).getD (i + 9) 0 := by
  have h := fun k s => stateAxis_hasDerivAt C Cv Ca Cj n polyCoeff seg_now k hcols hC hCv hCa hCj s
  interval_cases i
  · exact ⟨(h 0 t).1, (h 0 t).2.1, (h 0 t).2.2,
      iteratedDeriv_of_chain _ _ _ _ (fun s => (h 0 s).1) (fun s => (h 0 s).2.1)
        (fun s => (h 0 s).2.2) t⟩
  · exact ⟨(h 1 t).1, (h 1 t).2.1, (h 1 t).2.2,
      iteratedDeriv_of_chain _ _ _ _ (fun s => (h 1 s).1) (fun s => (h 1 s).2.1)
        (fun s => (h 1 s).2.2) t⟩
  · exact ⟨(h 2 t).1, (h 2 t).2.1, (h 2 t).2.2,
      iteratedDeriv_of_chain _ _ _ _ (fun s => (h 2 s).1) (fun s => (h 2 s).2.1)
        (fun s => (h 2 s).2.2) t⟩

theorem getStateFromBezier_cubic :
    getStateFromBezier (fun j => (Nat.choose 3 j : ℚ))
        (fun j => (Nat.choose 2 j : ℚ)) (fun j => (Nat.choose 1 j : ℚ))
        (fun j => (Nat.choose 0 j : ℚ)) 3 cubicPoly (1 / 2) 0 =
      [27 / 4, 715 / 4, 3515 / 4, 51 / 2, 555 / 2, 1635 / 2, 54, 198, 342, 36, 36, 36] := by
  simp [getStateFromBezier, bezierAxis, velAxis, accAxis, jerkAxis, cubicPoly, List.range_succ,
    Nat.choose]
  norm_num

/-- C22 at the order 3, with the control points `cubicPoly`, on the axis 0 at
`t = 1 / 2`: the state there, and its velocity entry `51 / 2` as the derivative of the
position entry. -/
theorem getStateFromBezier_derivatives_witness :
    cubicPoly.cols / 3 = 3 + 1 ∧
    getStateFromBezier (fun j => (Nat.choose 3 j : ℚ))
        (fun j => (Nat.choose 2 j : ℚ)) (fun j => (Nat.choose 1 j : ℚ))
        (fun j => (Nat.choose 0 j : ℚ)) 3 cubicPoly (1 / 2) 0 =
      [27 / 4, 715 / 4, 3515 / 4, 51 / 2, 555 / 2, 1635 / 2, 54, 198, 342, 36, 36, 36] ∧
    HasDerivAt (fun s => (getStateFromBezier (fun j => (Nat.choose 3 j : ℚ))
        (fun j => (Nat.choose 2 j : ℚ)) (fun j => (Nat.choose 1 j : ℚ))
        (fun j => (Nat.choose 0 j : ℚ)) 3 cubicPoly s 0).getD 0 0)
      ((getStateFromBezier (fun j => (Nat.choose 3 j : ℚ))
        (fun j => (Nat.choose 2 j : ℚ)) (fun j => (Nat.choose 1 j : ℚ))
        (fun j => (Nat.choose 0 j : ℚ)) 3 cubicPoly (1 / 2) 0).getD (0 + 3) 0) (1 / 2) :=
  ⟨rfl, getStateFromBezier_cubic, (getStateFromBezier_derivatives (fun j => (Nat.choose 3 j : ℚ))
    (fun j => (Nat.choose 2 j : ℚ)) (fun j => (Nat.choose 1 j : ℚ))
    (fun j => (Nat.choose 0 j : ℚ)) 3 cubicPoly 0 0 (1 / 2) rfl (by decide)
    (fun _ _ => rfl) (fun _ _ => rfl) (fun _ _ => rfl) (fun _ _ => rfl)).1⟩
theorem sortPathStepReads_succ (oob : Int → Dbl) (time : List Dbl) (k : Nat) :
    (-1 : Int) ∉ sortPathStepReads oob time (k + 1) := by
  unfold sortPathStepReads
  intro h
  split_ifs at h <;> simp at h <;> omega

theorem sortPathStepReads_zero (oob : Int → Dbl) (time : List Dbl) :
    (-1 : Int) ∈ sortPathStepReads oob time 0 ↔ (readTime oob time 0).isinf = false := by
  unfold sortPathStepReads
  split_ifs <;> simp_all

/-- C23 fails on the code. Whenever the path is not empty and the first time is not
infinite, `sortPath` reads `time[-1]`: at `i = 0` the test
`isinf(time[i]) || isinf(time[i-1])` evaluates its second operand. The index `-1` is read
exactly in this case. -/
theorem sortPath_reads_before_start (oob : Int → Dbl) (p : Vec3) (path_coord : List Vec3)
    (t : Dbl) (time : List Dbl) :
    (-1 : Int) ∈ sortPathReads oob (p :: path_coord) (t :: time) ↔ t.isinf = false := by
  have h0 : readTime oob (t :: time) 0 = t := by simp [readTime]
  have h1 := sortPathStepReads_zero oob (t :: time)
  rw [h0] at h1
  unfold sortPathReads
  rw [List.length_cons, List.range_succ_eq_map, List.flatMap_cons, List.mem_append, h1]
  constructor
  · rintro (h | h)
    · exact h
    · rw [List.mem_flatMap] at h
      obtain ⟨a, ha, hm⟩ := h
      rw [List.mem_map] at ha
      obtain ⟨k, _, rfl⟩ := ha
      exact absurd hm (sortPathStepReads_succ oob (t :: time) k)
  · exact Or.inl

/-! ## The monitor past the end of the trajectory -/

/-- In double arithmetic an elapsed time equal to the sum of the durations can leave a
sample to evaluate. With the durations `[1.2, 1.0, 1.3]` (as doubles; their sum is exactly
`3.5`) and the elapsed time `3.5`, the first subtraction of the location loop,
`3.5 - 1.2`, is rounded down, the loop ends at the final segment with
`t_s = 1.2999999999999998`, just below `_Time(2)`, and the walk evaluates one sample; on a
grid that is occupied there `checkExecTraj` returns true and sets `_is_emerg`. -/
theorem checkExecTraj_rounded_remainder :
    (∀ i < roundedEnv.SegNum, 0 ≤ roundedEnv.time i) ∧
    ∑ i ∈ Finset.range roundedEnv.SegNum, roundedEnv.time i = 7 / 2 ∧
    locateSegment roundedEnv roundedEnv.SegNum 0 (max 0 (7 / 2)) =
      (2, 5854679515581644 / 4503599627370496) ∧
    roundedEnv.time 2 = 5854679515581645 / 4503599627370496 ∧
    checkExecTraj roundedEnv 1 true false (7 / 2) = some (true, true) := by
  have hloc : locateSegment roundedEnv roundedEnv.SegNum 0 (max 0 (7 / 2)) =
      (2, 5854679515581644 / 4503599627370496) := by
    simp [locateSegment, MonitorEnv.time, roundedEnv, roundedOps, exactOps]
    norm_num
  refine ⟨?_, ?_, hloc, ?_, ?_⟩
  · intro i hi
    have h3 : i < 3 := hi
    interval_cases i <;> simp [MonitorEnv.time, roundedEnv] <;> norm_num
  · simp [Finset.sum_range_succ, MonitorEnv.time, roundedEnv]
    norm_num
  · simp [MonitorEnv.time, roundedEnv]
  · unfold checkExecTraj
    rw [hloc]
    simp [walkFrom, walkSegment, lookAhead, checkCoordObs, MonitorEnv.time, roundedEnv,
      roundedOps, exactOps]
    norm_num

end Btraj
